import Mathlib

/-!
# sgg-todolist-service: repositories and request handlers

A shallow embedding of the persistence layer (`internal/repository`), of the
storage interface it talks to (`pkg/storage/sql`) and of the request handlers
(`internal/grpc/todolist`) of the to-do list service.

Conventions of the embedding:

* a Go `error` is an `Option Err` (`none` is `nil`);
* a Go pointer or slice result that may be `nil` is an `Option`;
* a method of a repository is a function of the database handle `db`, its
  arguments and the state of the database, and returns its Go results paired
  with the next state;
* `time.Now()` is an argument `now` of the functions that read the clock.
-/

namespace todolist

/-! ## Data model (`internal/model`) -/

/-- Identifiers are UUIDs, read as 128-bit numbers. -/
abbrev UUID := Nat

/-- The all-zero identifier `uuid.Nil`. -/
def uuid.Nil : UUID := 0

/-- Instants (`time.Time`), as a number of ticks. -/
abbrev Time := Nat

/-- Errors. The first four are the sentinels of package `repository`, the next
three are the sentinels of `database/sql` the code and its tests name, `other`
is any other error value and `wrapped` an error that wraps a cause. -/
inductive Err where
  | ErrTaskNotFound
  | ErrCommentNotFound
  | ErrLabelNotFound
  | ErrLabelAlreadyExists
  | ErrNoRows
  | ErrConnDone
  | ErrTxDone
  | other (msg : String)
  | wrapped (msg : String) (cause : Err)
  deriving DecidableEq, Repr

/-- The function `errors.Is`: the error or one of the causes it wraps is the target. -/
def errors.Is : Err → Err → Bool
  | .wrapped msg cause, target =>
      decide (Err.wrapped msg cause = target) || errors.Is cause target
  | e, target => decide (e = target)

/-- The struct `model.Comment`. -/
structure Comment where
  Id : UUID
  TaskId : UUID
  Value : String
  CreatedAt : Time
  DeletedAt : Option Time
  deriving DecidableEq, Repr

/-- The struct `model.Label`. -/
structure Label where
  Id : UUID
  TaskId : UUID
  Value : String
  CreatedAt : Time
  DeletedAt : Option Time
  deriving DecidableEq, Repr

/-- The struct `model.Task`. -/
structure Task where
  Id : UUID
  Value : String
  Completed : Bool
  DueDate : Option Time
  CreatedAt : Time
  UpdatedAt : Time
  DeletedAt : Option Time
  Comments : List Comment
  Labels : List Label
  deriving DecidableEq, Repr

/-! ## Statements and the storage interface (`pkg/storage/sql`) -/

/-- The statements the repositories build with squirrel, one constructor per
builder expression of the source, holding the bound arguments. Every `select`
and every `update` carries the filter `deleted_at IS NULL` of the source. -/
inductive Stmt where
  /-- The query of `GetTask`: `SELECT .. FROM tasks WHERE deleted_at IS NULL AND id = $1 LIMIT limit`. -/
  | selectTask (id : UUID) (limit : Nat)
  /-- The query of `GetTasks`: `SELECT .. FROM tasks WHERE deleted_at IS NULL LIMIT limit OFFSET offset`. -/
  | selectTasks (limit offset : Nat)
  /-- The statement of `CreateTask`: `INSERT INTO tasks (value,due_date) VALUES ($1,$2) RETURNING ..`. -/
  | insertTask (value : String) (dueDate : Option Time)
  /-- The statement of `UpdateTask`: `UPDATE tasks SET value, completed, due_date, updated_at WHERE deleted_at IS NULL AND id = $5`. -/
  | updateTask (value : String) (completed : Bool) (dueDate : Option Time) (updatedAt : Time) (id : UUID)
  /-- The statement of `DeleteTask`: `UPDATE tasks SET deleted_at = $1 WHERE deleted_at IS NULL AND id = $2`. -/
  | deleteTask (deletedAt : Time) (id : UUID)
  /-- The statement of `CreateComment`: `INSERT INTO comments (task_id,value) VALUES ($1,$2) RETURNING ..`. -/
  | insertComment (taskId : UUID) (value : String)
  /-- The query of `GetCommentsByTaskId`: `SELECT .. FROM comments WHERE deleted_at IS NULL AND task_id = $1`. -/
  | selectComments (taskId : UUID)
  /-- The statement of `DeleteCommentByTaskIdAndCommentId`. -/
  | deleteComment (deletedAt : Time) (taskId : UUID) (id : UUID)
  /-- The first query of `CreateLabel`: `SELECT COUNT(id) FROM labels WHERE deleted_at IS NULL AND task_id = $1 AND value = $2`. -/
  | countLabels (taskId : UUID) (value : String)
  /-- The second statement of `CreateLabel`: `INSERT INTO labels (task_id,value) VALUES ($1,$2) RETURNING ..`. -/
  | insertLabel (taskId : UUID) (value : String)
  /-- The query of `GetLabelsByTaskId`: `SELECT .. FROM labels WHERE deleted_at IS NULL AND task_id = $1`. -/
  | selectLabels (taskId : UUID)
  /-- The statement of `DeleteLabelByTaskIdAndLabelId`. -/
  | deleteLabel (deletedAt : Time) (taskId : UUID) (id : UUID)
  deriving DecidableEq, Repr

/-- The builders' `ToSql()`: the statement and the builder's error. squirrel
fails only for a builder without a table, without columns or without values (or
with an argument that is itself a failing builder); every builder expression of
this repository names them with plain values, so the error is always `nil`. -/
def ToSql (q : Stmt) : Stmt × Option Err := (q, none)

/-- The columns of one result row. -/
inductive Cols where
  | count (n : Int)
  | task (t : Task)
  | comment (c : Comment)
  | label (l : Label)
  deriving DecidableEq, Repr

/-- The message of a `Scan` whose destinations do not fit the row. -/
def scanMismatch : Err := .other "sql: Scan error"

/-- A `*sql.Row`: the deferred error of the query (`row.Err()`) and, when that
is `nil`, what scanning the row gives (`sql.ErrNoRows` when there is no row). -/
structure SqlRow where
  err : Option Err
  Cells : Except Err Cols

/-- Scanning one row into an `int64` destination (`Scan(&count)`). -/
def scanCount : Except Err Cols → Except Err Int
  | .error e => .error e
  | .ok (.count n) => .ok n
  | .ok _ => .error scanMismatch

/-- Scanning one row into the seven column fields of a `model.Task`; the fields
`Comments` and `Labels` of the destination keep their zero value. -/
def scanTask : Except Err Cols → Except Err Task
  | .error e => .error e
  | .ok (.task t) => .ok { t with Comments := [], Labels := [] }
  | .ok _ => .error scanMismatch

/-- Scanning one row into the five fields of a `model.Comment`. -/
def scanComment : Except Err Cols → Except Err Comment
  | .error e => .error e
  | .ok (.comment c) => .ok c
  | .ok _ => .error scanMismatch

/-- Scanning one row into the five fields of a `model.Label`. -/
def scanLabel : Except Err Cols → Except Err Label
  | .error e => .error e
  | .ok (.label l) => .ok l
  | .ok _ => .error scanMismatch

/-- The method `(*sql.Row).Scan`: the deferred error of the query when there is
one, else the scan of the row. -/
def SqlRow.Scan {α : Type} (row : SqlRow) (dest : Except Err Cols → Except Err α) : Except Err α :=
  match row.err with
  | some e => .error e
  | none => dest row.Cells

/-- A `*sql.Rows`: what `rows.Scan` gives for each row `rows.Next()` delivers,
in order. -/
abbrev SqlRows := List (Except Err Cols)

/-- A `sql.Result`: what `result.RowsAffected()` gives. -/
structure SqlResult where
  RowsAffected : Except Err Int

/-- The interface `storage.DB`, with the methods of the `*sql.Tx` it hands out,
over a database whose state has type `σ`. -/
structure DB (σ : Type) where
  BeginTx : σ → Option Err × σ
  TxQueryRowContext : Stmt → σ → SqlRow × σ
  Commit : σ → Option Err × σ
  Rollback : σ → Option Err × σ
  ExecContext : Stmt → σ → Except Err SqlResult × σ
  QueryContext : Stmt → σ → Except Err SqlRows × σ
  QueryRowContext : Stmt → σ → SqlRow × σ

/-! ## `internal/repository/common.go` -/

namespace repository

/-- The page size `limitPage`. -/
def limitPage : Nat := 20

/-- The row limit `limitOne`. -/
def limitOne : Nat := 1

/-- The value of an `int32` computation: two's complement wrap-around. -/
def wrapInt32 (x : Int) : Int := (x + 2 ^ 31) % 2 ^ 32 - 2 ^ 31

/-- The conversion `uint64(x)` of a signed integer. -/
def toUint64 (x : Int) : Nat := (x % 2 ^ 64).toNat

/-- The function `GetOffset(page int32, pageSize uint64) uint64`. -/
def GetOffset (page : Int) (pageSize : Nat) : Nat :=
  let value : Int := page
  let value : Int := if value < 1 then 1 else value
  (toUint64 (wrapInt32 (value - 1)) * pageSize) % 2 ^ 64

/-- The deferred closure of the three `Create` methods. It reads the variable
`err` declared at the top of the method: `Rollback` when it is not `nil`,
`Commit` otherwise; an error of either call is logged and dropped. -/
def deferred {σ : Type} (db : DB σ) (err : Option Err) (s : σ) : σ :=
  match err with
  | some _ => (db.Rollback s).2
  | none => (db.Commit s).2

/-! ## `internal/repository/task_repository.go` -/

/-- The method `taskRepository.GetTask`. -/
def taskRepository.GetTask {σ : Type} (db : DB σ) (id : UUID) (s : σ) :
    (Option Task × Option Err) × σ :=
  let (query, err) := ToSql (.selectTask id limitOne)
  match err with
  | some e => ((none, some e), s)
  | none =>
    let (row, s) := db.QueryRowContext query s
    match row.Scan scanTask with
    | .error e =>
      if errors.Is e .ErrNoRows then ((none, some .ErrTaskNotFound), s)
      else ((none, some e), s)
    | .ok task => ((some task, none), s)

/-- The loop `for rows.Next()` of `GetTasks`: scan each row and append it; the
first scan error ends the method with a nil slice. -/
def taskRepository.scanRows : SqlRows → List Task → Option (List Task) × Option Err
  | [], tasks => (some tasks, none)
  | r :: rows, tasks =>
    match scanTask r with
    | .error e => (none, some e)
    | .ok task => taskRepository.scanRows rows (tasks ++ [task])

/-- The method `taskRepository.GetTasks`. -/
def taskRepository.GetTasks {σ : Type} (db : DB σ) (page : Int) (s : σ) :
    (Option (List Task) × Option Err) × σ :=
  let (query, err) := ToSql (.selectTasks limitPage (GetOffset page limitPage))
  match err with
  | some e => ((none, some e), s)
  | none =>
    match db.QueryContext query s with
    | (.error e, s) => ((none, some e), s)
    | (.ok rows, s) => (taskRepository.scanRows rows [], s)

/-- The method `taskRepository.CreateTask`. The variable `err` of the method is
assigned by `BeginTx` and by `ToSql`; the errors of `row.Err()` and `row.Scan`
live in variables of their own `if` statement, which shadow it. -/
def taskRepository.CreateTask {σ : Type} (db : DB σ) (newTask : Task) (s : σ) :
    (Option Task × Option Err) × σ :=
  match db.BeginTx s with
  | (some e, s) => ((none, some e), s)
  | (none, s) =>
    let (query, err) := ToSql (.insertTask newTask.Value newTask.DueDate)
    match err with
    | some e => ((none, some e), deferred db err s)
    | none =>
      let (row, s) := db.TxQueryRowContext query s
      match row.err with
      | some e => ((none, some e), deferred db err s)
      | none =>
        match row.Scan scanTask with
        | .error e => ((none, some e), deferred db err s)
        | .ok task => ((some task, none), deferred db err s)

/-- The method `taskRepository.UpdateTask`; `now` is the value of `time.Now()`. -/
def taskRepository.UpdateTask {σ : Type} (db : DB σ) (now : Time) (task : Task) (s : σ) :
    Option Err × σ :=
  let (query, err) :=
    ToSql (.updateTask task.Value task.Completed task.DueDate now task.Id)
  match err with
  | some e => (some e, s)
  | none =>
    let (row, s) := db.QueryRowContext query s
    match row.err with
    | some e =>
      if errors.Is e .ErrNoRows then (some .ErrTaskNotFound, s)
      else (some e, s)
    | none => (none, s)

/-- The method `taskRepository.DeleteTask`; `now` is the value of `time.Now()`. -/
def taskRepository.DeleteTask {σ : Type} (db : DB σ) (now : Time) (id : UUID) (s : σ) :
    Option Err × σ :=
  let (query, err) := ToSql (.deleteTask now id)
  match err with
  | some e => (some e, s)
  | none =>
    match db.ExecContext query s with
    | (.error e, s) => (some e, s)
    | (.ok result, s) =>
      match result.RowsAffected with
      | .error e => (some e, s)
      | .ok affected =>
        if affected = 0 then (some .ErrTaskNotFound, s)
        else (none, s)

/-! ## `internal/repository/comment_repository.go` -/

/-- The method `commentRepository.CreateComment`. -/
def commentRepository.CreateComment {σ : Type} (db : DB σ) (newComment : Comment) (s : σ) :
    (Option Comment × Option Err) × σ :=
  match db.BeginTx s with
  | (some e, s) => ((none, some e), s)
  | (none, s) =>
    let (query, err) := ToSql (.insertComment newComment.TaskId newComment.Value)
    match err with
    | some e => ((none, some e), deferred db err s)
    | none =>
      let (row, s) := db.TxQueryRowContext query s
      match row.err with
      | some e => ((none, some e), deferred db err s)
      | none =>
        match row.Scan scanComment with
        | .error e => ((none, some e), deferred db err s)
        | .ok comment => ((some comment, none), deferred db err s)

/-- The loop `for rows.Next()` of `GetCommentsByTaskId`. -/
def commentRepository.scanRows : SqlRows → List Comment → Option (List Comment) × Option Err
  | [], comments => (some comments, none)
  | r :: rows, comments =>
    match scanComment r with
    | .error e => (none, some e)
    | .ok comment => commentRepository.scanRows rows (comments ++ [comment])

/-- The method `commentRepository.GetCommentsByTaskId`. -/
def commentRepository.GetCommentsByTaskId {σ : Type} (db : DB σ) (taskId : UUID) (s : σ) :
    (Option (List Comment) × Option Err) × σ :=
  let (query, err) := ToSql (.selectComments taskId)
  match err with
  | some e => ((none, some e), s)
  | none =>
    match db.QueryContext query s with
    | (.error e, s) => ((none, some e), s)
    | (.ok rows, s) => (commentRepository.scanRows rows [], s)

/-- The method `commentRepository.DeleteCommentByTaskIdAndCommentId`. -/
def commentRepository.DeleteCommentByTaskIdAndCommentId {σ : Type} (db : DB σ) (now : Time)
    (taskId commentId : UUID) (s : σ) : Option Err × σ :=
  let (query, err) := ToSql (.deleteComment now taskId commentId)
  match err with
  | some e => (some e, s)
  | none =>
    match db.ExecContext query s with
    | (.error e, s) => (some e, s)
    | (.ok result, s) =>
      match result.RowsAffected with
      | .error e => (some e, s)
      | .ok affected =>
        if affected = 0 then (some .ErrCommentNotFound, s)
        else (none, s)

/-! ## `internal/repository/label_repository.go` -/

/-- The method `labelRepository.CreateLabel`. The error of the first `ToSql` is
stored in the variable `err` of the method and not tested; the errors of
`row.Err()` and `row.Scan` shadow that variable, and the return of
`ErrLabelAlreadyExists` does not assign it. -/
def labelRepository.CreateLabel {σ : Type} (db : DB σ) (newLabel : Label) (s : σ) :
    (Option Label × Option Err) × σ :=
  match db.BeginTx s with
  | (some e, s) => ((none, some e), s)
  | (none, s) =>
    let (query, err) := ToSql (.countLabels newLabel.TaskId newLabel.Value)
    let (row, s) := db.TxQueryRowContext query s
    match row.err with
    | some e => ((none, some e), deferred db err s)
    | none =>
      match row.Scan scanCount with
      | .error e => ((none, some e), deferred db err s)
      | .ok count =>
        if count > 0 then ((none, some .ErrLabelAlreadyExists), deferred db err s)
        else
          let (query, err) := ToSql (.insertLabel newLabel.TaskId newLabel.Value)
          match err with
          | some e => ((none, some e), deferred db err s)
          | none =>
            let (row, s) := db.TxQueryRowContext query s
            match row.err with
            | some e => ((none, some e), deferred db err s)
            | none =>
              match row.Scan scanLabel with
              | .error e => ((none, some e), deferred db err s)
              | .ok label => ((some label, none), deferred db err s)

/-- The loop `for rows.Next()` of `GetLabelsByTaskId`. -/
def labelRepository.scanRows : SqlRows → List Label → Option (List Label) × Option Err
  | [], labels => (some labels, none)
  | r :: rows, labels =>
    match scanLabel r with
    | .error e => (none, some e)
    | .ok label => labelRepository.scanRows rows (labels ++ [label])

/-- The method `labelRepository.GetLabelsByTaskId`. -/
def labelRepository.GetLabelsByTaskId {σ : Type} (db : DB σ) (taskId : UUID) (s : σ) :
    (Option (List Label) × Option Err) × σ :=
  let (query, err) := ToSql (.selectLabels taskId)
  match err with
  | some e => ((none, some e), s)
  | none =>
    match db.QueryContext query s with
    | (.error e, s) => ((none, some e), s)
    | (.ok rows, s) => (labelRepository.scanRows rows [], s)

/-- The method `labelRepository.DeleteLabelByTaskIdAndLabelId`. -/
def labelRepository.DeleteLabelByTaskIdAndLabelId {σ : Type} (db : DB σ) (now : Time)
    (taskId labelId : UUID) (s : σ) : Option Err × σ :=
  let (query, err) := ToSql (.deleteLabel now taskId labelId)
  match err with
  | some e => (some e, s)
  | none =>
    match db.ExecContext query s with
    | (.error e, s) => (some e, s)
    | (.ok result, s) =>
      match result.RowsAffected with
      | .error e => (some e, s)
      | .ok affected =>
        if affected = 0 then (some .ErrLabelNotFound, s)
        else (none, s)

end repository

/-! ## A scripted database that records its calls

The counterpart of the `sqlmock` handle of the repository tests: every call is
appended to a log, and its outcome is given by the script as a function of the
calls made so far (and of the statement). A statement about every `Mock` is a
statement about every behaviour of the storage. -/

/-- One call on the database handle or on the transaction it handed out. -/
inductive Call where
  | BeginTx
  | Commit
  | Rollback
  | TxQueryRowContext (q : Stmt)
  | QueryRowContext (q : Stmt)
  | QueryContext (q : Stmt)
  | ExecContext (q : Stmt)
  deriving DecidableEq, Repr

/-- The script of a scripted database and the log of the calls made on it. -/
structure Mock where
  onBeginTx : List Call → Option Err
  onCommit : List Call → Option Err
  onRollback : List Call → Option Err
  onQueryRow : List Call → Stmt → SqlRow
  onQuery : List Call → Stmt → Except Err SqlRows
  onExec : List Call → Stmt → Except Err SqlResult
  log : List Call

/-- Append a call to the log. -/
def Mock.record (m : Mock) (c : Call) : Mock := { m with log := m.log ++ [c] }

/-- The scripted database as a `storage.DB`. -/
def mockDB : DB Mock where
  BeginTx m := (m.onBeginTx m.log, m.record .BeginTx)
  TxQueryRowContext q m := (m.onQueryRow m.log q, m.record (.TxQueryRowContext q))
  Commit m := (m.onCommit m.log, m.record .Commit)
  Rollback m := (m.onRollback m.log, m.record .Rollback)
  ExecContext q m := (m.onExec m.log q, m.record (.ExecContext q))
  QueryContext q m := (m.onQuery m.log q, m.record (.QueryContext q))
  QueryRowContext q m := (m.onQueryRow m.log q, m.record (.QueryRowContext q))

/-! ## The relational store -/

/-- Modelled from the spec: the three tables of the relational storage, whose
schema is not part of the sources. Rows are kept in insertion order; `nextId`
is the identifier the storage assigns to the next created row and `clock` the
storage's current time, used for the creation and last-update timestamps of a
created row. -/
structure Store where
  tasks : List Task
  comments : List Comment
  labels : List Label
  nextId : UUID
  clock : Time
  deriving DecidableEq, Repr

/-- Modelled from the spec: what a statement does to the store (the statement's
SQL text read on the tables described in the spec's data model, which are not
part of the sources). The result is the next store, the rows the statement
returns and the number of rows it affected. An insert appends one non-deleted
row with a storage-assigned identifier and creation time (and, for a task,
`completed = false`); storage keeps no foreign key and no unique index. -/
def Store.run (st : Store) : Stmt → Store × List Cols × Int
  | .selectTask id limit =>
    let rows := (st.tasks.filter (fun t => decide (t.DeletedAt = none ∧ t.Id = id))).take limit
    (st, rows.map .task, rows.length)
  | .selectTasks limit offset =>
    let rows := ((st.tasks.filter (fun t => decide (t.DeletedAt = none))).drop offset).take limit
    (st, rows.map .task, rows.length)
  | .insertTask value dueDate =>
    let row : Task :=
      { Id := st.nextId, Value := value, Completed := false, DueDate := dueDate,
        CreatedAt := st.clock, UpdatedAt := st.clock, DeletedAt := none,
        Comments := [], Labels := [] }
    ({ st with tasks := st.tasks ++ [row], nextId := st.nextId + 1 }, [.task row], 1)
  | .updateTask value completed dueDate updatedAt id =>
    let hit := fun (t : Task) => decide (t.DeletedAt = none ∧ t.Id = id)
    ({ st with tasks := st.tasks.map (fun t =>
        if hit t then
          { t with Value := value, Completed := completed, DueDate := dueDate,
                   UpdatedAt := updatedAt }
        else t) },
      [], (st.tasks.filter hit).length)
  | .deleteTask deletedAt id =>
    let hit := fun (t : Task) => decide (t.DeletedAt = none ∧ t.Id = id)
    ({ st with tasks := st.tasks.map (fun t =>
        if hit t then { t with DeletedAt := some deletedAt } else t) },
      [], (st.tasks.filter hit).length)
  | .insertComment taskId value =>
    let row : Comment :=
      { Id := st.nextId, TaskId := taskId, Value := value, CreatedAt := st.clock,
        DeletedAt := none }
    ({ st with comments := st.comments ++ [row], nextId := st.nextId + 1 }, [.comment row], 1)
  | .selectComments taskId =>
    let rows := st.comments.filter (fun c => decide (c.DeletedAt = none ∧ c.TaskId = taskId))
    (st, rows.map .comment, rows.length)
  | .deleteComment deletedAt taskId id =>
    let hit := fun (c : Comment) => decide (c.DeletedAt = none ∧ c.TaskId = taskId ∧ c.Id = id)
    ({ st with comments := st.comments.map (fun c =>
        if hit c then { c with DeletedAt := some deletedAt } else c) },
      [], (st.comments.filter hit).length)
  | .countLabels taskId value =>
    let rows := st.labels.filter
      (fun l => decide (l.DeletedAt = none ∧ l.TaskId = taskId ∧ l.Value = value))
    (st, [.count rows.length], 1)
  | .insertLabel taskId value =>
    let row : Label :=
      { Id := st.nextId, TaskId := taskId, Value := value, CreatedAt := st.clock,
        DeletedAt := none }
    ({ st with labels := st.labels ++ [row], nextId := st.nextId + 1 }, [.label row], 1)
  | .selectLabels taskId =>
    let rows := st.labels.filter (fun l => decide (l.DeletedAt = none ∧ l.TaskId = taskId))
    (st, rows.map .label, rows.length)
  | .deleteLabel deletedAt taskId id =>
    let hit := fun (l : Label) => decide (l.DeletedAt = none ∧ l.TaskId = taskId ∧ l.Id = id)
    ({ st with labels := st.labels.map (fun l =>
        if hit l then { l with DeletedAt := some deletedAt } else l) },
      [], (st.labels.filter hit).length)

/-- The state of a store behind one connection: the tables, and inside a
transaction the tables as they were when it began. -/
structure Conn where
  store : Store
  tx : Option Store
  deriving DecidableEq, Repr

/-- The `*sql.Row` of a statement that returned the given rows: its first row,
or `sql.ErrNoRows` at `Scan` when there is none. -/
def firstRow (rows : List Cols) : SqlRow :=
  { err := none
    Cells := match rows with
      | [] => .error .ErrNoRows
      | c :: _ => .ok c }

/-- Modelled from the spec: the relational store as a `storage.DB` that never
fails. Statements take effect at once; `Rollback` restores the tables of the
beginning of the transaction, and ending a transaction that is not open gives
`sql.ErrTxDone`. -/
def storeDB : DB Conn where
  BeginTx c := (none, { c with tx := some c.store })
  TxQueryRowContext q c :=
    let r := c.store.run q
    (firstRow r.2.1, { c with store := r.1 })
  Commit c :=
    match c.tx with
    | some _ => (none, { c with tx := none })
    | none => (some .ErrTxDone, c)
  Rollback c :=
    match c.tx with
    | some before => (none, { store := before, tx := none })
    | none => (some .ErrTxDone, c)
  ExecContext q c :=
    let r := c.store.run q
    (.ok { RowsAffected := .ok r.2.2 }, { c with store := r.1 })
  QueryContext q c :=
    let r := c.store.run q
    (.ok (r.2.1.map .ok), { c with store := r.1 })
  QueryRowContext q c :=
    let r := c.store.run q
    (firstRow r.2.1, { c with store := r.1 })

/-! ## The repositories as interfaces (`TaskRepository`, `CommentRepository`, `LabelRepository`) -/

namespace repository

/-- The interface `TaskRepository`; the methods that read `time.Now()` take its
value first. -/
structure TaskRepository (σ : Type) where
  GetTask : UUID → σ → (Option Task × Option Err) × σ
  GetTasks : Int → σ → (Option (List Task) × Option Err) × σ
  CreateTask : Task → σ → (Option Task × Option Err) × σ
  UpdateTask : Time → Task → σ → Option Err × σ
  DeleteTask : Time → UUID → σ → Option Err × σ

/-- The interface `CommentRepository`. -/
structure CommentRepository (σ : Type) where
  CreateComment : Comment → σ → (Option Comment × Option Err) × σ
  GetCommentsByTaskId : UUID → σ → (Option (List Comment) × Option Err) × σ
  DeleteCommentByTaskIdAndCommentId : Time → UUID → UUID → σ → Option Err × σ

/-- The interface `LabelRepository`. -/
structure LabelRepository (σ : Type) where
  CreateLabel : Label → σ → (Option Label × Option Err) × σ
  GetLabelsByTaskId : UUID → σ → (Option (List Label) × Option Err) × σ
  DeleteLabelByTaskIdAndLabelId : Time → UUID → UUID → σ → Option Err × σ

/-- The constructor `NewTaskRepository`. -/
def NewTaskRepository {σ : Type} (db : DB σ) : TaskRepository σ where
  GetTask := taskRepository.GetTask db
  GetTasks := taskRepository.GetTasks db
  CreateTask := taskRepository.CreateTask db
  UpdateTask := taskRepository.UpdateTask db
  DeleteTask := taskRepository.DeleteTask db

/-- The constructor `NewCommentRepository`. -/
def NewCommentRepository {σ : Type} (db : DB σ) : CommentRepository σ where
  CreateComment := commentRepository.CreateComment db
  GetCommentsByTaskId := commentRepository.GetCommentsByTaskId db
  DeleteCommentByTaskIdAndCommentId := commentRepository.DeleteCommentByTaskIdAndCommentId db

/-- The constructor `NewLabelRepository`. -/
def NewLabelRepository {σ : Type} (db : DB σ) : LabelRepository σ where
  CreateLabel := labelRepository.CreateLabel db
  GetLabelsByTaskId := labelRepository.GetLabelsByTaskId db
  DeleteLabelByTaskIdAndLabelId := labelRepository.DeleteLabelByTaskIdAndLabelId db

/-- The text of an error (`err.Error()`). -/
def Error : Err → String
  | .ErrTaskNotFound => "task not found"
  | .ErrCommentNotFound => "comment not found"
  | .ErrLabelNotFound => "label not found"
  | .ErrLabelAlreadyExists => "label already exists"
  | .ErrNoRows => "sql: no rows in result set"
  | .ErrConnDone => "sql: connection is already closed"
  | .ErrTxDone => "sql: transaction has already been committed or rolled back"
  | .other msg => msg
  | .wrapped msg _ => msg

end repository

/-! ## `tools` and the library functions the handlers call -/

/-- The status codes of `google.golang.org/grpc/codes` the service uses. -/
inductive Code where
  | InvalidArgument
  | NotFound
  | AlreadyExists
  | Internal
  deriving DecidableEq, Repr

/-- A `*status.Status`, which is also the error a handler returns (`.Err()`). -/
structure Status where
  code : Code
  message : String
  deriving DecidableEq, Repr

/-- The library and runtime functions the handlers call, as parameters. -/
structure Env where
  /-- The parser `uuid.FromString` of `github.com/satori/go.uuid`. -/
  FromString : String → Except Err UUID
  /-- The method `UUID.String()`. -/
  UUIDString : UUID → String
  /-- The table lookup `unicode.To(unicode.LowerCase, r)`, used by
  `unicode.ToLower` for the runes above `unicode.MaxASCII`. -/
  lowerCase : Char → Char
  /-- The method `time.Time.Format(layout)`. -/
  Format : Time → String → String
  /-- The function `time.Parse(layout, value)`. -/
  Parse : String → String → Except Err Time
  /-- The table lookup `isExcludingLatin(White_Space, r)`, used by
  `unicode.IsSpace` for the runes above `unicode.MaxLatin1`. -/
  whiteSpace : Char → Bool
  /-- The function `tools.SetStatusCode(ctx, code)`, whose file is not part of
  the sources: the error of sending the status header. -/
  SetStatusCode : Nat → Option Err

namespace tools

/-- The status `ErrStatusIdMustBeUUID`. -/
def ErrStatusIdMustBeUUID : Status := ⟨.InvalidArgument, "the id must be uuid"⟩

/-- The status `ErrStatusIdMusBeValidUUID`. -/
def ErrStatusIdMusBeValidUUID : Status := ⟨.InvalidArgument, "the id must be a valid uuid"⟩

/-- The function `GetValidUUID`. -/
def GetValidUUID (env : Env) (id : String) : UUID × Option Status :=
  match env.FromString id with
  | .error _ => (uuid.Nil, some ErrStatusIdMustBeUUID)
  | .ok validUUID =>
    if validUUID = uuid.Nil then (uuid.Nil, some ErrStatusIdMusBeValidUUID)
    else (validUUID, none)

/-- The constant `TimeLayout`. -/
def TimeLayout : String := "2006-01-02T15:04:05.000Z"

/-- The function `FormatDate`. -/
def FormatDate (env : Env) (t : Time) : String := env.Format t TimeLayout

end tools

/-- The function `unicode.ToLower`: the ASCII letters by arithmetic, every
other rune through the case table. -/
def unicode.ToLower (env : Env) (r : Char) : Char :=
  if r.toNat ≤ 127 then
    (if 'A'.toNat ≤ r.toNat ∧ r.toNat ≤ 'Z'.toNat then Char.ofNat (r.toNat + ('a'.toNat - 'A'.toNat))
     else r)
  else env.lowerCase r

/-- The function `strings.ToLower` on a valid UTF-8 string (a request field
always is one): every rune mapped through `unicode.ToLower`. -/
def strings.ToLower (env : Env) (s : String) : String :=
  String.mk (s.data.map (unicode.ToLower env))

/-- The function `unicode.IsSpace`: in Latin-1 the runes tab, line feed,
vertical tab, form feed, carriage return, space, U+0085 and U+00A0; every other
rune through the table of the `White_Space` property. -/
def unicode.IsSpace (env : Env) (r : Char) : Bool :=
  if r.toNat ≤ 255 then
    decide (r.toNat = 9 ∨ r.toNat = 10 ∨ r.toNat = 11 ∨ r.toNat = 12 ∨ r.toNat = 13
      ∨ r.toNat = 32 ∨ r.toNat = 133 ∨ r.toNat = 160)
  else env.whiteSpace r

/-- The function `strings.TrimSpace` on a valid UTF-8 string: the string without
its leading and trailing white space. -/
def strings.TrimSpace (env : Env) (s : String) : String :=
  String.mk (((s.data.dropWhile (unicode.IsSpace env)).reverse.dropWhile
    (unicode.IsSpace env)).reverse)

/-- The builtin `len` of a string: its number of bytes. -/
def len (s : String) : Nat := s.utf8ByteSize

/-! ## `internal/grpc/todolist` -/

namespace pbTodoList

/-- The message `Label`. -/
structure Label where
  Id : String
  Name : String
  CreatedAt : String
  deriving DecidableEq, Repr

/-- The message `CreateLabelRequest`. -/
structure CreateLabelRequest where
  Id : String
  Label : String
  deriving DecidableEq, Repr

/-- The message `CreateLabelResponse`. -/
structure CreateLabelResponse where
  Label : pbTodoList.Label
  deriving DecidableEq, Repr

/-- The message `Comment`. -/
structure Comment where
  Id : String
  Message : String
  CreatedAt : String
  deriving DecidableEq, Repr

/-- The message `Task`; an absent due date is the empty string. -/
structure Task where
  Id : String
  Value : String
  Completed : Bool
  DueDate : String
  CreatedAt : String
  UpdatedAt : String
  deriving DecidableEq, Repr

/-- The message `GetTaskRequest`. -/
structure GetTaskRequest where
  Id : String
  deriving DecidableEq, Repr

/-- The message `GetTaskResponse`. -/
structure GetTaskResponse where
  Id : String
  Value : String
  Completed : Bool
  DueDate : String
  CreatedAt : String
  UpdatedAt : String
  Comments : List pbTodoList.Comment
  Labels : List pbTodoList.Label
  deriving DecidableEq, Repr

/-- The message `UpdateTaskRequest`. -/
structure UpdateTaskRequest where
  Id : String
  Value : String
  Completed : Bool
  DueDate : String
  deriving DecidableEq, Repr

/-- The message `UpdateTaskResponse`. -/
structure UpdateTaskResponse where
  Task : pbTodoList.Task
  deriving DecidableEq, Repr

/-- The message `DeleteTaskRequest`. -/
structure DeleteTaskRequest where
  Id : String
  deriving DecidableEq, Repr

/-- The message `UpdateTaskStatusRequest`. -/
structure UpdateTaskStatusRequest where
  Id : String
  Completed : Bool
  deriving DecidableEq, Repr

/-- The message `GetCommentsRequest`. -/
structure GetCommentsRequest where
  Id : String
  deriving DecidableEq, Repr

/-- The message `GetCommentsResponse`. -/
structure GetCommentsResponse where
  Comments : List pbTodoList.Comment
  deriving DecidableEq, Repr

/-- The message `CreateCommentRequest`. -/
structure CreateCommentRequest where
  Id : String
  Comment : String
  deriving DecidableEq, Repr

/-- The message `CreateCommentResponse`. -/
structure CreateCommentResponse where
  Comment : pbTodoList.Comment
  deriving DecidableEq, Repr

/-- The message `DeleteCommentRequest`. -/
structure DeleteCommentRequest where
  Id : String
  CommentId : String
  deriving DecidableEq, Repr

/-- The message `GetLabelsRequest`. -/
structure GetLabelsRequest where
  Id : String
  deriving DecidableEq, Repr

/-- The message `GetLabelsResponse`. -/
structure GetLabelsResponse where
  Labels : List pbTodoList.Label
  deriving DecidableEq, Repr

/-- The message `DeleteLabelRequest`. -/
structure DeleteLabelRequest where
  Id : String
  LabelId : String
  deriving DecidableEq, Repr

/-- The message `GetTasksRequest`; `Page` is an `int32`. -/
structure GetTasksRequest where
  Page : Int
  deriving DecidableEq, Repr

/-- The message `GetTasksResponse`. -/
structure GetTasksResponse where
  Tasks : List pbTodoList.Task
  deriving DecidableEq, Repr

/-- The message `CreateTaskRequest`. -/
structure CreateTaskRequest where
  Value : String
  DueDate : String
  deriving DecidableEq, Repr

/-- The message `CreateTaskResponse`. -/
structure CreateTaskResponse where
  Task : pbTodoList.Task
  deriving DecidableEq, Repr

end pbTodoList

/-- The message `emptypb.Empty`. -/
inductive emptypb.Empty where
  | mk
  deriving DecidableEq, Repr

/-- The status `ErrStatusInternalServerError`. -/
def ErrStatusInternalServerError : Status := ⟨.Internal, "internal server error"⟩

/-- The status `ErrStatusTaskNotFound`. -/
def ErrStatusTaskNotFound : Status := ⟨.NotFound, repository.Error .ErrTaskNotFound⟩

/-- The status `ErrStatusCommentNotFound`. -/
def ErrStatusCommentNotFound : Status := ⟨.NotFound, repository.Error .ErrCommentNotFound⟩

/-- The status `ErrStatusErrLabelNotFound`. -/
def ErrStatusErrLabelNotFound : Status := ⟨.NotFound, repository.Error .ErrLabelNotFound⟩

/-- The status `ErrStatusLabelAlreadyExists`. -/
def ErrStatusLabelAlreadyExists : Status :=
  ⟨.AlreadyExists, repository.Error .ErrLabelAlreadyExists⟩

/-- The status `ErrStatusCannotParseTimeLayout`. -/
def ErrStatusCannotParseTimeLayout : Status := ⟨.InvalidArgument, "cannot parse timelayout"⟩

/-- The constant `http.StatusCreated`. -/
def http.StatusCreated : Nat := 201

/-- The constant `http.StatusNoContent`. -/
def http.StatusNoContent : Nat := 204

/-- The struct `todoListGRPC`. -/
structure todoListGRPC (σ : Type) where
  taskRepository : repository.TaskRepository σ
  commentRepository : repository.CommentRepository σ
  labelRepository : repository.LabelRepository σ

/-- The constructor `NewGRPC`. -/
def NewGRPC {σ : Type} (taskRepository : repository.TaskRepository σ)
    (commentRepository : repository.CommentRepository σ)
    (labelRepository : repository.LabelRepository σ) : todoListGRPC σ :=
  { taskRepository := taskRepository
    commentRepository := commentRepository
    labelRepository := labelRepository }

/-- The outcome of a handler that dereferences a nil pointer: Go panics and the
handler returns nothing, which the embedding writes as a nil response with a nil
error (no handler returns that pair otherwise). It is reached only when a
repository returns a nil value together with a nil error, which the
repositories of package `repository` never do. -/
def nilDereference {α : Type} : Option α × Option Status := (none, none)

/-- The handler `todoListGRPC.CreateLabel`. -/
def todoListGRPC.CreateLabel {σ : Type} (env : Env) (svc : todoListGRPC σ)
    (req : pbTodoList.CreateLabelRequest) (s : σ) :
    (Option pbTodoList.CreateLabelResponse × Option Status) × σ :=
  match tools.GetValidUUID env req.Id with
  | (_, some err) => ((none, some err), s)
  | (taskId, none) =>
    match svc.taskRepository.GetTask taskId s with
    | ((_, some err), s) =>
      if err = .ErrTaskNotFound then ((none, some ErrStatusTaskNotFound), s)
      else ((none, some ErrStatusInternalServerError), s)
    | ((none, none), s) => (nilDereference, s)
    | ((some task, none), s) =>
      match svc.labelRepository.CreateLabel
          { Id := uuid.Nil, TaskId := task.Id, Value := strings.ToLower env req.Label,
            CreatedAt := 0, DeletedAt := none } s with
      | ((_, some err), s) =>
        if err = .ErrLabelAlreadyExists then ((none, some ErrStatusLabelAlreadyExists), s)
        else ((none, some ErrStatusInternalServerError), s)
      | ((none, none), s) => (nilDereference, s)
      | ((some label, none), s) =>
        let response : pbTodoList.CreateLabelResponse :=
          { Label :=
              { Id := env.UUIDString label.Id
                Name := label.Value
                CreatedAt := tools.FormatDate env label.CreatedAt } }
        match env.SetStatusCode http.StatusCreated with
        | some _ => ((none, some ErrStatusInternalServerError), s)
        | none => ((some response, none), s)

/-- The handler `todoListGRPC.GetLabels`. -/
def todoListGRPC.GetLabels {σ : Type} (env : Env) (svc : todoListGRPC σ)
    (req : pbTodoList.GetLabelsRequest) (s : σ) :
    (Option pbTodoList.GetLabelsResponse × Option Status) × σ :=
  match tools.GetValidUUID env req.Id with
  | (_, some err) => ((none, some err), s)
  | (taskId, none) =>
    match svc.taskRepository.GetTask taskId s with
    | ((_, some err), s) =>
      if err = .ErrTaskNotFound then ((none, some ErrStatusTaskNotFound), s)
      else ((none, some ErrStatusInternalServerError), s)
    | ((none, none), s) => (nilDereference, s)
    | ((some task, none), s) =>
      match svc.labelRepository.GetLabelsByTaskId task.Id s with
      | ((_, some _), s) => ((none, some ErrStatusInternalServerError), s)
      | ((labels, none), s) =>
        let response : pbTodoList.GetLabelsResponse :=
          { Labels := (labels.getD []).map (fun label =>
              { Id := env.UUIDString label.Id
                Name := label.Value
                CreatedAt := tools.FormatDate env label.CreatedAt }) }
        ((some response, none), s)

/-- The handler `todoListGRPC.DeleteLabel`; `now` is the value of `time.Now()`
the repository reads. -/
def todoListGRPC.DeleteLabel {σ : Type} (env : Env) (svc : todoListGRPC σ) (now : Time)
    (req : pbTodoList.DeleteLabelRequest) (s : σ) :
    (Option emptypb.Empty × Option Status) × σ :=
  match tools.GetValidUUID env req.Id with
  | (_, some err) => ((none, some err), s)
  | (taskId, none) =>
    match tools.GetValidUUID env req.LabelId with
    | (_, some err) => ((none, some err), s)
    | (labelId, none) =>
      match svc.labelRepository.DeleteLabelByTaskIdAndLabelId now taskId labelId s with
      | (some err, s) =>
        if err = .ErrLabelNotFound then ((none, some ErrStatusErrLabelNotFound), s)
        else ((none, some ErrStatusInternalServerError), s)
      | (none, s) =>
        match env.SetStatusCode http.StatusNoContent with
        | some _ => ((none, some ErrStatusInternalServerError), s)
        | none => ((some .mk, none), s)

/-- The handler `todoListGRPC.GetComments`. -/
def todoListGRPC.GetComments {σ : Type} (env : Env) (svc : todoListGRPC σ)
    (req : pbTodoList.GetCommentsRequest) (s : σ) :
    (Option pbTodoList.GetCommentsResponse × Option Status) × σ :=
  match tools.GetValidUUID env req.Id with
  | (_, some err) => ((none, some err), s)
  | (taskId, none) =>
    match svc.taskRepository.GetTask taskId s with
    | ((_, some err), s) =>
      if err = .ErrTaskNotFound then ((none, some ErrStatusTaskNotFound), s)
      else ((none, some ErrStatusInternalServerError), s)
    | ((none, none), s) => (nilDereference, s)
    | ((some task, none), s) =>
      match svc.commentRepository.GetCommentsByTaskId task.Id s with
      | ((_, some _), s) => ((none, some ErrStatusInternalServerError), s)
      | ((comments, none), s) =>
        let response : pbTodoList.GetCommentsResponse :=
          { Comments := (comments.getD []).map (fun comment =>
              { Id := env.UUIDString comment.Id
                Message := comment.Value
                CreatedAt := tools.FormatDate env comment.CreatedAt }) }
        ((some response, none), s)

/-- The handler `todoListGRPC.CreateComment`. -/
def todoListGRPC.CreateComment {σ : Type} (env : Env) (svc : todoListGRPC σ)
    (req : pbTodoList.CreateCommentRequest) (s : σ) :
    (Option pbTodoList.CreateCommentResponse × Option Status) × σ :=
  match tools.GetValidUUID env req.Id with
  | (_, some err) => ((none, some err), s)
  | (taskId, none) =>
    match svc.taskRepository.GetTask taskId s with
    | ((_, some err), s) =>
      if err = .ErrTaskNotFound then ((none, some ErrStatusTaskNotFound), s)
      else ((none, some ErrStatusInternalServerError), s)
    | ((none, none), s) => (nilDereference, s)
    | ((some task, none), s) =>
      match svc.commentRepository.CreateComment
          { Id := uuid.Nil, TaskId := task.Id, Value := req.Comment, CreatedAt := 0,
            DeletedAt := none } s with
      | ((_, some _), s) => ((none, some ErrStatusInternalServerError), s)
      | ((none, none), s) => (nilDereference, s)
      | ((some comment, none), s) =>
        let response : pbTodoList.CreateCommentResponse :=
          { Comment :=
              { Id := env.UUIDString comment.Id
                Message := comment.Value
                CreatedAt := tools.FormatDate env comment.CreatedAt } }
        match env.SetStatusCode http.StatusCreated with
        | some _ => ((none, some ErrStatusInternalServerError), s)
        | none => ((some response, none), s)

/-- The handler `todoListGRPC.DeleteComment`; `now` is the value of
`time.Now()` the repository reads. -/
def todoListGRPC.DeleteComment {σ : Type} (env : Env) (svc : todoListGRPC σ) (now : Time)
    (req : pbTodoList.DeleteCommentRequest) (s : σ) :
    (Option emptypb.Empty × Option Status) × σ :=
  match tools.GetValidUUID env req.Id with
  | (_, some err) => ((none, some err), s)
  | (taskId, none) =>
    match tools.GetValidUUID env req.CommentId with
    | (_, some err) => ((none, some err), s)
    | (commentId, none) =>
      match svc.commentRepository.DeleteCommentByTaskIdAndCommentId now taskId commentId s with
      | (some err, s) =>
        if err = .ErrCommentNotFound then ((none, some ErrStatusCommentNotFound), s)
        else ((none, some ErrStatusInternalServerError), s)
      | (none, s) =>
        match env.SetStatusCode http.StatusNoContent with
        | some _ => ((none, some ErrStatusInternalServerError), s)
        | none => ((some .mk, none), s)

/-- The handler `todoListGRPC.GetTask`. The comments and the labels are
fetched with the identifier of the request; `ErrCommentNotFound` and
`ErrLabelNotFound` are not failures, and ranging over a nil slice adds nothing. -/
def todoListGRPC.GetTask {σ : Type} (env : Env) (svc : todoListGRPC σ)
    (req : pbTodoList.GetTaskRequest) (s : σ) :
    (Option pbTodoList.GetTaskResponse × Option Status) × σ :=
  match tools.GetValidUUID env req.Id with
  | (_, some err) => ((none, some err), s)
  | (taskId, none) =>
    match svc.taskRepository.GetTask taskId s with
    | ((_, some err), s) =>
      if err = .ErrTaskNotFound then ((none, some ErrStatusTaskNotFound), s)
      else ((none, some ErrStatusInternalServerError), s)
    | ((none, none), s) => (nilDereference, s)
    | ((some task, none), s) =>
      let response : pbTodoList.GetTaskResponse :=
        { Id := env.UUIDString task.Id
          Value := task.Value
          Completed := task.Completed
          DueDate := ""
          CreatedAt := tools.FormatDate env task.CreatedAt
          UpdatedAt := tools.FormatDate env task.UpdatedAt
          Comments := []
          Labels := [] }
      let response : pbTodoList.GetTaskResponse :=
        match task.DueDate with
        | some dueDate => { response with DueDate := tools.FormatDate env dueDate }
        | none => response
      match svc.commentRepository.GetCommentsByTaskId taskId s with
      | ((comments, err), s) =>
        if err ≠ none ∧ err ≠ some .ErrCommentNotFound then
          ((none, some ErrStatusInternalServerError), s)
        else
          let response : pbTodoList.GetTaskResponse :=
            { response with Comments := response.Comments ++
                (comments.getD []).map (fun comment =>
                  { Id := env.UUIDString comment.Id
                    Message := comment.Value
                    CreatedAt := tools.FormatDate env comment.CreatedAt }) }
          match svc.labelRepository.GetLabelsByTaskId taskId s with
          | ((labels, err), s) =>
            if err ≠ none ∧ err ≠ some .ErrLabelNotFound then
              ((none, some ErrStatusInternalServerError), s)
            else
              let response : pbTodoList.GetTaskResponse :=
                { response with Labels := response.Labels ++
                    (labels.getD []).map (fun label =>
                      { Id := env.UUIDString label.Id
                        Name := label.Value
                        CreatedAt := tools.FormatDate env label.CreatedAt }) }
              ((some response, none), s)

/-- The task message of the responses of `GetTasks`, `CreateTask` and
`UpdateTask`; an absent due date stays the empty string. -/
def taskMessage (env : Env) (task : Task) : pbTodoList.Task :=
  let message : pbTodoList.Task :=
    { Id := env.UUIDString task.Id
      Value := task.Value
      Completed := task.Completed
      DueDate := ""
      CreatedAt := tools.FormatDate env task.CreatedAt
      UpdatedAt := tools.FormatDate env task.UpdatedAt }
  match task.DueDate with
  | some dueDate => { message with DueDate := tools.FormatDate env dueDate }
  | none => message

/-- The handler `todoListGRPC.GetTasks`. -/
def todoListGRPC.GetTasks {σ : Type} (env : Env) (svc : todoListGRPC σ)
    (req : pbTodoList.GetTasksRequest) (s : σ) :
    (Option pbTodoList.GetTasksResponse × Option Status) × σ :=
  let page : Int := req.Page
  match svc.taskRepository.GetTasks page s with
  | ((_, some _), s) => ((none, some ErrStatusInternalServerError), s)
  | ((tasks, none), s) =>
    let response : pbTodoList.GetTasksResponse :=
      { Tasks := (tasks.getD []).map (fun task => taskMessage env task) }
    ((some response, none), s)

/-- The handler `todoListGRPC.CreateTask`. The due date of the request is parsed,
as it was sent, when it is not blank. -/
def todoListGRPC.CreateTask {σ : Type} (env : Env) (svc : todoListGRPC σ)
    (req : pbTodoList.CreateTaskRequest) (s : σ) :
    (Option pbTodoList.CreateTaskResponse × Option Status) × σ :=
  let parsed : Except Status (Option Time) :=
    if len (strings.TrimSpace env req.DueDate) > 0 then
      match env.Parse tools.TimeLayout req.DueDate with
      | .error _ => .error ErrStatusCannotParseTimeLayout
      | .ok dueDateTime => .ok (some dueDateTime)
    else .ok none
  match parsed with
  | .error status => ((none, some status), s)
  | .ok dueDate =>
    match svc.taskRepository.CreateTask
        { Id := uuid.Nil, Value := req.Value, Completed := false, DueDate := dueDate,
          CreatedAt := 0, UpdatedAt := 0, DeletedAt := none, Comments := [], Labels := [] } s with
    | ((_, some _), s) => ((none, some ErrStatusInternalServerError), s)
    | ((none, none), s) => (nilDereference, s)
    | ((some task, none), s) =>
      let response : pbTodoList.CreateTaskResponse := { Task := taskMessage env task }
      match env.SetStatusCode http.StatusCreated with
      | some _ => ((none, some ErrStatusInternalServerError), s)
      | none => ((some response, none), s)

/-- The handler `todoListGRPC.UpdateTask`; `now` is the value of `time.Now()`
the repository reads. The due date of the request is parsed only when the
stored task has one. -/
def todoListGRPC.UpdateTask {σ : Type} (env : Env) (svc : todoListGRPC σ) (now : Time)
    (req : pbTodoList.UpdateTaskRequest) (s : σ) :
    (Option pbTodoList.UpdateTaskResponse × Option Status) × σ :=
  match tools.GetValidUUID env req.Id with
  | (_, some err) => ((none, some err), s)
  | (taskId, none) =>
    match svc.taskRepository.GetTask taskId s with
    | ((_, some err), s) =>
      if err = .ErrTaskNotFound then ((none, some ErrStatusTaskNotFound), s)
      else ((none, some ErrStatusInternalServerError), s)
    | ((none, none), s) => (nilDereference, s)
    | ((some task, none), s) =>
      let task : Task := { task with Completed := req.Completed }
      let task : Task := { task with Value := req.Value }
      let parsed : Except Status Task :=
        match task.DueDate with
        | some _ =>
          match env.Parse tools.TimeLayout req.DueDate with
          | .error _ => .error ErrStatusCannotParseTimeLayout
          | .ok dueDateTime => .ok { task with DueDate := some dueDateTime }
        | none => .ok task
      match parsed with
      | .error status => ((none, some status), s)
      | .ok task =>
        match svc.taskRepository.UpdateTask now task s with
        | (some _, s) => ((none, some ErrStatusInternalServerError), s)
        | (none, s) => ((some { Task := taskMessage env task }, none), s)

/-- The handler `todoListGRPC.DeleteTask`; `now` is the value of `time.Now()`
the repository reads. -/
def todoListGRPC.DeleteTask {σ : Type} (env : Env) (svc : todoListGRPC σ) (now : Time)
    (req : pbTodoList.DeleteTaskRequest) (s : σ) :
    (Option emptypb.Empty × Option Status) × σ :=
  match tools.GetValidUUID env req.Id with
  | (_, some err) => ((none, some err), s)
  | (taskId, none) =>
    match svc.taskRepository.DeleteTask now taskId s with
    | (some err, s) =>
      if err = .ErrTaskNotFound then ((none, some ErrStatusTaskNotFound), s)
      else ((none, some ErrStatusInternalServerError), s)
    | (none, s) =>
      match env.SetStatusCode http.StatusNoContent with
      | some _ => ((none, some ErrStatusInternalServerError), s)
      | none => ((some .mk, none), s)

/-- The handler `todoListGRPC.UpdateTaskStatus`; `now` is the value of
`time.Now()` the repository reads. -/
def todoListGRPC.UpdateTaskStatus {σ : Type} (env : Env) (svc : todoListGRPC σ) (now : Time)
    (req : pbTodoList.UpdateTaskStatusRequest) (s : σ) :
    (Option emptypb.Empty × Option Status) × σ :=
  match tools.GetValidUUID env req.Id with
  | (_, some err) => ((none, some err), s)
  | (taskId, none) =>
    match svc.taskRepository.GetTask taskId s with
    | ((_, some err), s) =>
      if err = .ErrTaskNotFound then ((none, some ErrStatusTaskNotFound), s)
      else ((none, some ErrStatusInternalServerError), s)
    | ((none, none), s) => (nilDereference, s)
    | ((some task, none), s) =>
      let task : Task := { task with Completed := req.Completed }
      match svc.taskRepository.UpdateTask now task s with
      | (some _, s) => ((none, some ErrStatusInternalServerError), s)
      | (none, s) =>
        match env.SetStatusCode http.StatusNoContent with
        | some _ => ((none, some ErrStatusInternalServerError), s)
        | none => ((some .mk, none), s)

/-! ## `pkg/storage/sql`: opening the connection -/

namespace storage

/-- The constant `maxRetries`. -/
def maxRetries : Int := 3

/-- The loop `for tries >= 0` of `NewConnection`, with `k` pings already made;
`ping k` is the outcome of the ping after `k` earlier ones. A failed ping with
no try left ends the function with that error; a failed ping with tries left
takes one away and continues; a successful ping breaks out of the loop. The
result is the error returned from inside the loop, if any, and the number of
pings made. -/
def pingLoop (ping : Nat → Option Err) (tries : Int) (k : Nat) : Option Err × Nat :=
  if tries ≥ 0 then
    match ping k with
    | some err =>
      if tries = 0 then (some err, k + 1)
      else pingLoop ping (tries - 1) (k + 1)
    | none => (none, k + 1)
  else (none, k)
termination_by tries.toNat
decreasing_by omega

/-- The function `NewConnection`: `opened` is what `sql.Open` gives (the handle
or its error). The result is the handle and the error returned, and the number
of pings made. -/
def NewConnection {H : Type} (opened : Except Err H) (ping : Nat → Option Err) :
    (Option H × Option Err) × Nat :=
  match opened with
  | .error err => ((none, some err), 0)
  | .ok db =>
    let tries := maxRetries
    match pingLoop ping tries 0 with
    | (some err, n) => ((none, some err), n)
    | (none, n) => ((some db, none), n)

end storage

/-! ## Sample databases and requests -/

/-- A label of task 7 with text `urgent`, as a caller of `CreateLabel` passes it. -/
def sampleLabel : Label :=
  { Id := uuid.Nil, TaskId := 7, Value := "urgent", CreatedAt := 0, DeletedAt := none }

/-- A task to create, as a caller of `CreateTask` passes it. -/
def sampleTask : Task :=
  { Id := uuid.Nil, Value := "write report", Completed := false, DueDate := none,
    CreatedAt := 0, UpdatedAt := 0, DeletedAt := none, Comments := [], Labels := [] }

/-- A comment of task 7 to create. -/
def sampleComment : Comment :=
  { Id := uuid.Nil, TaskId := 7, Value := "first", CreatedAt := 0, DeletedAt := none }

/-- The script of the test `CreateLabel_ErrLabelAlreadyExists`: the transaction
begins and the count query returns one row holding 1. -/
def mockLabelExists : Mock :=
  { onBeginTx := fun _ => none
    onCommit := fun _ => none
    onRollback := fun _ => none
    onQueryRow := fun _ q =>
      match q with
      | .countLabels _ _ => { err := none, Cells := .ok (.count 1) }
      | _ => { err := some .ErrConnDone, Cells := .error .ErrConnDone }
    onQuery := fun _ _ => .error .ErrConnDone
    onExec := fun _ _ => .error .ErrConnDone
    log := [] }

/-- The script of the test `CreateComment_ErrRow`: the transaction begins and
every row query fails with the given error. -/
def mockRowError (e : Err) : Mock :=
  { onBeginTx := fun _ => none
    onCommit := fun _ => none
    onRollback := fun _ => none
    onQueryRow := fun _ _ => { err := some e, Cells := .error e }
    onQuery := fun _ _ => .error e
    onExec := fun _ _ => .error e
    log := [] }

/-- An empty store. -/
def emptyStore : Store :=
  { tasks := [], comments := [], labels := [], nextId := 1, clock := 100 }

/-- A connection to the empty store, outside any transaction. -/
def emptyConn : Conn := { store := emptyStore, tx := none }

/-! ## Properties of a store -/

/-- No two non-deleted labels of the store share the same task identifier and
value. -/
def LabelsUnique (st : Store) : Prop :=
  st.labels.Pairwise (fun a b =>
    ¬ (a.DeletedAt = none ∧ b.DeletedAt = none ∧ a.TaskId = b.TaskId ∧ a.Value = b.Value))

instance (st : Store) : Decidable (LabelsUnique st) := by
  unfold LabelsUnique; infer_instance

/-- A store with the non-deleted task 7, carrying the label `urgent`, and the
deleted task 8. -/
def sampleStore : Store :=
  { tasks :=
      [{ Id := 7, Value := "write report", Completed := false, DueDate := none,
         CreatedAt := 10, UpdatedAt := 10, DeletedAt := none, Comments := [], Labels := [] },
       { Id := 8, Value := "old", Completed := true, DueDate := some 5,
         CreatedAt := 11, UpdatedAt := 12, DeletedAt := some 13, Comments := [], Labels := [] }]
    comments := []
    labels := [{ Id := 9, TaskId := 7, Value := "urgent", CreatedAt := 20, DeletedAt := none }]
    nextId := 10
    clock := 100 }

/-- A connection to the sample store, outside any transaction. -/
def sampleConn : Conn := { store := sampleStore, tx := none }

/-- The request handlers over the three repositories of a relational store. -/
def storeGRPC : todoListGRPC Conn :=
  NewGRPC (repository.NewTaskRepository storeDB) (repository.NewCommentRepository storeDB)
    (repository.NewLabelRepository storeDB)

/-- Two texts differ at most in letter case: they have the same length and, at
every position, runes with the same lower-case form. -/
def sameLetters (env : Env) : List Char → List Char → Bool
  | [], [] => true
  | a :: as, b :: bs =>
    decide (unicode.ToLower env a = unicode.ToLower env b) && sameLetters env as bs
  | _, _ => false

/-- Library functions for the samples: the identifier strings `7`, `8`, `21`
and `31` parse to the identifiers they spell and `0` to the nil identifier, the
case table is not needed for ASCII texts, and the status header is always sent. -/
def sampleEnv : Env :=
  { FromString := fun s =>
      if s = "7" then .ok 7 else if s = "8" then .ok 8 else if s = "0" then .ok 0
      else if s = "21" then .ok 21 else if s = "31" then .ok 31
      else .error (.other "uuid: incorrect UUID length")
    UUIDString := fun u => toString u
    lowerCase := fun r => r
    Format := fun t _ => toString t
    Parse := fun _ value =>
      if value = "1970-01-01T00:00:00.050Z" then .ok 50
      else .error (.other "parsing time: cannot parse")
    whiteSpace := fun _ => false
    SetStatusCode := fun _ => none }

/-- A store holding only the non-deleted task 7. -/
def oneTaskStore : Store :=
  { tasks :=
      [{ Id := 7, Value := "write report", Completed := false, DueDate := none,
         CreatedAt := 10, UpdatedAt := 10, DeletedAt := none, Comments := [], Labels := [] }]
    comments := []
    labels := []
    nextId := 10
    clock := 100 }

/-- A connection to the store holding only task 7, outside any transaction. -/
def oneTaskConn : Conn := { store := oneTaskStore, tx := none }

/-- A store in which the deleted task 8 still owns the non-deleted comment 21
and the non-deleted label 31, next to the non-deleted task 7 with its comment 20
and its label 30. -/
def orphanStore : Store :=
  { tasks :=
      [{ Id := 7, Value := "write report", Completed := false, DueDate := none,
         CreatedAt := 10, UpdatedAt := 10, DeletedAt := none, Comments := [], Labels := [] },
       { Id := 8, Value := "old", Completed := true, DueDate := some 5,
         CreatedAt := 11, UpdatedAt := 12, DeletedAt := some 13, Comments := [], Labels := [] }]
    comments :=
      [{ Id := 20, TaskId := 7, Value := "first", CreatedAt := 14, DeletedAt := none },
       { Id := 21, TaskId := 8, Value := "second", CreatedAt := 15, DeletedAt := none }]
    labels :=
      [{ Id := 30, TaskId := 7, Value := "urgent", CreatedAt := 16, DeletedAt := none },
       { Id := 31, TaskId := 8, Value := "later", CreatedAt := 17, DeletedAt := none }]
    nextId := 32
    clock := 100 }

/-- A connection to the store with the comment and the label of a deleted task. -/
def orphanConn : Conn := { store := orphanStore, tx := none }

/-- The identifier is malformed or the nil identifier: `uuid.FromString` fails
on it or gives `uuid.Nil`. -/
def badId (env : Env) (id : String) : Bool :=
  match env.FromString id with
  | .error _ => true
  | .ok u => decide (u = uuid.Nil)

/-- An error of the storage itself: any error that is not one of the four
sentinels of package `repository`. -/
def storageError : Err → Bool
  | .ErrTaskNotFound => false
  | .ErrCommentNotFound => false
  | .ErrLabelNotFound => false
  | .ErrLabelAlreadyExists => false
  | _ => true

/-- Every task row of the store with the identifier is deleted. -/
def TaskGone (i : UUID) (st : Store) : Prop :=
  ∀ t ∈ st.tasks, t.Id = i → t.DeletedAt ≠ none

/-- The identifiers of the task rows are ones the storage has already assigned:
they are below the next identifier it will assign. -/
def FreshIds (st : Store) : Prop :=
  ∀ t ∈ st.tasks, t.Id < st.nextId

instance (i : UUID) (st : Store) : Decidable (TaskGone i st) := by
  unfold TaskGone; infer_instance

instance (st : Store) : Decidable (FreshIds st) := by
  unfold FreshIds; infer_instance

/-- A store with two non-deleted tasks: task 7 has no due date, task 8 has the
due date 5. -/
def dueDateStore : Store :=
  { tasks :=
      [{ Id := 7, Value := "write report", Completed := false, DueDate := none,
         CreatedAt := 10, UpdatedAt := 10, DeletedAt := none, Comments := [], Labels := [] },
       { Id := 8, Value := "pay rent", Completed := false, DueDate := some 5,
         CreatedAt := 11, UpdatedAt := 12, DeletedAt := none, Comments := [], Labels := [] }]
    comments := []
    labels := []
    nextId := 9
    clock := 100 }

/-- A connection to the store with a task without and a task with a due date. -/
def dueDateConn : Conn := { store := dueDateStore, tx := none }

/-- The request handlers over the three repositories of a scripted database. -/
def mockGRPC : todoListGRPC Mock :=
  NewGRPC (repository.NewTaskRepository mockDB) (repository.NewCommentRepository mockDB)
    (repository.NewLabelRepository mockDB)

/-- A script in which the query of `GetTask` returns a non-deleted task with the
identifier asked for and every other row query, the `UPDATE` of `UpdateTask`
included, reports `sql.ErrNoRows`. -/
def mockUpdateNoRows : Mock :=
  { onBeginTx := fun _ => none
    onCommit := fun _ => none
    onRollback := fun _ => none
    onQueryRow := fun _ q =>
      match q with
      | .selectTask id _ =>
        { err := none
          Cells := .ok (.task
            { Id := id, Value := "write report", Completed := false, DueDate := none,
              CreatedAt := 10, UpdatedAt := 10, DeletedAt := none, Comments := [],
              Labels := [] }) }
      | _ => { err := some .ErrNoRows, Cells := .error .ErrNoRows }
    onQuery := fun _ _ => .error .ErrConnDone
    onExec := fun _ _ => .error .ErrConnDone
    log := [] }

/-- Repositories that record the tasks passed to `UpdateTask`: `GetTask` returns
the given task, `UpdateTask` appends its argument to the state and succeeds, the
other methods find nothing and change nothing. -/
def recordingGRPC (stored : Task) : todoListGRPC (List Task) :=
  NewGRPC
    { GetTask := fun _ s => ((some stored, none), s)
      GetTasks := fun _ s => ((some [], none), s)
      CreateTask := fun t s => ((some t, none), s)
      UpdateTask := fun _ t s => (none, s ++ [t])
      DeleteTask := fun _ _ s => (none, s) }
    { CreateComment := fun x s => ((some x, none), s)
      GetCommentsByTaskId := fun _ s => ((some [], none), s)
      DeleteCommentByTaskIdAndCommentId := fun _ _ _ s => (none, s) }
    { CreateLabel := fun x s => ((some x, none), s)
      GetLabelsByTaskId := fun _ s => ((some [], none), s)
      DeleteLabelByTaskIdAndLabelId := fun _ _ _ s => (none, s) }

/-- The statuses a handler can return as its error: the two identifier
failures, the time layout failure, the three not-found statuses, the label
conflict and the internal failure. -/
def fixedStatuses : List Status :=
  [tools.ErrStatusIdMustBeUUID, tools.ErrStatusIdMusBeValidUUID, ErrStatusCannotParseTimeLayout,
   ErrStatusTaskNotFound, ErrStatusCommentNotFound, ErrStatusErrLabelNotFound,
   ErrStatusLabelAlreadyExists, ErrStatusInternalServerError]

/-- Every row of the first store is in the second one, at the same place, with
the same identifier and, for a comment or a label, the same task identifier and
value; the second store may hold further rows after them. -/
def Store.KeepsRows (st st' : Store) : Prop :=
  (∃ extra, st'.tasks.map (fun t => t.Id) = st.tasks.map (fun t => t.Id) ++ extra)
    ∧ (∃ extra, st'.comments.map (fun x => (x.Id, x.TaskId, x.Value))
        = st.comments.map (fun x => (x.Id, x.TaskId, x.Value)) ++ extra)
    ∧ (∃ extra, st'.labels.map (fun x => (x.Id, x.TaskId, x.Value))
        = st.labels.map (fun x => (x.Id, x.TaskId, x.Value)) ++ extra)

/-- The store after running the statements one after the other. -/
def Store.runAll (st : Store) (qs : List Stmt) : Store :=
  qs.foldl (fun st q => (st.run q).1) st

end todolist

/-! ## Transactions of the `Create` methods -/

namespace todolist
open repository

/-- A transaction opened by `CreateTask` is always ended by `Commit`: the
variable the deferred closure reads is `nil` on every path after `BeginTx`. -/
theorem CreateTask_ends_with_commit {σ : Type} (db : DB σ) (newTask : Task) (s s1 : σ)
    (hb : db.BeginTx s = (none, s1)) :
    (taskRepository.CreateTask db newTask s).2 =
      (db.Commit (db.TxQueryRowContext (.insertTask newTask.Value newTask.DueDate) s1).2).2 := by
  rcases hq : db.TxQueryRowContext (.insertTask newTask.Value newTask.DueDate) s1 with
    ⟨⟨rerr, cells⟩, s2⟩
  cases rerr
  · cases hs : scanTask cells <;>
      simp [taskRepository.CreateTask, ToSql, SqlRow.Scan, deferred, hb, hq, hs]
  · simp [taskRepository.CreateTask, ToSql, SqlRow.Scan, deferred, hb, hq]

/-- A transaction opened by `CreateComment` is always ended by `Commit`, for
the same reason. -/
theorem CreateComment_ends_with_commit {σ : Type} (db : DB σ) (newComment : Comment)
    (s s1 : σ) (hb : db.BeginTx s = (none, s1)) :
    (commentRepository.CreateComment db newComment s).2 =
      (db.Commit
        (db.TxQueryRowContext (.insertComment newComment.TaskId newComment.Value) s1).2).2 := by
  rcases hq : db.TxQueryRowContext (.insertComment newComment.TaskId newComment.Value) s1 with
    ⟨⟨rerr, cells⟩, s2⟩
  cases rerr
  · cases hs : scanComment cells <;>
      simp [commentRepository.CreateComment, ToSql, SqlRow.Scan, deferred, hb, hq, hs]
  · simp [commentRepository.CreateComment, ToSql, SqlRow.Scan, deferred, hb, hq]

/-- Claim C4, evaluated on the script of the test `CreateLabel_ErrLabelAlreadyExists`
(the count query returns 1): `CreateLabel` returns `ErrLabelAlreadyExists` and
issues no insert, and the transaction is ended by `Commit`, not by `Rollback`. -/
theorem CreateLabel_existing_label_commits :
    (labelRepository.CreateLabel mockDB sampleLabel mockLabelExists).1
        = (none, some .ErrLabelAlreadyExists)
      ∧ (labelRepository.CreateLabel mockDB sampleLabel mockLabelExists).2.log
        = [.BeginTx, .TxQueryRowContext (.countLabels 7 "urgent"), .Commit] := by
  constructor <;> rfl

/-- Claim C5, evaluated on a database whose insert fails with `sql.ErrConnDone`:
`CreateTask` returns that error unchanged, and the transaction is ended by
`Commit`, not by `Rollback`. -/
theorem CreateTask_row_error_commits :
    (taskRepository.CreateTask mockDB sampleTask (mockRowError .ErrConnDone)).1
        = (none, some .ErrConnDone)
      ∧ (taskRepository.CreateTask mockDB sampleTask (mockRowError .ErrConnDone)).2.log
        = [.BeginTx, .TxQueryRowContext (.insertTask "write report" none), .Commit] := by
  constructor <;> rfl

/-- Claim C6, evaluated on the script of the test `CreateComment_ErrRow` (the
insert fails with the error the test injects): `CreateComment` returns exactly
that error, and the transaction is ended by `Commit`, not by `Rollback`. -/
theorem CreateComment_row_error_commits :
    (commentRepository.CreateComment mockDB sampleComment (mockRowError .ErrCommentNotFound)).1
        = (none, some .ErrCommentNotFound)
      ∧ (commentRepository.CreateComment mockDB sampleComment
            (mockRowError .ErrCommentNotFound)).2.log
        = [.BeginTx, .TxQueryRowContext (.insertComment 7 "first"), .Commit] := by
  constructor <;> rfl

/-- Claim C7: the results of `CreateTask` are the `BeginTx` error, else the
error of the insert's row, else the error of its scan, else the scanned task
with a nil error; and they are the same whatever `Commit` and `Rollback` do, so
an error of ending the transaction is never returned and never replaces the
statement's error. -/
theorem CreateTask_never_returns_commit_or_rollback_error {σ : Type} (db : DB σ)
    (newTask : Task) (s : σ) :
    (taskRepository.CreateTask db newTask s).1 =
      (match db.BeginTx s with
       | (some e, _) => (none, some e)
       | (none, s1) =>
         let row := (db.TxQueryRowContext (.insertTask newTask.Value newTask.DueDate) s1).1
         match row.err with
         | some e => (none, some e)
         | none =>
           match scanTask row.Cells with
           | .error e => (none, some e)
           | .ok task => (some task, none))
    ∧ ∀ (commit rollback : σ → Option Err × σ),
        (taskRepository.CreateTask { db with Commit := commit, Rollback := rollback } newTask s).1
          = (taskRepository.CreateTask db newTask s).1 := by
  constructor
  · rcases hb : db.BeginTx s with ⟨_ | e, s1⟩
    · rcases hq : db.TxQueryRowContext (.insertTask newTask.Value newTask.DueDate) s1 with
        ⟨⟨rerr, cells⟩, s2⟩
      cases rerr
      · cases hs : scanTask cells <;>
          simp [taskRepository.CreateTask, ToSql, SqlRow.Scan, hb, hq, hs]
      · simp [taskRepository.CreateTask, ToSql, SqlRow.Scan, hb, hq]
    · simp [taskRepository.CreateTask, hb]
  · intro c r
    rcases hb : db.BeginTx s with ⟨_ | e, s1⟩
    · rcases hq : db.TxQueryRowContext (.insertTask newTask.Value newTask.DueDate) s1 with
        ⟨⟨rerr, cells⟩, s2⟩
      cases rerr
      · cases hs : scanTask cells <;>
          simp [taskRepository.CreateTask, ToSql, SqlRow.Scan, hb, hq, hs]
      · simp [taskRepository.CreateTask, ToSql, SqlRow.Scan, hb, hq]
    · simp [taskRepository.CreateTask, hb]

/-! ## Pagination -/

/-- Claim C8: for an `int32` page and a `uint64` page size, `GetOffset` is
`(max(page,1) - 1) * pageSize` as a `uint64`, the subtraction staying within
`int32`; it is 0 for every page below 1; with page size 20 it is 0 for page 1,
20 for page 2 and, for every page, the exact product (no wrap-around). -/
theorem GetOffset_spec (page : Int) (pageSize : Nat)
    (hpage : -2 ^ 31 ≤ page ∧ page < 2 ^ 31) :
    GetOffset page pageSize = ((max page 1 - 1).toNat * pageSize) % 2 ^ 64
      ∧ wrapInt32 (max page 1 - 1) = max page 1 - 1
      ∧ (page < 1 → GetOffset page pageSize = 0)
      ∧ GetOffset 1 20 = 0
      ∧ GetOffset 2 20 = 20
      ∧ GetOffset page 20 = (max page 1 - 1).toNat * 20 := by
  have hwrap : ∀ p : Int, -2 ^ 31 ≤ p → p < 2 ^ 31 →
      wrapInt32 (max p 1 - 1) = max p 1 - 1 := by
    intro p h1 h2
    unfold wrapInt32
    norm_num at h1 h2 ⊢
    rcases le_total p 1 with h | h
    · rw [max_eq_right h]; norm_num
    · rw [max_eq_left h, Int.emod_eq_of_lt (by omega) (by omega)]; ring
  have key : ∀ p : Int, -2 ^ 31 ≤ p → p < 2 ^ 31 →
      toUint64 (wrapInt32 ((if p < 1 then 1 else p) - 1)) = (max p 1 - 1).toNat := by
    intro p h1 h2
    have hmax : (if p < 1 then 1 else p) = max p 1 := by
      split_ifs with h
      · rw [max_eq_right (by omega)]
      · rw [max_eq_left (by omega)]
    rw [hmax, hwrap p h1 h2]
    unfold toUint64
    have hlo : 0 ≤ max p 1 - 1 := by
      have := le_max_right p 1
      omega
    have hhi : max p 1 - 1 < 2 ^ 64 := by
      have : max p 1 ≤ 2 ^ 31 := max_le (le_of_lt h2) (by norm_num)
      norm_num at this ⊢
      omega
    rw [Int.emod_eq_of_lt hlo hhi]
  have hk := key page hpage.1 hpage.2
  refine ⟨?_, hwrap page hpage.1 hpage.2, ?_, by decide, by decide, ?_⟩
  · simp only [GetOffset]; rw [hk]
  · intro hlt
    simp only [GetOffset]; rw [hk, max_eq_right (by omega)]; simp
  · simp only [GetOffset]; rw [hk]
    apply Nat.mod_eq_of_lt
    have : (max page 1 - 1).toNat < 2 ^ 31 := by
      have : max page 1 - 1 < 2 ^ 31 := by
        rcases le_total page 1 with h | h
        · rw [max_eq_right h]; norm_num
        · rw [max_eq_left h]; omega
      omega
    norm_num at this ⊢
    omega

/-- Witness of `GetOffset_spec` at page 3 and page size 20. -/
theorem GetOffset_spec_witness :
    GetOffset 3 20 = ((max (3 : Int) 1 - 1).toNat * 20) % 2 ^ 64
      ∧ wrapInt32 (max (3 : Int) 1 - 1) = max (3 : Int) 1 - 1
      ∧ ((3 : Int) < 1 → GetOffset 3 20 = 0)
      ∧ GetOffset 1 20 = 0
      ∧ GetOffset 2 20 = 20
      ∧ GetOffset 3 20 = (max (3 : Int) 1 - 1).toNat * 20 :=
  GetOffset_spec 3 20 (by decide)

/-! ## Reads of several rows -/

/-- The row loop of `GetTasks` on rows that all scan: the tasks, in order, after
the ones already collected. -/
theorem taskRepository.scanRows_ok (rows : List Task) (acc : List Task) :
    taskRepository.scanRows (rows.map (fun t => Except.ok (Cols.task t))) acc
      = (some (acc ++ rows.map (fun t => { t with Comments := [], Labels := [] })), none) := by
  induction rows generalizing acc with
  | nil => simp [taskRepository.scanRows]
  | cons t rows ih =>
    simp [taskRepository.scanRows, scanTask, ih]

/-- Claim C10: when the query succeeds and yields no row, `GetTasks`,
`GetCommentsByTaskId` and `GetLabelsByTaskId` return an empty non-nil sequence
and a nil error; when the query itself fails with an error `e` (which may be
`sql.ErrNoRows`), they return a nil sequence and exactly `e`. -/
theorem list_reads_empty_and_query_error {σ : Type} (db : DB σ) (s s1 : σ) (page : Int)
    (taskId : UUID) (e : Err) :
    (db.QueryContext (.selectTasks limitPage (GetOffset page limitPage)) s = (.ok [], s1) →
        taskRepository.GetTasks db page s = ((some [], none), s1))
      ∧ (db.QueryContext (.selectTasks limitPage (GetOffset page limitPage)) s = (.error e, s1) →
        taskRepository.GetTasks db page s = ((none, some e), s1))
      ∧ (db.QueryContext (.selectComments taskId) s = (.ok [], s1) →
        commentRepository.GetCommentsByTaskId db taskId s = ((some [], none), s1))
      ∧ (db.QueryContext (.selectComments taskId) s = (.error e, s1) →
        commentRepository.GetCommentsByTaskId db taskId s = ((none, some e), s1))
      ∧ (db.QueryContext (.selectLabels taskId) s = (.ok [], s1) →
        labelRepository.GetLabelsByTaskId db taskId s = ((some [], none), s1))
      ∧ (db.QueryContext (.selectLabels taskId) s = (.error e, s1) →
        labelRepository.GetLabelsByTaskId db taskId s = ((none, some e), s1)) := by
  refine ⟨?_, ?_, ?_, ?_, ?_, ?_⟩ <;> intro h
  · simp [taskRepository.GetTasks, ToSql, h, taskRepository.scanRows]
  · simp [taskRepository.GetTasks, ToSql, h]
  · simp [commentRepository.GetCommentsByTaskId, ToSql, h, commentRepository.scanRows]
  · simp [commentRepository.GetCommentsByTaskId, ToSql, h]
  · simp [labelRepository.GetLabelsByTaskId, ToSql, h, labelRepository.scanRows]
  · simp [labelRepository.GetLabelsByTaskId, ToSql, h]

/-- Witness of `list_reads_empty_and_query_error`: the three reads on the empty
store, and on a database whose queries fail with `sql.ErrNoRows`. -/
theorem list_reads_empty_and_query_error_witness :
    taskRepository.GetTasks storeDB 1 emptyConn = ((some [], none), emptyConn)
      ∧ commentRepository.GetCommentsByTaskId storeDB 7 emptyConn = ((some [], none), emptyConn)
      ∧ labelRepository.GetLabelsByTaskId storeDB 7 emptyConn = ((some [], none), emptyConn)
      ∧ (taskRepository.GetTasks mockDB 1 (mockRowError .ErrNoRows)).1 = (none, some .ErrNoRows) :=
  ⟨(list_reads_empty_and_query_error storeDB emptyConn emptyConn 1 7 .ErrNoRows).1 rfl,
   (list_reads_empty_and_query_error storeDB emptyConn emptyConn 1 7 .ErrNoRows).2.2.1 rfl,
   (list_reads_empty_and_query_error storeDB emptyConn emptyConn 1 7 .ErrNoRows).2.2.2.2.1 rfl,
   congrArg Prod.fst
     ((list_reads_empty_and_query_error mockDB (mockRowError .ErrNoRows)
        ((mockRowError .ErrNoRows).record
          (.QueryContext (.selectTasks limitPage (GetOffset 1 limitPage)))) 1 7 .ErrNoRows).2.1 rfl)⟩

/-- Claim C9: on every store and for every page, `GetTasks` issues one query,
with limit 20 and offset `GetOffset(page, 20)`, and returns the non-deleted
tasks from that offset on, at most 20 of them and none of them deleted; a page
below 1 gives what page 1 gives, and page 2 skips the first 20 non-deleted rows. -/
theorem GetTasks_pagination (c : Conn) (page : Int) (m : Mock) :
    (taskRepository.GetTasks mockDB page m).2.log
        = m.log ++ [.QueryContext (.selectTasks 20 (GetOffset page 20))]
      ∧ taskRepository.GetTasks storeDB page c
        = ((some ((((c.store.tasks.filter (fun t => decide (t.DeletedAt = none))).drop
              (GetOffset page 20)).take 20).map
              (fun t => { t with Comments := [], Labels := [] })), none), c)
      ∧ (page < 1 → taskRepository.GetTasks storeDB page c = taskRepository.GetTasks storeDB 1 c)
      ∧ taskRepository.GetTasks storeDB 2 c
        = ((some ((((c.store.tasks.filter (fun t => decide (t.DeletedAt = none))).drop 20).take
              20).map (fun t => { t with Comments := [], Labels := [] })), none), c)
      ∧ ∀ tasks, (taskRepository.GetTasks storeDB page c).1.1 = some tasks →
          tasks.length ≤ 20 ∧ ∀ t ∈ tasks, t.DeletedAt = none := by
  have hstore : ∀ p : Int, taskRepository.GetTasks storeDB p c
        = ((some ((((c.store.tasks.filter (fun t => decide (t.DeletedAt = none))).drop
              (GetOffset p 20)).take 20).map
              (fun t => { t with Comments := [], Labels := [] })), none), c) := by
    intro p
    simp only [taskRepository.GetTasks, ToSql, storeDB, Store.run, limitPage, List.map_map]
    have := taskRepository.scanRows_ok
      (((c.store.tasks.filter (fun t => decide (t.DeletedAt = none))).drop (GetOffset p 20)).take 20) []
    simp only [List.map_map, List.nil_append] at this
    exact Prod.ext this rfl
  refine ⟨?_, hstore page, ?_, ?_, ?_⟩
  · cases hq : m.onQuery m.log (.selectTasks 20 (GetOffset page 20)) <;>
      simp [taskRepository.GetTasks, ToSql, mockDB, Mock.record, limitPage, hq]
  · intro hlt
    have h0 : GetOffset page 20 = GetOffset 1 20 := by
      simp [GetOffset, hlt]
    rw [hstore page, hstore 1, h0]
  · rw [hstore 2]; rfl
  · intro tasks h
    rw [hstore page] at h
    simp only [Option.some.injEq] at h
    subst h
    constructor
    · simp
    · intro t ht
      simp only [List.mem_map] at ht
      obtain ⟨t0, ht0, rfl⟩ := ht
      have h1 := List.mem_of_mem_drop (List.mem_of_mem_take ht0)
      simpa using (List.mem_filter.mp h1).2

/-! ## Labels on the relational store -/

/-- What `CreateLabel` does on the relational store: with a non-deleted label of
the same task and value it returns `ErrLabelAlreadyExists` and leaves the tables
as they are; otherwise it appends one non-deleted row holding the task
identifier and the value it was given. -/
theorem labelRepository.CreateLabel_store (c : Conn) (newLabel : Label) :
    labelRepository.CreateLabel storeDB newLabel c =
      if (c.store.labels.filter (fun l => decide
            (l.DeletedAt = none ∧ l.TaskId = newLabel.TaskId ∧ l.Value = newLabel.Value))) = []
      then
        ((some { Id := c.store.nextId, TaskId := newLabel.TaskId, Value := newLabel.Value,
                 CreatedAt := c.store.clock, DeletedAt := none }, none),
         { store := { c.store with
                      labels := c.store.labels ++
                        [{ Id := c.store.nextId, TaskId := newLabel.TaskId,
                           Value := newLabel.Value, CreatedAt := c.store.clock,
                           DeletedAt := none }]
                      nextId := c.store.nextId + 1 }
           tx := none })
      else ((none, some .ErrLabelAlreadyExists), { store := c.store, tx := none }) := by
  by_cases h : (c.store.labels.filter (fun l => decide
      (l.DeletedAt = none ∧ l.TaskId = newLabel.TaskId ∧ l.Value = newLabel.Value))) = []
  · rw [if_pos h]
    simp only [labelRepository.CreateLabel, ToSql, storeDB, Store.run, firstRow, SqlRow.Scan,
      scanCount, scanLabel, deferred, h]
    simp
  · rw [if_neg h]
    have hpos : (0 : Int) < ((c.store.labels.filter (fun l => decide
        (l.DeletedAt = none ∧ l.TaskId = newLabel.TaskId ∧ l.Value = newLabel.Value))).length : Int) := by
      exact_mod_cast List.length_pos.mpr h
    simp only [labelRepository.CreateLabel, ToSql, storeDB, Store.run, firstRow, SqlRow.Scan,
      scanCount, scanLabel, deferred]
    simp only [gt_iff_lt, hpos, if_true]

/-- What `DeleteLabelByTaskIdAndLabelId` does to the tables of the relational
store: it sets the deletion time of the non-deleted labels with that task and
that identifier and changes nothing else. -/
theorem labelRepository.DeleteLabel_store (c : Conn) (now : Time) (taskId labelId : UUID) :
    (labelRepository.DeleteLabelByTaskIdAndLabelId storeDB now taskId labelId c).2 =
      { c with store := { c.store with labels := c.store.labels.map (fun l =>
          if decide (l.DeletedAt = none ∧ l.TaskId = taskId ∧ l.Id = labelId)
          then { l with DeletedAt := some now } else l) } } := by
  simp only [labelRepository.DeleteLabelByTaskIdAndLabelId, ToSql, storeDB, Store.run]
  split <;> rfl

/-- Claim C1: on the relational store, if no two non-deleted labels share the
same task identifier and value, then the same holds after `CreateLabel` of any
label, after `DeleteLabelByTaskIdAndLabelId` of any identifiers, and after
`GetLabelsByTaskId`, which leaves the tables unchanged. -/
theorem label_uniqueness_invariant (c : Conn) (h : LabelsUnique c.store) :
    (∀ newLabel : Label, LabelsUnique (labelRepository.CreateLabel storeDB newLabel c).2.store)
      ∧ (∀ (now : Time) (taskId labelId : UUID), LabelsUnique
          (labelRepository.DeleteLabelByTaskIdAndLabelId storeDB now taskId labelId c).2.store)
      ∧ (∀ taskId : UUID,
          (labelRepository.GetLabelsByTaskId storeDB taskId c).2.store = c.store) := by
  refine ⟨?_, ?_, ?_⟩
  · intro newLabel
    rw [labelRepository.CreateLabel_store]
    split_ifs with hnone
    · simp only [LabelsUnique]
      rw [List.pairwise_append]
      refine ⟨h, List.pairwise_singleton _ _, ?_⟩
      intro a ha b hb
      simp only [List.mem_singleton] at hb
      subst hb
      rintro ⟨hdel, -, htask, hval⟩
      have hmem : a ∈ c.store.labels.filter (fun l => decide
          (l.DeletedAt = none ∧ l.TaskId = newLabel.TaskId ∧ l.Value = newLabel.Value)) :=
        List.mem_filter.mpr ⟨ha, by simp [hdel, htask, hval]⟩
      rw [hnone] at hmem
      exact List.not_mem_nil _ hmem
    · exact h
  · intro now taskId labelId
    rw [labelRepository.DeleteLabel_store]
    simp only [LabelsUnique]
    rw [List.pairwise_map]
    refine List.Pairwise.imp ?_ h
    intro a b hab
    rintro ⟨ha, hb, htask, hval⟩
    apply hab
    by_cases h1 : (a.DeletedAt = none ∧ a.TaskId = taskId ∧ a.Id = labelId)
    · simp [h1] at ha
    · by_cases h2 : (b.DeletedAt = none ∧ b.TaskId = taskId ∧ b.Id = labelId)
      · simp [h2] at hb
      · simp only [h1, h2, decide_False, Bool.false_eq_true, if_false] at ha hb htask hval
        exact ⟨ha, hb, htask, hval⟩
  · intro taskId
    simp only [labelRepository.GetLabelsByTaskId, ToSql, storeDB, Store.run]

/-- Witness of `label_uniqueness_invariant` on the sample store: labels stay
unique when the label `urgent` of task 7 is created again. -/
theorem label_uniqueness_invariant_witness :
    LabelsUnique sampleStore
      ∧ LabelsUnique (labelRepository.CreateLabel storeDB sampleLabel sampleConn).2.store :=
  ⟨by decide, (label_uniqueness_invariant sampleConn (by decide)).1 sampleLabel⟩

/-- What `GetTask` does on the relational store: the first non-deleted task
with the identifier, or `ErrTaskNotFound` when there is none; the tables are
unchanged. -/
theorem taskRepository.GetTask_store (c : Conn) (id : UUID) :
    taskRepository.GetTask storeDB id c =
      match c.store.tasks.filter (fun t => decide (t.DeletedAt = none ∧ t.Id = id)) with
      | [] => ((none, some .ErrTaskNotFound), c)
      | t :: _ => ((some { t with Comments := [], Labels := [] }, none), c) := by
  cases hf : c.store.tasks.filter (fun t => decide (t.DeletedAt = none ∧ t.Id = id)) with
  | nil =>
    simp only [taskRepository.GetTask, ToSql, storeDB, Store.run, firstRow, SqlRow.Scan,
      limitOne, hf]
    simp [scanTask, errors.Is]
  | cons t ts =>
    simp only [taskRepository.GetTask, ToSql, storeDB, Store.run, firstRow, SqlRow.Scan,
      limitOne, hf]
    simp [scanTask]

/-- What the `CreateLabel` handler does on the relational store. -/
theorem todoListGRPC.CreateLabel_handler_store (env : Env) (req : pbTodoList.CreateLabelRequest)
    (c : Conn) :
    todoListGRPC.CreateLabel env storeGRPC req c =
      match tools.GetValidUUID env req.Id with
      | (_, some err) => ((none, some err), c)
      | (taskId, none) =>
        match c.store.tasks.filter (fun t => decide (t.DeletedAt = none ∧ t.Id = taskId)) with
        | [] => ((none, some ErrStatusTaskNotFound), c)
        | task :: _ =>
          if (c.store.labels.filter (fun l => decide
                (l.DeletedAt = none ∧ l.TaskId = task.Id
                  ∧ l.Value = strings.ToLower env req.Label))) = []
          then
            (match env.SetStatusCode http.StatusCreated with
              | some _ => (none, some ErrStatusInternalServerError)
              | none =>
                (some { Label :=
                          { Id := env.UUIDString c.store.nextId
                            Name := strings.ToLower env req.Label
                            CreatedAt := tools.FormatDate env c.store.clock } }, none),
             { store := { c.store with
                          labels := c.store.labels ++
                            [{ Id := c.store.nextId, TaskId := task.Id,
                               Value := strings.ToLower env req.Label,
                               CreatedAt := c.store.clock, DeletedAt := none }]
                          nextId := c.store.nextId + 1 }
               tx := none })
          else ((none, some ErrStatusLabelAlreadyExists), { store := c.store, tx := none }) := by
  rcases hv : tools.GetValidUUID env req.Id with ⟨taskId, _ | err⟩
  · cases hf : c.store.tasks.filter (fun t => decide (t.DeletedAt = none ∧ t.Id = taskId)) with
    | nil =>
      simp only [todoListGRPC.CreateLabel, storeGRPC, NewGRPC, NewTaskRepository, hv,
        taskRepository.GetTask_store, hf]
      simp
    | cons task ts =>
      simp only [todoListGRPC.CreateLabel, storeGRPC, NewGRPC, NewTaskRepository,
        NewLabelRepository, hv, taskRepository.GetTask_store, hf,
        labelRepository.CreateLabel_store]
      split_ifs with h
      · cases hs : env.SetStatusCode http.StatusCreated <;> simp [hs]
      · simp
  · simp [todoListGRPC.CreateLabel, hv]

/-- Texts that differ at most in letter case have the same lower-case form. -/
theorem sameLetters_ToLower (env : Env) (w v : String)
    (h : sameLetters env w.data v.data = true) :
    strings.ToLower env w = strings.ToLower env v := by
  have key : ∀ a b : List Char, sameLetters env a b = true →
      a.map (unicode.ToLower env) = b.map (unicode.ToLower env) := by
    intro a
    induction a with
    | nil => intro b hb; cases b with
      | nil => rfl
      | cons y ys => simp [sameLetters] at hb
    | cons x xs ih => intro b hb; cases b with
      | nil => simp [sameLetters] at hb
      | cons y ys =>
        simp only [sameLetters, Bool.and_eq_true, decide_eq_true_eq] at hb
        simp [hb.1, ih ys hb.2]
  simp only [strings.ToLower, key _ _ h]

/-- A `CreateLabel` request that succeeds on the relational store has a valid
identifier and leaves a non-deleted label of that task holding the lower-case
form of the request's text. -/
theorem todoListGRPC.CreateLabel_success_stores (env : Env)
    (req : pbTodoList.CreateLabelRequest) (c c1 : Conn) (resp : pbTodoList.CreateLabelResponse)
    (h : todoListGRPC.CreateLabel env storeGRPC req c = ((some resp, none), c1)) :
    (tools.GetValidUUID env req.Id).2 = none
      ∧ ∃ l ∈ c1.store.labels, l.TaskId = (tools.GetValidUUID env req.Id).1
          ∧ l.Value = strings.ToLower env req.Label ∧ l.DeletedAt = none := by
  rw [todoListGRPC.CreateLabel_handler_store] at h
  rcases hv : tools.GetValidUUID env req.Id with ⟨taskId, _ | err⟩
  · simp only [hv] at h
    cases hf : c.store.tasks.filter (fun t => decide (t.DeletedAt = none ∧ t.Id = taskId)) with
    | nil => simp only [hf] at h; simp at h
    | cons task ts =>
      simp only [hf] at h
      have hmem : task ∈ c.store.tasks.filter
          (fun t => decide (t.DeletedAt = none ∧ t.Id = taskId)) := by
        rw [hf]; exact List.mem_cons_self _ _
      have hid : task.Id = taskId := by
        have := (List.mem_filter.mp hmem).2
        simp only [decide_eq_true_eq] at this
        exact this.2
      split_ifs at h with hnone
      · cases hs : env.SetStatusCode http.StatusCreated with
        | some e => rw [hs] at h; simp at h
        | none =>
          rw [hs] at h
          simp only [Prod.mk.injEq] at h
          obtain ⟨-, hc⟩ := h
          subst hc
          refine ⟨rfl, _, List.mem_append_right _ (List.mem_singleton_self _), ?_, rfl, rfl⟩
          exact hid
      · simp at h
  · simp only [hv] at h; simp at h

/-- On the relational store, with a non-deleted task of the identifier and a
non-deleted label of that task holding the lower-case form of the text, a
`CreateLabel` request fails with `AlreadyExists` and leaves the tables as they
are. -/
theorem todoListGRPC.CreateLabel_existing (env : Env) (req : pbTodoList.CreateLabelRequest)
    (c : Conn) (hvalid : (tools.GetValidUUID env req.Id).2 = none)
    (htask : ∃ t ∈ c.store.tasks, t.Id = (tools.GetValidUUID env req.Id).1 ∧ t.DeletedAt = none)
    (hlabel : ∃ l ∈ c.store.labels, l.TaskId = (tools.GetValidUUID env req.Id).1
        ∧ l.Value = strings.ToLower env req.Label ∧ l.DeletedAt = none) :
    todoListGRPC.CreateLabel env storeGRPC req c
      = ((none, some ErrStatusLabelAlreadyExists), { store := c.store, tx := none }) := by
  rw [todoListGRPC.CreateLabel_handler_store]
  rcases hv : tools.GetValidUUID env req.Id with ⟨taskId, verr⟩
  rw [hv] at hvalid htask hlabel
  simp only at hvalid htask hlabel
  subst hvalid
  obtain ⟨t, ht, htid, htdel⟩ := htask
  obtain ⟨l, hl, hltask, hlval, hldel⟩ := hlabel
  cases hf : c.store.tasks.filter (fun t => decide (t.DeletedAt = none ∧ t.Id = taskId)) with
  | nil =>
    have : t ∈ c.store.tasks.filter (fun t => decide (t.DeletedAt = none ∧ t.Id = taskId)) :=
      List.mem_filter.mpr ⟨ht, by simp [htid, htdel]⟩
    rw [hf] at this
    exact absurd this (List.not_mem_nil _)
  | cons task ts =>
    have hmem : task ∈ c.store.tasks.filter
        (fun t => decide (t.DeletedAt = none ∧ t.Id = taskId)) := by
      rw [hf]; exact List.mem_cons_self _ _
    have hid : task.Id = taskId := by
      have := (List.mem_filter.mp hmem).2
      simp only [decide_eq_true_eq] at this
      exact this.2
    simp only [hf]
    rw [if_neg]
    intro hnone
    have : l ∈ c.store.labels.filter (fun l => decide
        (l.DeletedAt = none ∧ l.TaskId = task.Id ∧ l.Value = strings.ToLower env req.Label)) :=
      List.mem_filter.mpr ⟨hl, by simp [hldel, hltask, hlval, hid]⟩
    rw [hnone] at this
    exact absurd this (List.not_mem_nil _)

/-- Claim C2, as amended: if a `CreateLabel` request with text `v` succeeded on
a task, then it stored a non-deleted label of that task holding the lower-case
form of `v`; and in every later state in which that task and such a label are
still non-deleted, a `CreateLabel` request on the same task with a text `w` that
differs from `v` at most in letter case fails with `AlreadyExists` and adds no
row. -/
theorem CreateLabel_handler_rejects_case_variant (env : Env) (id v w : String) (c c1 c2 : Conn)
    (resp : pbTodoList.CreateLabelResponse)
    (hfirst : todoListGRPC.CreateLabel env storeGRPC { Id := id, Label := v } c
      = ((some resp, none), c1))
    (hcase : sameLetters env w.data v.data = true)
    (htask : ∃ t ∈ c2.store.tasks, t.Id = (tools.GetValidUUID env id).1 ∧ t.DeletedAt = none)
    (hlabel : ∃ l ∈ c2.store.labels, l.TaskId = (tools.GetValidUUID env id).1
        ∧ l.Value = strings.ToLower env v ∧ l.DeletedAt = none) :
    (∃ l ∈ c1.store.labels, l.TaskId = (tools.GetValidUUID env id).1
        ∧ l.Value = strings.ToLower env v ∧ l.DeletedAt = none)
      ∧ todoListGRPC.CreateLabel env storeGRPC { Id := id, Label := w } c2
        = ((none, some ErrStatusLabelAlreadyExists), { store := c2.store, tx := none }) := by
  have h1 := todoListGRPC.CreateLabel_success_stores env _ c c1 resp hfirst
  refine ⟨h1.2, ?_⟩
  apply todoListGRPC.CreateLabel_existing env { Id := id, Label := w } c2 h1.1 htask
  simp only [sameLetters_ToLower env w v hcase]
  exact hlabel

/-- Witness of `CreateLabel_handler_rejects_case_variant`: on the store holding
task 7, `URGENT` right after `urgent`. -/
theorem CreateLabel_handler_rejects_case_variant_witness :
    todoListGRPC.CreateLabel sampleEnv storeGRPC { Id := "7", Label := "URGENT" }
        (todoListGRPC.CreateLabel sampleEnv storeGRPC { Id := "7", Label := "urgent" }
          oneTaskConn).2
      = ((none, some ErrStatusLabelAlreadyExists),
         (todoListGRPC.CreateLabel sampleEnv storeGRPC { Id := "7", Label := "urgent" }
          oneTaskConn).2) :=
  (CreateLabel_handler_rejects_case_variant sampleEnv "7" "urgent" "URGENT" oneTaskConn
    (todoListGRPC.CreateLabel sampleEnv storeGRPC { Id := "7", Label := "urgent" } oneTaskConn).2
    (todoListGRPC.CreateLabel sampleEnv storeGRPC { Id := "7", Label := "urgent" } oneTaskConn).2
    { Label := { Id := "10", Name := "urgent", CreatedAt := "100" } }
    (by decide) (by decide) (by decide) (by decide)).2

/-- Claim C2 as stated fails when the task is deleted in between: on the store
holding task 7, the request with `urgent` succeeds and its label stays
non-deleted; after `DeleteTask` of task 7 the request with `URGENT` fails with
`NotFound`, not with `AlreadyExists`. -/
theorem CreateLabel_handler_after_DeleteTask_not_found :
    (todoListGRPC.CreateLabel sampleEnv storeGRPC { Id := "7", Label := "urgent" } oneTaskConn).1
        = (some { Label := { Id := "10", Name := "urgent", CreatedAt := "100" } }, none)
      ∧ (taskRepository.DeleteTask storeDB 200 7
          (todoListGRPC.CreateLabel sampleEnv storeGRPC { Id := "7", Label := "urgent" }
            oneTaskConn).2).1 = none
      ∧ (taskRepository.DeleteTask storeDB 200 7
          (todoListGRPC.CreateLabel sampleEnv storeGRPC { Id := "7", Label := "urgent" }
            oneTaskConn).2).2.store.labels
        = [{ Id := 10, TaskId := 7, Value := "urgent", CreatedAt := 100, DeletedAt := none }]
      ∧ sameLetters sampleEnv "URGENT".data "urgent".data = true
      ∧ (todoListGRPC.CreateLabel sampleEnv storeGRPC { Id := "7", Label := "URGENT" }
          (taskRepository.DeleteTask storeDB 200 7
            (todoListGRPC.CreateLabel sampleEnv storeGRPC { Id := "7", Label := "urgent" }
              oneTaskConn).2).2).1
        = (none, some ErrStatusTaskNotFound) := by
  decide

/-- Claim C3 as stated fails: on the store holding task 7, `CreateLabel` of the
repository called with `urgent` and then with `URGENT` succeeds both times
(the second call does not return `ErrLabelAlreadyExists`), and the table then
holds both values as they were passed. -/
theorem CreateLabel_repository_keeps_case :
    (labelRepository.CreateLabel storeDB
        { Id := uuid.Nil, TaskId := 7, Value := "URGENT", CreatedAt := 0, DeletedAt := none }
        (labelRepository.CreateLabel storeDB sampleLabel oneTaskConn).2).1
      = (some { Id := 11, TaskId := 7, Value := "URGENT", CreatedAt := 100, DeletedAt := none },
         none)
    ∧ (labelRepository.CreateLabel storeDB
        { Id := uuid.Nil, TaskId := 7, Value := "URGENT", CreatedAt := 0, DeletedAt := none }
        (labelRepository.CreateLabel storeDB sampleLabel oneTaskConn).2).2.store.labels
      = [{ Id := 10, TaskId := 7, Value := "urgent", CreatedAt := 100, DeletedAt := none },
         { Id := 11, TaskId := 7, Value := "URGENT", CreatedAt := 100, DeletedAt := none }] := by
  decide

/-- Claim C3, as amended: `CreateLabel` of the repository uses the value as it
is passed. On every database the statements it issues are the count and, when
reached, the insert, both with the task identifier and the value of its
argument; on the relational store it returns `ErrLabelAlreadyExists` and adds
nothing when a non-deleted label of the task has exactly that value, and
otherwise stores exactly that value. The lower-case form is taken by the
`CreateLabel` handler: a successful request stores the lower-case form of its
text. -/
theorem CreateLabel_repository_uses_value_as_given (newLabel : Label) :
    (∀ m : Mock, (labelRepository.CreateLabel mockDB newLabel m).2.log ∈
        [m.log ++ [.BeginTx],
         m.log ++ [.BeginTx, .TxQueryRowContext (.countLabels newLabel.TaskId newLabel.Value),
                   .Commit],
         m.log ++ [.BeginTx, .TxQueryRowContext (.countLabels newLabel.TaskId newLabel.Value),
                   .TxQueryRowContext (.insertLabel newLabel.TaskId newLabel.Value), .Commit]])
      ∧ (∀ c : Conn,
          (∃ l ∈ c.store.labels, l.DeletedAt = none ∧ l.TaskId = newLabel.TaskId
              ∧ l.Value = newLabel.Value) →
          labelRepository.CreateLabel storeDB newLabel c
            = ((none, some .ErrLabelAlreadyExists), { store := c.store, tx := none }))
      ∧ (∀ c : Conn,
          (¬ ∃ l ∈ c.store.labels, l.DeletedAt = none ∧ l.TaskId = newLabel.TaskId
              ∧ l.Value = newLabel.Value) →
          (labelRepository.CreateLabel storeDB newLabel c).1
              = (some { Id := c.store.nextId, TaskId := newLabel.TaskId, Value := newLabel.Value,
                        CreatedAt := c.store.clock, DeletedAt := none }, none)
            ∧ (labelRepository.CreateLabel storeDB newLabel c).2.store.labels
              = c.store.labels ++
                  [{ Id := c.store.nextId, TaskId := newLabel.TaskId, Value := newLabel.Value,
                     CreatedAt := c.store.clock, DeletedAt := none }])
      ∧ (∀ (env : Env) (req : pbTodoList.CreateLabelRequest) (c c1 : Conn)
          (resp : pbTodoList.CreateLabelResponse),
          todoListGRPC.CreateLabel env storeGRPC req c = ((some resp, none), c1) →
          ∃ l ∈ c1.store.labels, l.Value = strings.ToLower env req.Label
            ∧ l.DeletedAt = none) := by
  refine ⟨?_, ?_, ?_, ?_⟩
  · intro m
    cases hb : m.onBeginTx m.log with
    | some e => simp [labelRepository.CreateLabel, mockDB, Mock.record, hb]
    | none =>
      rcases hq : m.onQueryRow (m.log ++ [.BeginTx])
        (.countLabels newLabel.TaskId newLabel.Value) with ⟨_ | e, cells⟩
      · cases hs : scanCount cells with
        | error e =>
          simp [labelRepository.CreateLabel, mockDB, Mock.record, ToSql, SqlRow.Scan, deferred,
            hb, hq, hs]
        | ok count =>
          by_cases hc : count > 0
          · simp [labelRepository.CreateLabel, mockDB, Mock.record, ToSql, SqlRow.Scan, deferred,
              hb, hq, hs, hc]
          · rcases hq2 : m.onQueryRow
                (m.log ++ [.BeginTx, .TxQueryRowContext
                  (.countLabels newLabel.TaskId newLabel.Value)])
                (.insertLabel newLabel.TaskId newLabel.Value) with ⟨_ | e2, cells2⟩
            · cases hs2 : scanLabel cells2 <;>
                simp [labelRepository.CreateLabel, mockDB, Mock.record, ToSql, SqlRow.Scan,
                  deferred, hb, hq, hs, hc, hq2, hs2]
            · simp [labelRepository.CreateLabel, mockDB, Mock.record, ToSql, SqlRow.Scan,
                deferred, hb, hq, hs, hc, hq2]
      · simp [labelRepository.CreateLabel, mockDB, Mock.record, ToSql, SqlRow.Scan, deferred,
          hb, hq]
  · rintro c ⟨l, hl, hdel, htask, hval⟩
    rw [labelRepository.CreateLabel_store, if_neg]
    intro hnone
    have : l ∈ c.store.labels.filter (fun l => decide
        (l.DeletedAt = none ∧ l.TaskId = newLabel.TaskId ∧ l.Value = newLabel.Value)) :=
      List.mem_filter.mpr ⟨hl, by simp [hdel, htask, hval]⟩
    rw [hnone] at this
    exact absurd this (List.not_mem_nil _)
  · intro c hno
    rw [labelRepository.CreateLabel_store, if_pos]
    · exact ⟨rfl, rfl⟩
    · rw [List.filter_eq_nil_iff]
      intro l hl hmatch
      simp only [decide_eq_true_eq] at hmatch
      exact hno ⟨l, hl, hmatch⟩
  · intro env req c c1 resp h
    obtain ⟨-, l, hl, -, hval, hdel⟩ := todoListGRPC.CreateLabel_success_stores env req c c1 resp h
    exact ⟨l, hl, hval, hdel⟩

/-- Witness of `CreateLabel_repository_uses_value_as_given` on the sample store,
where task 7 carries the label `urgent`: the same value again is rejected. -/
theorem CreateLabel_repository_uses_value_as_given_witness :
    labelRepository.CreateLabel storeDB sampleLabel sampleConn
      = ((none, some .ErrLabelAlreadyExists), { store := sampleStore, tx := none }) :=
  (CreateLabel_repository_uses_value_as_given sampleLabel).2.1 sampleConn
    ⟨{ Id := 9, TaskId := 7, Value := "urgent", CreatedAt := 20, DeletedAt := none },
      by decide, by decide, by decide, by decide⟩

/-- Witness of `GetTasks_pagination` on the sample store: page 0 reads what
page 1 reads, and the one task read is not deleted. -/
theorem GetTasks_pagination_witness :
    taskRepository.GetTasks storeDB 0 sampleConn = taskRepository.GetTasks storeDB 1 sampleConn
      ∧ ([{ Id := 7, Value := "write report", Completed := false, DueDate := none,
            CreatedAt := 10, UpdatedAt := 10, DeletedAt := none, Comments := [],
            Labels := [] }] : List Task).length ≤ 20 :=
  ⟨(GetTasks_pagination sampleConn 0 mockLabelExists).2.2.1 (by decide),
   ((GetTasks_pagination sampleConn 0 mockLabelExists).2.2.2.2
      [{ Id := 7, Value := "write report", Completed := false, DueDate := none,
         CreatedAt := 10, UpdatedAt := 10, DeletedAt := none, Comments := [], Labels := [] }]
      (by decide)).1⟩

end todolist

/-! ## Not-found signals of the task repository -/

namespace todolist
open repository

/-- Claim C11: for every database, `GetTask` returns `ErrTaskNotFound` when the
row scan reports `sql.ErrNoRows` (in the sense of `errors.Is`), returns any
other scan error unchanged, and returns the scanned task otherwise; so, the
errors of the storage not being `ErrTaskNotFound` itself, it returns
`ErrTaskNotFound` if and only if the scan reports `sql.ErrNoRows`. On the
relational store that is the case exactly when no non-deleted row has the
identifier, and a returned task has the requested identifier. -/
theorem GetTask_not_found_iff_no_rows {σ : Type} (db : DB σ) (id : UUID) (s : σ) :
    (∀ e, (db.QueryRowContext (.selectTask id limitOne) s).1.Scan scanTask = .error e →
        errors.Is e .ErrNoRows = true →
        (taskRepository.GetTask db id s).1 = (none, some .ErrTaskNotFound))
      ∧ (∀ e, (db.QueryRowContext (.selectTask id limitOne) s).1.Scan scanTask = .error e →
        errors.Is e .ErrNoRows = false →
        (taskRepository.GetTask db id s).1 = (none, some e))
      ∧ (∀ task, (db.QueryRowContext (.selectTask id limitOne) s).1.Scan scanTask = .ok task →
        (taskRepository.GetTask db id s).1 = (some task, none))
      ∧ ((∀ e, (db.QueryRowContext (.selectTask id limitOne) s).1.Scan scanTask = .error e →
            storageError e = true) →
          ((taskRepository.GetTask db id s).1.2 = some .ErrTaskNotFound ↔
            ∃ e, (db.QueryRowContext (.selectTask id limitOne) s).1.Scan scanTask = .error e
              ∧ errors.Is e .ErrNoRows = true))
      ∧ ∀ c : Conn,
          ((taskRepository.GetTask storeDB id c).1.2 = some .ErrTaskNotFound ↔
            c.store.tasks.filter (fun t => decide (t.DeletedAt = none ∧ t.Id = id)) = [])
          ∧ ∀ task, (taskRepository.GetTask storeDB id c).1.1 = some task →
              task.Id = id ∧ task.DeletedAt = none := by
  rcases hq : db.QueryRowContext (.selectTask id limitOne) s with ⟨row, s1⟩
  refine ⟨?_, ?_, ?_, ?_, ?_⟩
  · intro e he his
    simp only at he
    simp [taskRepository.GetTask, ToSql, hq, he, his]
  · intro e he his
    simp only at he
    simp [taskRepository.GetTask, ToSql, hq, he, his]
  · intro task ht
    simp only at ht
    simp [taskRepository.GetTask, ToSql, hq, ht]
  · intro hstorage
    simp only at hstorage
    cases hs : row.Scan scanTask with
    | error e =>
      have hst := hstorage e hs
      by_cases his : errors.Is e .ErrNoRows = true
      · simp [taskRepository.GetTask, ToSql, hq, hs, his]
      · have hne : e ≠ .ErrTaskNotFound := by
          intro h; subst h; simp [storageError] at hst
        simp [taskRepository.GetTask, ToSql, hq, hs, his, hne]
    | ok task => simp [taskRepository.GetTask, ToSql, hq, hs]
  · intro c
    rw [taskRepository.GetTask_store]
    cases hf : c.store.tasks.filter (fun t => decide (t.DeletedAt = none ∧ t.Id = id)) with
    | nil => simp
    | cons t ts =>
      have hmem : t ∈ c.store.tasks.filter (fun t => decide (t.DeletedAt = none ∧ t.Id = id)) := by
        rw [hf]; exact List.mem_cons_self _ _
      have hp := (List.mem_filter.mp hmem).2
      simp only [decide_eq_true_eq] at hp
      refine ⟨by simp, ?_⟩
      intro task h
      simp only [Option.some.injEq] at h
      subst h
      exact ⟨hp.2, hp.1⟩

/-- Witness of `GetTask_not_found_iff_no_rows`: the deleted task 8 of the sample
store is not found, and a failing connection's error comes back unchanged. -/
theorem GetTask_not_found_iff_no_rows_witness :
    (taskRepository.GetTask storeDB 8 sampleConn).1 = (none, some .ErrTaskNotFound)
      ∧ (taskRepository.GetTask mockDB 7 (mockRowError .ErrConnDone)).1
          = (none, some .ErrConnDone) :=
  ⟨(GetTask_not_found_iff_no_rows storeDB 8 sampleConn).1 .ErrNoRows rfl rfl,
   (GetTask_not_found_iff_no_rows mockDB 7 (mockRowError .ErrConnDone)).2.1 .ErrConnDone
     rfl rfl⟩

/-- Claim C12: for every database, `DeleteTask` returns an error of executing
the statement unchanged (also `sql.ErrNoRows`, which is not translated), an
error of reading the affected-row count unchanged, `ErrTaskNotFound` for a count
of 0 and nil for any other count; so, the errors of the storage not being
`ErrTaskNotFound` itself, it returns `ErrTaskNotFound` if and only if the
statement executed without error and reported 0 affected rows. -/
theorem DeleteTask_not_found_iff_zero_affected {σ : Type} (db : DB σ) (now : Time) (id : UUID)
    (s : σ) :
    (∀ e, (db.ExecContext (.deleteTask now id) s).1 = .error e →
        (taskRepository.DeleteTask db now id s).1 = some e)
      ∧ ((db.ExecContext (.deleteTask now id) s).1 = .error .ErrNoRows →
        (taskRepository.DeleteTask db now id s).1 = some .ErrNoRows)
      ∧ (∀ result e, (db.ExecContext (.deleteTask now id) s).1 = .ok result →
        result.RowsAffected = .error e →
        (taskRepository.DeleteTask db now id s).1 = some e)
      ∧ (∀ result, (db.ExecContext (.deleteTask now id) s).1 = .ok result →
        result.RowsAffected = .ok 0 →
        (taskRepository.DeleteTask db now id s).1 = some .ErrTaskNotFound)
      ∧ (∀ result affected, (db.ExecContext (.deleteTask now id) s).1 = .ok result →
        result.RowsAffected = .ok affected → affected ≠ 0 →
        (taskRepository.DeleteTask db now id s).1 = none)
      ∧ ((∀ e, (db.ExecContext (.deleteTask now id) s).1 = .error e → storageError e = true) →
          (∀ result e, (db.ExecContext (.deleteTask now id) s).1 = .ok result →
            result.RowsAffected = .error e → storageError e = true) →
          ((taskRepository.DeleteTask db now id s).1 = some .ErrTaskNotFound ↔
            ∃ result, (db.ExecContext (.deleteTask now id) s).1 = .ok result
              ∧ result.RowsAffected = .ok 0)) := by
  rcases hx : db.ExecContext (.deleteTask now id) s with ⟨r, s1⟩
  cases r with
  | error e =>
    refine ⟨?_, ?_, ?_, ?_, ?_, ?_⟩
    · intro e' h; simp only [Except.error.injEq] at h; subst h
      simp [taskRepository.DeleteTask, ToSql, hx]
    · intro h; simp only [Except.error.injEq] at h; subst h
      simp [taskRepository.DeleteTask, ToSql, hx]
    · intro result e' h; simp at h
    · intro result h; simp at h
    · intro result affected h; simp at h
    · intro h1 _
      have hst := h1 e rfl
      have hne : e ≠ .ErrTaskNotFound := by
        intro h; subst h; simp [storageError] at hst
      simp [taskRepository.DeleteTask, ToSql, hx, hne]
  | ok result =>
    refine ⟨?_, ?_, ?_, ?_, ?_, ?_⟩
    · intro e' h; simp at h
    · intro h; simp at h
    · intro result' e' h hr; simp only [Except.ok.injEq] at h; subst h
      simp [taskRepository.DeleteTask, ToSql, hx, hr]
    · intro result' h hr; simp only [Except.ok.injEq] at h; subst h
      simp [taskRepository.DeleteTask, ToSql, hx, hr]
    · intro result' affected h hr hne; simp only [Except.ok.injEq] at h; subst h
      simp [taskRepository.DeleteTask, ToSql, hx, hr, hne]
    · intro _ h2
      cases hr : result.RowsAffected with
      | error e =>
        have hst := h2 result e rfl hr
        have hne : e ≠ .ErrTaskNotFound := by
          intro h; subst h; simp [storageError] at hst
        simp [taskRepository.DeleteTask, ToSql, hx, hr, hne]
      | ok affected =>
        by_cases h0 : affected = 0
        · simp [taskRepository.DeleteTask, ToSql, hx, hr, h0]
        · simp [taskRepository.DeleteTask, ToSql, hx, hr, h0]

/-- Witness of `DeleteTask_not_found_iff_zero_affected`: the script of the test
`DeleteTask_ErrNoRows`, and the deleted task 8 of the sample store. -/
theorem DeleteTask_not_found_iff_zero_affected_witness :
    (taskRepository.DeleteTask mockDB 200 7 (mockRowError .ErrNoRows)).1 = some .ErrNoRows
      ∧ (taskRepository.DeleteTask storeDB 200 8 sampleConn).1 = some .ErrTaskNotFound
      ∧ (taskRepository.DeleteTask storeDB 200 7 sampleConn).1 = none :=
  ⟨(DeleteTask_not_found_iff_zero_affected mockDB 200 7 (mockRowError .ErrNoRows)).2.1 rfl,
   (DeleteTask_not_found_iff_zero_affected storeDB 200 8 sampleConn).2.2.2.1
     { RowsAffected := .ok 0 } rfl rfl,
   (DeleteTask_not_found_iff_zero_affected storeDB 200 7 sampleConn).2.2.2.2.1
     { RowsAffected := .ok 1 } 1 rfl rfl (by decide)⟩

/-- Claim C15: for every database, `UpdateTask` returns `ErrTaskNotFound` when
the storage call reports `sql.ErrNoRows` (in the sense of `errors.Is`), any
other error of the storage call unchanged (for example `sql.ErrConnDone`), and
nil when the storage call reports no error; so, the errors of the storage not
being `ErrTaskNotFound` itself, it returns `ErrTaskNotFound` exactly when the
storage call reports `sql.ErrNoRows`. -/
theorem UpdateTask_error_translation {σ : Type} (db : DB σ) (now : Time) (task : Task) (s : σ) :
    (∀ e, (db.QueryRowContext (.updateTask task.Value task.Completed task.DueDate now task.Id)
          s).1.err = some e →
        errors.Is e .ErrNoRows = true →
        (taskRepository.UpdateTask db now task s).1 = some .ErrTaskNotFound)
      ∧ (∀ e, (db.QueryRowContext (.updateTask task.Value task.Completed task.DueDate now task.Id)
          s).1.err = some e →
        errors.Is e .ErrNoRows = false →
        (taskRepository.UpdateTask db now task s).1 = some e)
      ∧ ((db.QueryRowContext (.updateTask task.Value task.Completed task.DueDate now task.Id)
          s).1.err = some .ErrConnDone →
        (taskRepository.UpdateTask db now task s).1 = some .ErrConnDone)
      ∧ ((db.QueryRowContext (.updateTask task.Value task.Completed task.DueDate now task.Id)
          s).1.err = none →
        (taskRepository.UpdateTask db now task s).1 = none)
      ∧ ((∀ e, (db.QueryRowContext
            (.updateTask task.Value task.Completed task.DueDate now task.Id) s).1.err = some e →
            storageError e = true) →
          ((taskRepository.UpdateTask db now task s).1 = some .ErrTaskNotFound ↔
            ∃ e, (db.QueryRowContext
                (.updateTask task.Value task.Completed task.DueDate now task.Id) s).1.err = some e
              ∧ errors.Is e .ErrNoRows = true)) := by
  rcases hq : db.QueryRowContext (.updateTask task.Value task.Completed task.DueDate now task.Id)
    s with ⟨row, s1⟩
  refine ⟨?_, ?_, ?_, ?_, ?_⟩
  · intro e he his
    simp only at he
    simp [taskRepository.UpdateTask, ToSql, hq, he, his]
  · intro e he his
    simp only at he
    simp [taskRepository.UpdateTask, ToSql, hq, he, his]
  · intro he
    simp only at he
    simp [taskRepository.UpdateTask, ToSql, hq, he, errors.Is]
  · intro he
    simp only at he
    simp [taskRepository.UpdateTask, ToSql, hq, he]
  · intro hstorage
    simp only at hstorage
    cases he : row.err with
    | none => simp [taskRepository.UpdateTask, ToSql, hq, he]
    | some e =>
      have hst := hstorage e he
      by_cases his : errors.Is e .ErrNoRows = true
      · simp [taskRepository.UpdateTask, ToSql, hq, he, his]
      · have hne : e ≠ .ErrTaskNotFound := by
          intro h; subst h; simp [storageError] at hst
        simp [taskRepository.UpdateTask, ToSql, hq, he, his, hne]

/-- Witness of `UpdateTask_error_translation`: the scripts of the tests
`UpdateTask_ErrTaskNotFound` and `UpdateTask_ErrConnDone`. -/
theorem UpdateTask_error_translation_witness :
    (taskRepository.UpdateTask mockDB 200 sampleTask (mockRowError .ErrNoRows)).1
        = some .ErrTaskNotFound
      ∧ (taskRepository.UpdateTask mockDB 200 sampleTask (mockRowError .ErrConnDone)).1
        = some .ErrConnDone :=
  ⟨(UpdateTask_error_translation mockDB 200 sampleTask (mockRowError .ErrNoRows)).1
     .ErrNoRows rfl rfl,
   (UpdateTask_error_translation mockDB 200 sampleTask (mockRowError .ErrConnDone)).2.2.1 rfl⟩

end todolist

/-! ## Soft deletion on the relational store -/

namespace todolist
open repository

/-- Rewriting only the rows a filter selects changes nothing when the filter
selects no row. -/
theorem map_if_of_filter_eq_nil {α : Type} (p : α → Bool) (g : α → α) (l : List α)
    (h : l.filter p = []) : l.map (fun a => if p a then g a else a) = l := by
  induction l with
  | nil => rfl
  | cons a l ih =>
    by_cases hp : p a = true
    · simp [List.filter, hp] at h
    · have hpf : p a = false := by simpa using hp
      simp only [List.filter, hpf] at h
      simp [hpf, ih h]

/-- What `DeleteTask` does on the relational store: it sets the deletion time of
the non-deleted tasks with the identifier, and returns `ErrTaskNotFound` when
there is none. -/
theorem taskRepository.DeleteTask_store (c : Conn) (now : Time) (id : UUID) :
    taskRepository.DeleteTask storeDB now id c =
      (if c.store.tasks.filter (fun t => decide (t.DeletedAt = none ∧ t.Id = id)) = []
        then some .ErrTaskNotFound else none,
       { c with store := { c.store with tasks := c.store.tasks.map (fun t =>
          if decide (t.DeletedAt = none ∧ t.Id = id)
          then { t with DeletedAt := some now } else t) } }) := by
  by_cases h : c.store.tasks.filter (fun t => decide (t.DeletedAt = none ∧ t.Id = id)) = []
  · rw [if_pos h]
    simp only [taskRepository.DeleteTask, ToSql, storeDB, Store.run, h]
    simp
  · rw [if_neg h]
    have hpos : ((c.store.tasks.filter
        (fun t => decide (t.DeletedAt = none ∧ t.Id = id))).length : Int) ≠ 0 := by
      have := List.length_pos.mpr h
      omega
    simp only [taskRepository.DeleteTask, ToSql, storeDB, Store.run]
    simp only [hpos, if_false]

/-- Claim C13: on a store holding a non-deleted task with identifier `i`,
`DeleteTask(i)` succeeds and writes its deletion time on that task, and a second
`DeleteTask(i)` returns `ErrTaskNotFound` and leaves the store, deletion time
included, as the first call left it. -/
theorem DeleteTask_twice (c : Conn) (i : UUID) (now1 now2 : Time) (t : Task)
    (ht : t ∈ c.store.tasks) (hid : t.Id = i) (hlive : t.DeletedAt = none) :
    (taskRepository.DeleteTask storeDB now1 i c).1 = none
      ∧ { t with DeletedAt := some now1 } ∈ (taskRepository.DeleteTask storeDB now1 i c).2.store.tasks
      ∧ taskRepository.DeleteTask storeDB now2 i (taskRepository.DeleteTask storeDB now1 i c).2
        = (some .ErrTaskNotFound, (taskRepository.DeleteTask storeDB now1 i c).2) := by
  have hne : c.store.tasks.filter (fun t => decide (t.DeletedAt = none ∧ t.Id = i)) ≠ [] := by
    intro h
    have : t ∈ c.store.tasks.filter (fun t => decide (t.DeletedAt = none ∧ t.Id = i)) :=
      List.mem_filter.mpr ⟨ht, by simp [hid, hlive]⟩
    rw [h] at this
    exact absurd this (List.not_mem_nil _)
  have hgone : (c.store.tasks.map (fun t =>
      if decide (t.DeletedAt = none ∧ t.Id = i)
      then { t with DeletedAt := some now1 } else t)).filter
        (fun t => decide (t.DeletedAt = none ∧ t.Id = i)) = [] := by
    rw [List.filter_eq_nil_iff]
    intro a ha
    simp only [List.mem_map] at ha
    obtain ⟨b, -, rfl⟩ := ha
    by_cases hb : b.DeletedAt = none ∧ b.Id = i
    · simp [hb]
    · simp [hb]
  refine ⟨?_, ?_, ?_⟩
  · rw [taskRepository.DeleteTask_store, if_neg hne]
  · rw [taskRepository.DeleteTask_store]
    simp only [List.mem_map]
    exact ⟨t, ht, by simp [hid, hlive]⟩
  · rw [taskRepository.DeleteTask_store c now1 i, taskRepository.DeleteTask_store]
    simp only [hgone, if_true]
    rw [map_if_of_filter_eq_nil _ _ _ hgone]

/-- Witness of `DeleteTask_twice` on task 7 of the sample store. -/
theorem DeleteTask_twice_witness :
    (taskRepository.DeleteTask storeDB 200 7 sampleConn).1 = none
      ∧ taskRepository.DeleteTask storeDB 300 7 (taskRepository.DeleteTask storeDB 200 7 sampleConn).2
        = (some .ErrTaskNotFound, (taskRepository.DeleteTask storeDB 200 7 sampleConn).2) :=
  ⟨(DeleteTask_twice sampleConn 7 200 300
      { Id := 7, Value := "write report", Completed := false, DueDate := none,
        CreatedAt := 10, UpdatedAt := 10, DeletedAt := none, Comments := [], Labels := [] }
      (by decide) rfl rfl).1,
   (DeleteTask_twice sampleConn 7 200 300
      { Id := 7, Value := "write report", Completed := false, DueDate := none,
        CreatedAt := 10, UpdatedAt := 10, DeletedAt := none, Comments := [], Labels := [] }
      (by decide) rfl rfl).2.2⟩

end todolist

/-! ## Reads never return deleted rows -/

namespace todolist
open repository

/-- The row loop of `GetCommentsByTaskId` on rows that all scan. -/
theorem commentRepository.scanRows_comments_ok (rows : List Comment) (acc : List Comment) :
    commentRepository.scanRows (rows.map (fun x => Except.ok (Cols.comment x))) acc
      = (some (acc ++ rows), none) := by
  induction rows generalizing acc with
  | nil => simp [commentRepository.scanRows]
  | cons x rows ih => simp [commentRepository.scanRows, scanComment, ih]

/-- The row loop of `GetLabelsByTaskId` on rows that all scan. -/
theorem labelRepository.scanRows_labels_ok (rows : List Label) (acc : List Label) :
    labelRepository.scanRows (rows.map (fun x => Except.ok (Cols.label x))) acc
      = (some (acc ++ rows), none) := by
  induction rows generalizing acc with
  | nil => simp [labelRepository.scanRows]
  | cons x rows ih => simp [labelRepository.scanRows, scanLabel, ih]

/-- What `GetTasks` does on the relational store. -/
theorem taskRepository.GetTasks_store (c : Conn) (page : Int) :
    taskRepository.GetTasks storeDB page c
      = ((some ((((c.store.tasks.filter (fun t => decide (t.DeletedAt = none))).drop
            (GetOffset page limitPage)).take limitPage).map
            (fun t => { t with Comments := [], Labels := [] })), none), c) := by
  simp only [taskRepository.GetTasks, ToSql, storeDB, Store.run, List.map_map]
  have := taskRepository.scanRows_ok
    (((c.store.tasks.filter (fun t => decide (t.DeletedAt = none))).drop
      (GetOffset page limitPage)).take limitPage) []
  simp only [List.map_map, List.nil_append] at this
  exact Prod.ext this rfl

/-- What `GetCommentsByTaskId` does on the relational store. -/
theorem commentRepository.GetCommentsByTaskId_store (c : Conn) (taskId : UUID) :
    commentRepository.GetCommentsByTaskId storeDB taskId c
      = ((some (c.store.comments.filter
            (fun x => decide (x.DeletedAt = none ∧ x.TaskId = taskId))), none), c) := by
  simp only [commentRepository.GetCommentsByTaskId, ToSql, storeDB, Store.run, List.map_map]
  have := commentRepository.scanRows_comments_ok
    (c.store.comments.filter (fun x => decide (x.DeletedAt = none ∧ x.TaskId = taskId))) []
  simp only [List.nil_append] at this
  exact Prod.ext this rfl

/-- What `GetLabelsByTaskId` does on the relational store. -/
theorem labelRepository.GetLabelsByTaskId_store (c : Conn) (taskId : UUID) :
    labelRepository.GetLabelsByTaskId storeDB taskId c
      = ((some (c.store.labels.filter
            (fun x => decide (x.DeletedAt = none ∧ x.TaskId = taskId))), none), c) := by
  simp only [labelRepository.GetLabelsByTaskId, ToSql, storeDB, Store.run, List.map_map]
  have := labelRepository.scanRows_labels_ok
    (c.store.labels.filter (fun x => decide (x.DeletedAt = none ∧ x.TaskId = taskId))) []
  simp only [List.nil_append] at this
  exact Prod.ext this rfl

/-- Running a statement keeps the facts that the task identifiers are assigned
ones, that `i` is one of the assigned range, and that every task with
identifier `i` is deleted. -/
theorem Store.run_keeps_gone (i : UUID) (st : Store) (q : Stmt)
    (h : FreshIds st ∧ TaskGone i st ∧ i < st.nextId) :
    FreshIds (st.run q).1 ∧ TaskGone i (st.run q).1 ∧ i < (st.run q).1.nextId := by
  obtain ⟨hf, hg, hi⟩ := h
  cases q with
  | selectTask id limit => exact ⟨hf, hg, hi⟩
  | selectTasks limit offset => exact ⟨hf, hg, hi⟩
  | selectComments taskId => exact ⟨hf, hg, hi⟩
  | selectLabels taskId => exact ⟨hf, hg, hi⟩
  | countLabels taskId value => exact ⟨hf, hg, hi⟩
  | deleteComment deletedAt taskId id => exact ⟨hf, hg, hi⟩
  | deleteLabel deletedAt taskId id => exact ⟨hf, hg, hi⟩
  | insertComment taskId value =>
    exact ⟨fun t ht => Nat.lt_succ_of_lt (hf t ht), hg, Nat.lt_succ_of_lt hi⟩
  | insertLabel taskId value =>
    exact ⟨fun t ht => Nat.lt_succ_of_lt (hf t ht), hg, Nat.lt_succ_of_lt hi⟩
  | insertTask value dueDate =>
    refine ⟨?_, ?_, Nat.lt_succ_of_lt hi⟩
    · intro t ht
      simp only [Store.run, List.mem_append, List.mem_singleton] at ht ⊢
      rcases ht with ht | rfl
      · exact Nat.lt_succ_of_lt (hf t ht)
      · exact Nat.lt_succ_self _
    · intro t ht hid
      simp only [Store.run, List.mem_append, List.mem_singleton] at ht
      rcases ht with ht | rfl
      · exact hg t ht hid
      · simp only at hid
        subst hid
        exact absurd hi (Nat.lt_irrefl _)
  | updateTask value completed dueDate updatedAt id =>
    refine ⟨?_, ?_, hi⟩
    · intro t ht
      simp only [Store.run, List.mem_map] at ht ⊢
      obtain ⟨b, hb, rfl⟩ := ht
      split_ifs
      · exact hf b hb
      · exact hf b hb
    · intro t ht hid
      simp only [Store.run, List.mem_map] at ht
      obtain ⟨b, hb, rfl⟩ := ht
      split_ifs at hid ⊢
      · exact hg b hb hid
      · exact hg b hb hid
  | deleteTask deletedAt id =>
    refine ⟨?_, ?_, hi⟩
    · intro t ht
      simp only [Store.run, List.mem_map] at ht ⊢
      obtain ⟨b, hb, rfl⟩ := ht
      split_ifs
      · exact hf b hb
      · exact hf b hb
    · intro t ht hid
      simp only [Store.run, List.mem_map] at ht
      obtain ⟨b, hb, rfl⟩ := ht
      split_ifs at hid ⊢
      · simp
      · exact hg b hb hid

/-- The same facts are kept by running any statements one after the other. -/
theorem Store.runAll_keeps_gone (i : UUID) (qs : List Stmt) (st : Store)
    (h : FreshIds st ∧ TaskGone i st ∧ i < st.nextId) :
    FreshIds (st.runAll qs) ∧ TaskGone i (st.runAll qs) ∧ i < (st.runAll qs).nextId := by
  induction qs generalizing st with
  | nil => exact h
  | cons q qs ih => exact ih _ (Store.run_keeps_gone i st q h)

end todolist

namespace todolist
open repository

/-- When every task with the identifier is deleted, `GetTask` does not find it
and no page of `GetTasks` holds it. -/
theorem reads_skip_gone (i : UUID) (c : Conn) (h : TaskGone i c.store) :
    (taskRepository.GetTask storeDB i c).1 = (none, some .ErrTaskNotFound)
      ∧ ∀ (page : Int) (tasks : List Task),
          (taskRepository.GetTasks storeDB page c).1.1 = some tasks → ∀ t ∈ tasks, t.Id ≠ i := by
  constructor
  · rw [taskRepository.GetTask_store]
    have hnil : c.store.tasks.filter (fun t => decide (t.DeletedAt = none ∧ t.Id = i)) = [] := by
      rw [List.filter_eq_nil_iff]
      intro t ht hp
      simp only [decide_eq_true_eq] at hp
      exact h t ht hp.2 hp.1
    simp only [hnil]
  · intro page tasks hres t ht hid
    rw [taskRepository.GetTasks_store] at hres
    simp only [Option.some.injEq] at hres
    subst hres
    simp only [List.mem_map] at ht
    obtain ⟨t0, ht0, rfl⟩ := ht
    have hmem := List.mem_filter.mp (List.mem_of_mem_drop (List.mem_of_mem_take ht0))
    have hlive : t0.DeletedAt = none := by simpa using hmem.2
    exact h t0 hmem.1 hid hlive

/-- Claim C14: after a successful `DeleteTask(i)` on a store whose task
identifiers are assigned ones, and after any further statements of the
repositories, `GetTask(i)` returns `ErrTaskNotFound` and no page of `GetTasks`
holds a task with identifier `i`; and in every state of the store `GetTask`,
`GetTasks`, `GetCommentsByTaskId` and `GetLabelsByTaskId` return only rows
without a deletion time. -/
theorem deleted_rows_excluded_from_reads (c : Conn) :
    (∀ (i : UUID) (now : Time), FreshIds c.store →
        (taskRepository.DeleteTask storeDB now i c).1 = none →
        ∀ (qs : List Stmt) (later : Conn),
          later.store = (taskRepository.DeleteTask storeDB now i c).2.store.runAll qs →
          (taskRepository.GetTask storeDB i later).1 = (none, some .ErrTaskNotFound)
            ∧ ∀ (page : Int) (tasks : List Task),
                (taskRepository.GetTasks storeDB page later).1.1 = some tasks →
                ∀ t ∈ tasks, t.Id ≠ i)
      ∧ (∀ (id : UUID) (task : Task),
          (taskRepository.GetTask storeDB id c).1.1 = some task → task.DeletedAt = none)
      ∧ (∀ (page : Int) (tasks : List Task),
          (taskRepository.GetTasks storeDB page c).1.1 = some tasks →
          ∀ t ∈ tasks, t.DeletedAt = none)
      ∧ (∀ (taskId : UUID) (comments : List Comment),
          (commentRepository.GetCommentsByTaskId storeDB taskId c).1.1 = some comments →
          ∀ x ∈ comments, x.DeletedAt = none)
      ∧ (∀ (taskId : UUID) (labels : List Label),
          (labelRepository.GetLabelsByTaskId storeDB taskId c).1.1 = some labels →
          ∀ x ∈ labels, x.DeletedAt = none) := by
  refine ⟨?_, ?_, ?_, ?_, ?_⟩
  · intro i now hfresh hok qs later hlater
    rw [taskRepository.DeleteTask_store] at hok hlater
    have hne : c.store.tasks.filter (fun t => decide (t.DeletedAt = none ∧ t.Id = i)) ≠ [] := by
      intro hnil
      rw [if_pos hnil] at hok
      simp at hok
    obtain ⟨t, ht⟩ := List.exists_mem_of_ne_nil _ hne
    have htp := List.mem_filter.mp ht
    have hti : t.Id = i := by
      have := htp.2
      simp only [decide_eq_true_eq] at this
      exact this.2
    have hinv : FreshIds { c.store with tasks := c.store.tasks.map (fun t =>
          if decide (t.DeletedAt = none ∧ t.Id = i)
          then { t with DeletedAt := some now } else t) }
        ∧ TaskGone i { c.store with tasks := c.store.tasks.map (fun t =>
          if decide (t.DeletedAt = none ∧ t.Id = i)
          then { t with DeletedAt := some now } else t) }
        ∧ i < c.store.nextId := by
      refine ⟨?_, ?_, ?_⟩
      · intro a ha
        simp only [List.mem_map] at ha
        obtain ⟨b, hb, rfl⟩ := ha
        split_ifs
        · exact hfresh b hb
        · exact hfresh b hb
      · intro a ha hid
        simp only [List.mem_map] at ha
        obtain ⟨b, hb, rfl⟩ := ha
        by_cases hhit : b.DeletedAt = none ∧ b.Id = i
        · simp [hhit]
        · simp only [hhit, decide_False, Bool.false_eq_true, if_false] at hid ⊢
          intro hdel
          exact hhit ⟨hdel, hid⟩
      · rw [← hti]; exact hfresh t htp.1
    have hlaterinv := Store.runAll_keeps_gone i qs _ hinv
    have hgone : TaskGone i later.store := by
      rw [hlater]; exact hlaterinv.2.1
    exact reads_skip_gone i later hgone
  · intro id task h
    rw [taskRepository.GetTask_store] at h
    cases hf : c.store.tasks.filter (fun t => decide (t.DeletedAt = none ∧ t.Id = id)) with
    | nil => simp only [hf] at h; simp at h
    | cons t ts =>
      have hmem : t ∈ c.store.tasks.filter (fun t => decide (t.DeletedAt = none ∧ t.Id = id)) := by
        rw [hf]; exact List.mem_cons_self _ _
      have hp := (List.mem_filter.mp hmem).2
      simp only [decide_eq_true_eq] at hp
      simp only [hf, Option.some.injEq] at h
      subst h
      exact hp.1
  · intro page tasks h t ht
    rw [taskRepository.GetTasks_store] at h
    simp only [Option.some.injEq] at h
    subst h
    simp only [List.mem_map] at ht
    obtain ⟨t0, ht0, rfl⟩ := ht
    have hmem := List.mem_filter.mp (List.mem_of_mem_drop (List.mem_of_mem_take ht0))
    simpa using hmem.2
  · intro taskId comments h x hx
    rw [commentRepository.GetCommentsByTaskId_store] at h
    simp only [Option.some.injEq] at h
    subst h
    have hp := (List.mem_filter.mp hx).2
    simp only [decide_eq_true_eq] at hp
    exact hp.1
  · intro taskId labels h x hx
    rw [labelRepository.GetLabelsByTaskId_store] at h
    simp only [Option.some.injEq] at h
    subst h
    have hp := (List.mem_filter.mp hx).2
    simp only [decide_eq_true_eq] at hp
    exact hp.1

/-- Witness of `deleted_rows_excluded_from_reads`: after `DeleteTask(7)` on the
sample store and the creation of another task, task 7 is not found. -/
theorem deleted_rows_excluded_from_reads_witness :
    (taskRepository.GetTask storeDB 7
        { store := (taskRepository.DeleteTask storeDB 200 7 sampleConn).2.store.runAll
            [.insertTask "next" none]
          tx := none }).1 = (none, some .ErrTaskNotFound) :=
  ((deleted_rows_excluded_from_reads sampleConn).1 7 200 (by decide) (by decide)
    [.insertTask "next" none] _ rfl).1

end todolist

/-! ## Missing rows -/

namespace todolist
open repository

/-- On the relational store `UpdateTask` returns nil whatever the task is: the
`UPDATE` statement runs without error also when it matches no row, and the
error of the row is the only thing the method looks at. -/
theorem taskRepository.UpdateTask_store_returns_nil (c : Conn) (now : Time) (task : Task) :
    (taskRepository.UpdateTask storeDB now task c).1 = none := by
  simp [taskRepository.UpdateTask, ToSql, storeDB, firstRow]

/-- When every task row with the identifier is deleted (or there is none),
`GetTask` and `DeleteTask` return `ErrTaskNotFound` and leave the store as it
is. -/
theorem taskRepository.missing_task_not_found (c : Conn) (now : Time) (i : UUID)
    (h : TaskGone i c.store) :
    taskRepository.GetTask storeDB i c = ((none, some .ErrTaskNotFound), c)
      ∧ taskRepository.DeleteTask storeDB now i c = (some .ErrTaskNotFound, c) := by
  have hnil : c.store.tasks.filter (fun t => decide (t.DeletedAt = none ∧ t.Id = i)) = [] := by
    rw [List.filter_eq_nil_iff]
    intro t ht hp
    simp only [decide_eq_true_eq] at hp
    exact h t ht hp.2 hp.1
  constructor
  · rw [taskRepository.GetTask_store]
    simp only [hnil]
  · rw [taskRepository.DeleteTask_store, if_pos hnil, map_if_of_filter_eq_nil _ _ _ hnil]

/-- Claim C16, evaluated on the sample store, where task 8 is soft-deleted and no
task has identifier 99: `GetTask` and `DeleteTask` return `ErrTaskNotFound` for
both, and `UpdateTask` returns nil for both (leaving the store unchanged). -/
theorem UpdateTask_missing_task_returns_nil :
    taskRepository.GetTask storeDB 8 sampleConn = ((none, some .ErrTaskNotFound), sampleConn)
      ∧ taskRepository.DeleteTask storeDB 200 8 sampleConn
        = (some .ErrTaskNotFound, sampleConn)
      ∧ taskRepository.UpdateTask storeDB 200
          { Id := 8, Value := "new", Completed := false, DueDate := none, CreatedAt := 11,
            UpdatedAt := 12, DeletedAt := none, Comments := [], Labels := [] } sampleConn
        = (none, sampleConn)
      ∧ taskRepository.UpdateTask storeDB 200
          { Id := 99, Value := "new", Completed := false, DueDate := none, CreatedAt := 11,
            UpdatedAt := 12, DeletedAt := none, Comments := [], Labels := [] } sampleConn
        = (none, sampleConn) := by
  decide

/-! ## Deleting comments and labels -/

/-- What `DeleteCommentByTaskIdAndCommentId` does on the relational store. -/
theorem commentRepository.DeleteComment_store (c : Conn) (now : Time) (taskId id : UUID) :
    commentRepository.DeleteCommentByTaskIdAndCommentId storeDB now taskId id c =
      (if c.store.comments.filter
            (fun x => decide (x.DeletedAt = none ∧ x.TaskId = taskId ∧ x.Id = id)) = []
        then some .ErrCommentNotFound else none,
       { c with store := { c.store with comments := c.store.comments.map (fun x =>
          if decide (x.DeletedAt = none ∧ x.TaskId = taskId ∧ x.Id = id)
          then { x with DeletedAt := some now } else x) } }) := by
  by_cases h : c.store.comments.filter
      (fun x => decide (x.DeletedAt = none ∧ x.TaskId = taskId ∧ x.Id = id)) = []
  · rw [if_pos h]
    simp only [commentRepository.DeleteCommentByTaskIdAndCommentId, ToSql, storeDB, Store.run, h]
    simp
  · rw [if_neg h]
    have hpos : ((c.store.comments.filter
        (fun x => decide (x.DeletedAt = none ∧ x.TaskId = taskId ∧ x.Id = id))).length : Int)
        ≠ 0 := by
      have := List.length_pos.mpr h
      omega
    simp only [commentRepository.DeleteCommentByTaskIdAndCommentId, ToSql, storeDB, Store.run]
    simp only [hpos, if_false]

/-- What `DeleteLabelByTaskIdAndLabelId` returns and does on the relational
store. -/
theorem labelRepository.DeleteLabel_result_store (c : Conn) (now : Time) (taskId id : UUID) :
    labelRepository.DeleteLabelByTaskIdAndLabelId storeDB now taskId id c =
      (if c.store.labels.filter
            (fun x => decide (x.DeletedAt = none ∧ x.TaskId = taskId ∧ x.Id = id)) = []
        then some .ErrLabelNotFound else none,
       { c with store := { c.store with labels := c.store.labels.map (fun x =>
          if decide (x.DeletedAt = none ∧ x.TaskId = taskId ∧ x.Id = id)
          then { x with DeletedAt := some now } else x) } }) := by
  by_cases h : c.store.labels.filter
      (fun x => decide (x.DeletedAt = none ∧ x.TaskId = taskId ∧ x.Id = id)) = []
  · rw [if_pos h]
    simp only [labelRepository.DeleteLabelByTaskIdAndLabelId, ToSql, storeDB, Store.run, h]
    simp
  · rw [if_neg h]
    have hpos : ((c.store.labels.filter
        (fun x => decide (x.DeletedAt = none ∧ x.TaskId = taskId ∧ x.Id = id))).length : Int)
        ≠ 0 := by
      have := List.length_pos.mpr h
      omega
    simp only [labelRepository.DeleteLabelByTaskIdAndLabelId, ToSql, storeDB, Store.run]
    simp only [hpos, if_false]

/-- A filter selects no row exactly when no row satisfies it. -/
theorem filter_eq_nil_iff_not_exists {α : Type} (p : α → Prop) [DecidablePred p] (l : List α) :
    l.filter (fun a => decide (p a)) = [] ↔ ¬ ∃ a ∈ l, p a := by
  rw [List.filter_eq_nil_iff]
  constructor
  · rintro h ⟨a, ha, hp⟩
    exact h a ha (by simpa using hp)
  · intro h a ha hp
    exact h ⟨a, ha, by simpa using hp⟩

/-- Claim C17: on the relational store, `DeleteCommentByTaskIdAndCommentId` and
`DeleteLabelByTaskIdAndLabelId` set the deletion time of the non-deleted rows
whose identifier and task identifier both match and change nothing else
(neither another row nor another table); they return nil when such a row
exists, and when none exists they return `ErrCommentNotFound`, respectively
`ErrLabelNotFound`, and leave the store as it is. -/
theorem delete_child_scoped_to_both_ids (c : Conn) (now : Time) (taskId id : UUID) :
    ((commentRepository.DeleteCommentByTaskIdAndCommentId storeDB now taskId id c).2
        = { c with store := { c.store with comments := c.store.comments.map (fun x =>
            if decide (x.DeletedAt = none ∧ x.TaskId = taskId ∧ x.Id = id)
            then { x with DeletedAt := some now } else x) } }
      ∧ ((∃ x ∈ c.store.comments, x.DeletedAt = none ∧ x.TaskId = taskId ∧ x.Id = id) →
          (commentRepository.DeleteCommentByTaskIdAndCommentId storeDB now taskId id c).1 = none)
      ∧ ((¬ ∃ x ∈ c.store.comments, x.DeletedAt = none ∧ x.TaskId = taskId ∧ x.Id = id) →
          commentRepository.DeleteCommentByTaskIdAndCommentId storeDB now taskId id c
            = (some .ErrCommentNotFound, c)))
    ∧ ((labelRepository.DeleteLabelByTaskIdAndLabelId storeDB now taskId id c).2
        = { c with store := { c.store with labels := c.store.labels.map (fun x =>
            if decide (x.DeletedAt = none ∧ x.TaskId = taskId ∧ x.Id = id)
            then { x with DeletedAt := some now } else x) } }
      ∧ ((∃ x ∈ c.store.labels, x.DeletedAt = none ∧ x.TaskId = taskId ∧ x.Id = id) →
          (labelRepository.DeleteLabelByTaskIdAndLabelId storeDB now taskId id c).1 = none)
      ∧ ((¬ ∃ x ∈ c.store.labels, x.DeletedAt = none ∧ x.TaskId = taskId ∧ x.Id = id) →
          labelRepository.DeleteLabelByTaskIdAndLabelId storeDB now taskId id c
            = (some .ErrLabelNotFound, c))) := by
  refine ⟨⟨?_, ?_, ?_⟩, ⟨?_, ?_, ?_⟩⟩
  · rw [commentRepository.DeleteComment_store]
  · intro h
    rw [commentRepository.DeleteComment_store, if_neg]
    rw [filter_eq_nil_iff_not_exists (fun x : Comment =>
      x.DeletedAt = none ∧ x.TaskId = taskId ∧ x.Id = id)]
    exact not_not_intro h
  · intro h
    have hnil := (filter_eq_nil_iff_not_exists (fun x : Comment =>
      x.DeletedAt = none ∧ x.TaskId = taskId ∧ x.Id = id) c.store.comments).mpr h
    rw [commentRepository.DeleteComment_store, if_pos hnil, map_if_of_filter_eq_nil _ _ _ hnil]
  · rw [labelRepository.DeleteLabel_result_store]
  · intro h
    rw [labelRepository.DeleteLabel_result_store, if_neg]
    rw [filter_eq_nil_iff_not_exists (fun x : Label =>
      x.DeletedAt = none ∧ x.TaskId = taskId ∧ x.Id = id)]
    exact not_not_intro h
  · intro h
    have hnil := (filter_eq_nil_iff_not_exists (fun x : Label =>
      x.DeletedAt = none ∧ x.TaskId = taskId ∧ x.Id = id) c.store.labels).mpr h
    rw [labelRepository.DeleteLabel_result_store, if_pos hnil, map_if_of_filter_eq_nil _ _ _ hnil]

/-- Witness of `delete_child_scoped_to_both_ids`: comment 20 belongs to task 7,
so deleting it as a comment of task 8 is not found and changes nothing, and
deleting it as a comment of task 7 succeeds. -/
theorem delete_child_scoped_to_both_ids_witness :
    commentRepository.DeleteCommentByTaskIdAndCommentId storeDB 200 8 20 orphanConn
        = (some .ErrCommentNotFound, orphanConn)
      ∧ (commentRepository.DeleteCommentByTaskIdAndCommentId storeDB 200 7 20 orphanConn).1
        = none :=
  ⟨(delete_child_scoped_to_both_ids orphanConn 200 8 20).1.2.2 (by decide),
   (delete_child_scoped_to_both_ids orphanConn 200 7 20).1.2.1 (by decide)⟩

end todolist

/-! ## The handlers that delete a comment or a label -/

namespace todolist
open repository

/-- Claim C18 as stated fails: in a store where task 8 is soft-deleted and still
owns the non-deleted comment 21 and the non-deleted label 31, the `DeleteComment`
and `DeleteLabel` requests for them succeed (and delete them) instead of
signalling `NotFound`; the same holds when the task row does not exist at all. -/
theorem delete_child_handlers_succeed_on_deleted_task :
    (todoListGRPC.DeleteComment sampleEnv storeGRPC 200 { Id := "8", CommentId := "21" }
        orphanConn).1 = (some .mk, none)
      ∧ (todoListGRPC.DeleteLabel sampleEnv storeGRPC 200 { Id := "8", LabelId := "31" }
        orphanConn).1 = (some .mk, none)
      ∧ (taskRepository.GetTask storeDB 8 orphanConn).1 = (none, some .ErrTaskNotFound)
      ∧ (todoListGRPC.DeleteComment sampleEnv storeGRPC 200 { Id := "8", CommentId := "21" }
        { orphanConn with store := { orphanStore with tasks := [] } }).1 = (some .mk, none) := by
  decide

/-- Claim C18, as amended: the `DeleteComment` and `DeleteLabel` handlers do not
consult the task. With valid identifiers, on the relational store, they signal
`NotFound` and change nothing when no non-deleted comment (label) has the given
identifier and task identifier, and otherwise they delete it and succeed (the
status header being sent); the outcome is the same whatever the table of tasks
holds. -/
theorem delete_child_handlers_ignore_task (env : Env) (c : Conn) (now : Time)
    (taskIdText idText : String) (taskId id : UUID)
    (htask : tools.GetValidUUID env taskIdText = (taskId, none))
    (hid : tools.GetValidUUID env idText = (id, none)) :
    ((¬ ∃ x ∈ c.store.comments, x.DeletedAt = none ∧ x.TaskId = taskId ∧ x.Id = id) →
        todoListGRPC.DeleteComment env storeGRPC now { Id := taskIdText, CommentId := idText } c
          = ((none, some ErrStatusCommentNotFound), c))
      ∧ ((∃ x ∈ c.store.comments, x.DeletedAt = none ∧ x.TaskId = taskId ∧ x.Id = id) →
        env.SetStatusCode http.StatusNoContent = none →
        todoListGRPC.DeleteComment env storeGRPC now { Id := taskIdText, CommentId := idText } c
          = ((some .mk, none),
             { c with store := { c.store with comments := c.store.comments.map (fun x =>
                if decide (x.DeletedAt = none ∧ x.TaskId = taskId ∧ x.Id = id)
                then { x with DeletedAt := some now } else x) } }))
      ∧ ((¬ ∃ x ∈ c.store.labels, x.DeletedAt = none ∧ x.TaskId = taskId ∧ x.Id = id) →
        todoListGRPC.DeleteLabel env storeGRPC now { Id := taskIdText, LabelId := idText } c
          = ((none, some ErrStatusErrLabelNotFound), c))
      ∧ ((∃ x ∈ c.store.labels, x.DeletedAt = none ∧ x.TaskId = taskId ∧ x.Id = id) →
        env.SetStatusCode http.StatusNoContent = none →
        todoListGRPC.DeleteLabel env storeGRPC now { Id := taskIdText, LabelId := idText } c
          = ((some .mk, none),
             { c with store := { c.store with labels := c.store.labels.map (fun x =>
                if decide (x.DeletedAt = none ∧ x.TaskId = taskId ∧ x.Id = id)
                then { x with DeletedAt := some now } else x) } }))
      ∧ (∀ tasks : List Task,
          (todoListGRPC.DeleteComment env storeGRPC now { Id := taskIdText, CommentId := idText }
              { c with store := { c.store with tasks := tasks } }).1
            = (todoListGRPC.DeleteComment env storeGRPC now
                { Id := taskIdText, CommentId := idText } c).1
          ∧ (todoListGRPC.DeleteLabel env storeGRPC now { Id := taskIdText, LabelId := idText }
              { c with store := { c.store with tasks := tasks } }).1
            = (todoListGRPC.DeleteLabel env storeGRPC now
                { Id := taskIdText, LabelId := idText } c).1) := by
  have hc : ∀ c' : Conn, todoListGRPC.DeleteComment env storeGRPC now
      { Id := taskIdText, CommentId := idText } c' =
      (if c'.store.comments.filter
            (fun x => decide (x.DeletedAt = none ∧ x.TaskId = taskId ∧ x.Id = id)) = []
       then ((none, some ErrStatusCommentNotFound),
          { c' with store := { c'.store with comments := c'.store.comments.map (fun x =>
                if decide (x.DeletedAt = none ∧ x.TaskId = taskId ∧ x.Id = id)
                then { x with DeletedAt := some now } else x) } })
       else
        (match env.SetStatusCode http.StatusNoContent with
          | some _ => (none, some ErrStatusInternalServerError)
          | none => (some .mk, none),
          { c' with store := { c'.store with comments := c'.store.comments.map (fun x =>
                if decide (x.DeletedAt = none ∧ x.TaskId = taskId ∧ x.Id = id)
                then { x with DeletedAt := some now } else x) } })) := by
    intro c'
    simp only [todoListGRPC.DeleteComment, storeGRPC, NewGRPC, NewCommentRepository, htask, hid,
      commentRepository.DeleteComment_store]
    split_ifs with h
    · simp
    · cases hs : env.SetStatusCode http.StatusNoContent <;> simp
  have hl : ∀ c' : Conn, todoListGRPC.DeleteLabel env storeGRPC now
      { Id := taskIdText, LabelId := idText } c' =
      (if c'.store.labels.filter
            (fun x => decide (x.DeletedAt = none ∧ x.TaskId = taskId ∧ x.Id = id)) = []
       then ((none, some ErrStatusErrLabelNotFound),
          { c' with store := { c'.store with labels := c'.store.labels.map (fun x =>
                if decide (x.DeletedAt = none ∧ x.TaskId = taskId ∧ x.Id = id)
                then { x with DeletedAt := some now } else x) } })
       else
        (match env.SetStatusCode http.StatusNoContent with
          | some _ => (none, some ErrStatusInternalServerError)
          | none => (some .mk, none),
          { c' with store := { c'.store with labels := c'.store.labels.map (fun x =>
                if decide (x.DeletedAt = none ∧ x.TaskId = taskId ∧ x.Id = id)
                then { x with DeletedAt := some now } else x) } })) := by
    intro c'
    simp only [todoListGRPC.DeleteLabel, storeGRPC, NewGRPC, NewLabelRepository, htask, hid,
      labelRepository.DeleteLabel_result_store]
    split_ifs with h
    · simp
    · cases hs : env.SetStatusCode http.StatusNoContent <;> simp
  refine ⟨?_, ?_, ?_, ?_, ?_⟩
  · intro h
    have hnil := (filter_eq_nil_iff_not_exists (fun x : Comment =>
      x.DeletedAt = none ∧ x.TaskId = taskId ∧ x.Id = id) c.store.comments).mpr h
    rw [hc, if_pos hnil, map_if_of_filter_eq_nil _ _ _ hnil]
  · intro h hs
    have hne : ¬ c.store.comments.filter
        (fun x => decide (x.DeletedAt = none ∧ x.TaskId = taskId ∧ x.Id = id)) = [] := by
      rw [filter_eq_nil_iff_not_exists (fun x : Comment =>
        x.DeletedAt = none ∧ x.TaskId = taskId ∧ x.Id = id)]
      exact not_not_intro h
    rw [hc, if_neg hne, hs]
  · intro h
    have hnil := (filter_eq_nil_iff_not_exists (fun x : Label =>
      x.DeletedAt = none ∧ x.TaskId = taskId ∧ x.Id = id) c.store.labels).mpr h
    rw [hl, if_pos hnil, map_if_of_filter_eq_nil _ _ _ hnil]
  · intro h hs
    have hne : ¬ c.store.labels.filter
        (fun x => decide (x.DeletedAt = none ∧ x.TaskId = taskId ∧ x.Id = id)) = [] := by
      rw [filter_eq_nil_iff_not_exists (fun x : Label =>
        x.DeletedAt = none ∧ x.TaskId = taskId ∧ x.Id = id)]
      exact not_not_intro h
    rw [hl, if_neg hne, hs]
  · intro tasks
    rw [hc, hc, hl, hl]
    constructor
    · split_ifs <;> rfl
    · split_ifs <;> rfl

/-- Witness of `delete_child_handlers_ignore_task`: task 8 has no comment with
identifier 7, so that request is not found; comment 21 of the deleted task 8 is
deleted. -/
theorem delete_child_handlers_ignore_task_witness :
    todoListGRPC.DeleteComment sampleEnv storeGRPC 200 { Id := "8", CommentId := "7" } orphanConn
        = ((none, some ErrStatusCommentNotFound), orphanConn)
      ∧ (todoListGRPC.DeleteComment sampleEnv storeGRPC 200 { Id := "8", CommentId := "21" }
          orphanConn).1 = (some .mk, none) :=
  ⟨(delete_child_handlers_ignore_task sampleEnv orphanConn 200 "8" "7" 8 7 rfl rfl).1
     (by decide),
   congrArg Prod.fst
     ((delete_child_handlers_ignore_task sampleEnv orphanConn 200 "8" "21" 8 21 rfl rfl).2.1
       (by decide) rfl)⟩

end todolist

/-! ## Validation of identifiers -/

namespace todolist
open repository

/-- Claim C19: `GetValidUUID` has exactly three outcomes. A string that
`uuid.FromString` rejects gives the nil identifier and `InvalidArgument` "the id
must be uuid"; a string that parses to the nil identifier gives the nil
identifier and `InvalidArgument` "the id must be a valid uuid"; every other
string gives the parsed identifier, which is not nil, and no error. The two
failures are different statuses. -/
theorem GetValidUUID_three_outcomes (env : Env) (id : String) :
    (∀ e, env.FromString id = .error e →
        tools.GetValidUUID env id = (uuid.Nil, some tools.ErrStatusIdMustBeUUID))
      ∧ (env.FromString id = .ok uuid.Nil →
        tools.GetValidUUID env id = (uuid.Nil, some tools.ErrStatusIdMusBeValidUUID))
      ∧ (∀ u, env.FromString id = .ok u → u ≠ uuid.Nil →
        tools.GetValidUUID env id = (u, none))
      ∧ (tools.GetValidUUID env id = (uuid.Nil, some tools.ErrStatusIdMustBeUUID)
          ∨ tools.GetValidUUID env id = (uuid.Nil, some tools.ErrStatusIdMusBeValidUUID)
          ∨ ∃ u, u ≠ uuid.Nil ∧ env.FromString id = .ok u
              ∧ tools.GetValidUUID env id = (u, none))
      ∧ tools.ErrStatusIdMustBeUUID ≠ tools.ErrStatusIdMusBeValidUUID
      ∧ tools.ErrStatusIdMustBeUUID = ⟨.InvalidArgument, "the id must be uuid"⟩
      ∧ tools.ErrStatusIdMusBeValidUUID = ⟨.InvalidArgument, "the id must be a valid uuid"⟩ := by
  refine ⟨?_, ?_, ?_, ?_, by decide, rfl, rfl⟩
  · intro e h
    simp [tools.GetValidUUID, h]
  · intro h
    simp [tools.GetValidUUID, h]
  · intro u h hne
    simp [tools.GetValidUUID, h, hne]
  · cases h : env.FromString id with
    | error e => left; simp [tools.GetValidUUID, h]
    | ok u =>
      by_cases hu : u = uuid.Nil
      · right; left; simp [tools.GetValidUUID, h, hu]
      · right; right
        exact ⟨u, hu, rfl, by simp [tools.GetValidUUID, h, hu]⟩

/-- Witness of `GetValidUUID_three_outcomes`: the three kinds of input of the
test `TestGetValidUUID`. -/
theorem GetValidUUID_three_outcomes_witness :
    tools.GetValidUUID sampleEnv "ASD" = (uuid.Nil, some tools.ErrStatusIdMustBeUUID)
      ∧ tools.GetValidUUID sampleEnv "0" = (uuid.Nil, some tools.ErrStatusIdMusBeValidUUID)
      ∧ tools.GetValidUUID sampleEnv "7" = (7, none) :=
  ⟨(GetValidUUID_three_outcomes sampleEnv "ASD").1 _ rfl,
   (GetValidUUID_three_outcomes sampleEnv "0").2.1 rfl,
   (GetValidUUID_three_outcomes sampleEnv "7").2.2.1 7 rfl (by decide)⟩

/-- An identifier that is malformed or nil is rejected by `GetValidUUID`. -/
theorem tools.GetValidUUID_bad (env : Env) (id : String) (h : badId env id = true) :
    ∃ u err, tools.GetValidUUID env id = (u, some err) := by
  unfold badId at h
  cases hf : env.FromString id with
  | error e => exact ⟨uuid.Nil, tools.ErrStatusIdMustBeUUID, by simp [tools.GetValidUUID, hf]⟩
  | ok u =>
    rw [hf] at h
    simp only [decide_eq_true_eq] at h
    exact ⟨uuid.Nil, tools.ErrStatusIdMusBeValidUUID, by simp [tools.GetValidUUID, hf, h]⟩

/-- Claim C20: in each of the ten handlers that take an identifier, when the
task identifier (or, for `DeleteComment` and `DeleteLabel`, the task identifier
or else the comment or label identifier) is malformed or nil, the handler
returns a nil response with the error of `GetValidUUID` and leaves the state of
the repositories untouched, whatever the repositories are: no method of a
repository is invoked. -/
theorem handlers_validate_ids_first {σ : Type} (env : Env) (svc : todoListGRPC σ) (now : Time)
    (s : σ) (id other value : String) (completed : Bool) :
    (badId env id = true →
        (tools.GetValidUUID env id).2 ≠ none
        ∧ todoListGRPC.GetTask env svc { Id := id } s
            = ((none, (tools.GetValidUUID env id).2), s)
        ∧ todoListGRPC.UpdateTask env svc now
            { Id := id, Value := value, Completed := completed, DueDate := other } s
            = ((none, (tools.GetValidUUID env id).2), s)
        ∧ todoListGRPC.DeleteTask env svc now { Id := id } s
            = ((none, (tools.GetValidUUID env id).2), s)
        ∧ todoListGRPC.UpdateTaskStatus env svc now { Id := id, Completed := completed } s
            = ((none, (tools.GetValidUUID env id).2), s)
        ∧ todoListGRPC.GetComments env svc { Id := id } s
            = ((none, (tools.GetValidUUID env id).2), s)
        ∧ todoListGRPC.CreateComment env svc { Id := id, Comment := value } s
            = ((none, (tools.GetValidUUID env id).2), s)
        ∧ todoListGRPC.DeleteComment env svc now { Id := id, CommentId := other } s
            = ((none, (tools.GetValidUUID env id).2), s)
        ∧ todoListGRPC.GetLabels env svc { Id := id } s
            = ((none, (tools.GetValidUUID env id).2), s)
        ∧ todoListGRPC.CreateLabel env svc { Id := id, Label := value } s
            = ((none, (tools.GetValidUUID env id).2), s)
        ∧ todoListGRPC.DeleteLabel env svc now { Id := id, LabelId := other } s
            = ((none, (tools.GetValidUUID env id).2), s))
      ∧ (badId env id = false → badId env other = true →
        (tools.GetValidUUID env other).2 ≠ none
        ∧ todoListGRPC.DeleteComment env svc now { Id := id, CommentId := other } s
            = ((none, (tools.GetValidUUID env other).2), s)
        ∧ todoListGRPC.DeleteLabel env svc now { Id := id, LabelId := other } s
            = ((none, (tools.GetValidUUID env other).2), s)) := by
  constructor
  · intro h
    obtain ⟨u, err, hv⟩ := tools.GetValidUUID_bad env id h
    simp [hv, todoListGRPC.GetTask, todoListGRPC.UpdateTask, todoListGRPC.DeleteTask,
      todoListGRPC.UpdateTaskStatus, todoListGRPC.GetComments, todoListGRPC.CreateComment,
      todoListGRPC.DeleteComment, todoListGRPC.GetLabels, todoListGRPC.CreateLabel,
      todoListGRPC.DeleteLabel]
  · intro hgood hbad
    obtain ⟨u, err, hv⟩ := tools.GetValidUUID_bad env other hbad
    have hok : ∃ t, tools.GetValidUUID env id = (t, none) := by
      unfold badId at hgood
      cases hf : env.FromString id with
      | error e => rw [hf] at hgood; simp at hgood
      | ok t =>
        rw [hf] at hgood
        simp only [decide_eq_false_iff_not] at hgood
        exact ⟨t, by simp [tools.GetValidUUID, hf, hgood]⟩
    obtain ⟨t, ht⟩ := hok
    simp [hv, ht, todoListGRPC.DeleteComment, todoListGRPC.DeleteLabel]

/-- Witness of `handlers_validate_ids_first`: the requests of the tests
`DeleteComment_TaskIdErrStatusIdMustBeUUID` and
`DeleteComment_CommentIdErrStatusIdMustBeUUID`, on the sample store. -/
theorem handlers_validate_ids_first_witness :
    todoListGRPC.DeleteComment sampleEnv storeGRPC 200 { Id := "ASD", CommentId := "" }
        sampleConn = ((none, some tools.ErrStatusIdMustBeUUID), sampleConn)
      ∧ todoListGRPC.DeleteComment sampleEnv storeGRPC 200 { Id := "7", CommentId := "ASD" }
        sampleConn = ((none, some tools.ErrStatusIdMustBeUUID), sampleConn) :=
  ⟨((handlers_validate_ids_first sampleEnv storeGRPC 200 sampleConn "ASD" "" "" false).1
      (by decide)).2.2.2.2.2.2.2.1,
   ((handlers_validate_ids_first sampleEnv storeGRPC 200 sampleConn "7" "ASD" "" false).2
      (by decide) (by decide)).2.1⟩

end todolist


/-! ## The health check of `NewConnection` -/

namespace todolist

/-- One round of the ping loop with no try left. -/
theorem storage.pingLoop_last (ping : Nat → Option Err) (k : Nat) :
    storage.pingLoop ping 0 k =
      match ping k with
      | some err => (some err, k + 1)
      | none => (none, k + 1) := by
  rw [storage.pingLoop]
  cases ping k <;> simp

/-- One round of the ping loop with tries left. -/
theorem storage.pingLoop_step (ping : Nat → Option Err) (tries : Int) (k : Nat)
    (h : 0 < tries) :
    storage.pingLoop ping tries k =
      match ping k with
      | some _ => storage.pingLoop ping (tries - 1) (k + 1)
      | none => (none, k + 1) := by
  rw [storage.pingLoop]
  have h1 : tries ≥ 0 := le_of_lt h
  have h2 : tries ≠ 0 := ne_of_gt h
  cases ping k <;> simp [h1, h2]

/-- Claim C28: after a successful open `NewConnection` makes at most 4 pings; it
stops at the first successful ping and returns the handle; it returns a nil
handle, with the error of the fourth ping, if and only if the four pings all
fail; and the loop ends whatever the pings give (the function is total). When
the open fails it returns that error without a ping. -/
theorem NewConnection_bounded_health_check {H : Type} (db : H) (ping : Nat → Option Err) :
    (storage.NewConnection (.ok db) ping).2 ≤ 4
      ∧ (∀ k, k < 4 → ping k = none → (∀ j, j < k → ping j ≠ none) →
          storage.NewConnection (.ok db) ping = ((some db, none), k + 1))
      ∧ ((∀ k, k < 4 → ping k ≠ none) →
          storage.NewConnection (.ok db) ping = ((none, ping 3), 4))
      ∧ ((storage.NewConnection (.ok db) ping).1.1 = none ↔ ∀ k, k < 4 → ping k ≠ none)
      ∧ ((storage.NewConnection (.ok db) ping).1.2 ≠ none ↔ ∀ k, k < 4 → ping k ≠ none)
      ∧ ∀ e : Err, storage.NewConnection (H := H) (.error e) ping = ((none, some e), 0) := by
  have h3 : storage.pingLoop ping 3 0 =
      match ping 0 with
      | none => (none, 1)
      | some _ =>
        match ping 1 with
        | none => (none, 2)
        | some _ =>
          match ping 2 with
          | none => (none, 3)
          | some _ =>
            match ping 3 with
            | none => (none, 4)
            | some e => (some e, 4) := by
    rw [storage.pingLoop_step ping 3 0 (by norm_num)]
    cases ping 0 with
    | none => rfl
    | some e0 =>
      simp only
      rw [show (3 : Int) - 1 = 2 by norm_num, storage.pingLoop_step ping 2 1 (by norm_num)]
      cases ping 1 with
      | none => rfl
      | some e1 =>
        simp only
        rw [show (2 : Int) - 1 = 1 by norm_num, storage.pingLoop_step ping 1 2 (by norm_num)]
        cases ping 2 with
        | none => rfl
        | some e2 =>
          simp only
          rw [show (1 : Int) - 1 = 0 by norm_num, storage.pingLoop_last]
          cases ping 3 <;> rfl
  have hall : (∀ k, k < 4 → ping k ≠ none) ↔
      (ping 0 ≠ none ∧ ping 1 ≠ none ∧ ping 2 ≠ none ∧ ping 3 ≠ none) := by
    constructor
    · intro h
      exact ⟨h 0 (by norm_num), h 1 (by norm_num), h 2 (by norm_num), h 3 (by norm_num)⟩
    · rintro ⟨a0, a1, a2, a3⟩ k hk
      interval_cases k <;> assumption
  refine ⟨?_, ?_, ?_, ?_, ?_, ?_⟩
  · simp only [storage.NewConnection, storage.maxRetries, h3]
    cases ping 0 <;> cases ping 1 <;> cases ping 2 <;> cases ping 3 <;> simp
  · intro k hk hnone hfail
    simp only [storage.NewConnection, storage.maxRetries, h3]
    interval_cases k
    · simp [hnone]
    · have f0 := hfail 0 (by norm_num)
      cases h0 : ping 0 with
      | none => exact absurd h0 f0
      | some e0 => simp [hnone]
    · have f0 := hfail 0 (by norm_num)
      have f1 := hfail 1 (by norm_num)
      cases h0 : ping 0 with
      | none => exact absurd h0 f0
      | some e0 =>
        cases h1 : ping 1 with
        | none => exact absurd h1 f1
        | some e1 => simp [hnone]
    · have f0 := hfail 0 (by norm_num)
      have f1 := hfail 1 (by norm_num)
      have f2 := hfail 2 (by norm_num)
      cases h0 : ping 0 with
      | none => exact absurd h0 f0
      | some e0 =>
        cases h1 : ping 1 with
        | none => exact absurd h1 f1
        | some e1 =>
          cases h2 : ping 2 with
          | none => exact absurd h2 f2
          | some e2 => simp [hnone]
  · intro h
    obtain ⟨a0, a1, a2, a3⟩ := hall.mp h
    simp only [storage.NewConnection, storage.maxRetries, h3]
    cases h0 : ping 0 with
    | none => exact absurd h0 a0
    | some e0 =>
      cases h1 : ping 1 with
      | none => exact absurd h1 a1
      | some e1 =>
        cases h2 : ping 2 with
        | none => exact absurd h2 a2
        | some e2 =>
          cases h3' : ping 3 with
          | none => exact absurd h3' a3
          | some e3 => rfl
  · rw [hall]
    simp only [storage.NewConnection, storage.maxRetries, h3]
    cases ping 0 <;> cases ping 1 <;> cases ping 2 <;> cases ping 3 <;> simp
  · rw [hall]
    simp only [storage.NewConnection, storage.maxRetries, h3]
    cases ping 0 <;> cases ping 1 <;> cases ping 2 <;> cases ping 3 <;> simp
  · intro e
    rfl

/-- Witness of `NewConnection_bounded_health_check`: the third ping succeeds. -/
theorem NewConnection_bounded_health_check_witness :
    storage.NewConnection (.ok "handle")
        (fun k => if k < 2 then some .ErrConnDone else none)
      = ((some "handle", none), 3) :=
  (NewConnection_bounded_health_check "handle"
    (fun k => if k < 2 then some .ErrConnDone else none)).2.1 2 (by decide) (by decide)
    (by intro j hj; interval_cases j <;> decide)

end todolist


/-! ## What the repository methods write -/

namespace todolist
open repository

/-- What `CreateTask` does on the relational store. -/
theorem taskRepository.CreateTask_store (c : Conn) (newTask : Task) :
    taskRepository.CreateTask storeDB newTask c =
      ((some { Id := c.store.nextId, Value := newTask.Value, Completed := false,
               DueDate := newTask.DueDate, CreatedAt := c.store.clock,
               UpdatedAt := c.store.clock, DeletedAt := none, Comments := [], Labels := [] },
        none),
       { store := { c.store with
                    tasks := c.store.tasks ++
                      [{ Id := c.store.nextId, Value := newTask.Value, Completed := false,
                         DueDate := newTask.DueDate, CreatedAt := c.store.clock,
                         UpdatedAt := c.store.clock, DeletedAt := none, Comments := [],
                         Labels := [] }]
                    nextId := c.store.nextId + 1 }
         tx := none }) := by
  simp [taskRepository.CreateTask, ToSql, storeDB, Store.run, firstRow, SqlRow.Scan, scanTask,
    deferred]

/-- What `CreateComment` does on the relational store. -/
theorem commentRepository.CreateComment_store (c : Conn) (newComment : Comment) :
    commentRepository.CreateComment storeDB newComment c =
      ((some { Id := c.store.nextId, TaskId := newComment.TaskId, Value := newComment.Value,
               CreatedAt := c.store.clock, DeletedAt := none }, none),
       { store := { c.store with
                    comments := c.store.comments ++
                      [{ Id := c.store.nextId, TaskId := newComment.TaskId,
                         Value := newComment.Value, CreatedAt := c.store.clock,
                         DeletedAt := none }]
                    nextId := c.store.nextId + 1 }
         tx := none }) := by
  simp [commentRepository.CreateComment, ToSql, storeDB, Store.run, firstRow, SqlRow.Scan,
    scanComment, deferred]

/-- What `UpdateTask` does on the relational store. -/
theorem taskRepository.UpdateTask_store (c : Conn) (now : Time) (task : Task) :
    taskRepository.UpdateTask storeDB now task c =
      (none,
       { c with store := { c.store with tasks := c.store.tasks.map (fun t =>
          if decide (t.DeletedAt = none ∧ t.Id = task.Id)
          then { t with Value := task.Value, Completed := task.Completed,
                        DueDate := task.DueDate, UpdatedAt := now }
          else t) } }) := by
  simp only [taskRepository.UpdateTask, ToSql, storeDB, Store.run, firstRow]

end todolist


namespace todolist
open repository

/-- A statement changes the last-update time of a task row of the store only if
it is the update statement for the identifier of that row. -/
theorem Store.run_UpdatedAt (st : Store) (q : Stmt) (k : Nat) (t t' : Task)
    (h : st.tasks[k]? = some t) (h' : (st.run q).1.tasks[k]? = some t')
    (hne : t'.UpdatedAt ≠ t.UpdatedAt) :
    ∃ value completed dueDate updatedAt, q = .updateTask value completed dueDate updatedAt t.Id := by
  have hk : k < st.tasks.length := by
    rcases Nat.lt_or_ge k st.tasks.length with hlt | hge
    · exact hlt
    · rw [List.getElem?_eq_none hge] at h; exact absurd h (by simp)
  have same : (st.run q).1.tasks = st.tasks → False := by
    intro he
    rw [he, h] at h'
    simp only [Option.some.injEq] at h'
    exact hne (by rw [h'])
  cases q with
  | selectTask id limit => exact absurd rfl same
  | selectTasks limit offset => exact absurd rfl same
  | selectComments taskId => exact absurd rfl same
  | selectLabels taskId => exact absurd rfl same
  | countLabels taskId value => exact absurd rfl same
  | deleteComment deletedAt taskId id => exact absurd rfl same
  | deleteLabel deletedAt taskId id => exact absurd rfl same
  | insertComment taskId value => exact absurd rfl same
  | insertLabel taskId value => exact absurd rfl same
  | insertTask value dueDate =>
    exfalso
    simp only [Store.run] at h'
    rw [List.getElem?_append_left hk, h] at h'
    simp only [Option.some.injEq] at h'
    exact hne (by rw [h'])
  | deleteTask deletedAt id =>
    exfalso
    simp only [Store.run, List.getElem?_map, h, Option.map_some'] at h'
    simp only [Option.some.injEq] at h'
    subst h'
    split_ifs at hne <;> exact hne rfl
  | updateTask value completed dueDate updatedAt id =>
    simp only [Store.run, List.getElem?_map, h, Option.map_some'] at h'
    simp only [Option.some.injEq] at h'
    subst h'
    by_cases hit : t.DeletedAt = none ∧ t.Id = id
    · exact ⟨value, completed, dueDate, updatedAt, by rw [hit.2]⟩
    · simp [hit] at hne

/-- Claim C26: on the relational store, `CreateComment`,
`DeleteCommentByTaskIdAndCommentId`, `CreateLabel`, `DeleteLabelByTaskIdAndLabelId`
and the four reads leave the table of tasks as it is; `DeleteTask` changes only
the deletion time of the rows it matches, so no last-update time; `CreateTask`
only adds a row; and a statement of the repositories changes the last-update
time of an existing task row only if it is the update statement for that row's
identifier. -/
theorem updated_at_changes_only_through_UpdateTask (c : Conn) :
    (∀ x : Comment, (commentRepository.CreateComment storeDB x c).2.store.tasks = c.store.tasks)
      ∧ (∀ (now : Time) (taskId id : UUID),
          (commentRepository.DeleteCommentByTaskIdAndCommentId storeDB now taskId id
            c).2.store.tasks = c.store.tasks)
      ∧ (∀ x : Label, (labelRepository.CreateLabel storeDB x c).2.store.tasks = c.store.tasks)
      ∧ (∀ (now : Time) (taskId id : UUID),
          (labelRepository.DeleteLabelByTaskIdAndLabelId storeDB now taskId id c).2.store.tasks
            = c.store.tasks)
      ∧ (∀ id : UUID, (taskRepository.GetTask storeDB id c).2 = c)
      ∧ (∀ page : Int, (taskRepository.GetTasks storeDB page c).2 = c)
      ∧ (∀ taskId : UUID, (commentRepository.GetCommentsByTaskId storeDB taskId c).2 = c)
      ∧ (∀ taskId : UUID, (labelRepository.GetLabelsByTaskId storeDB taskId c).2 = c)
      ∧ (∀ (now : Time) (id : UUID),
          (taskRepository.DeleteTask storeDB now id c).2.store.tasks
              = c.store.tasks.map (fun t =>
                  if decide (t.DeletedAt = none ∧ t.Id = id)
                  then { t with DeletedAt := some now } else t)
            ∧ (taskRepository.DeleteTask storeDB now id c).2.store.tasks.map
                (fun t => t.UpdatedAt) = c.store.tasks.map (fun t => t.UpdatedAt))
      ∧ (∀ x : Task, ∃ row, (taskRepository.CreateTask storeDB x c).2.store.tasks
          = c.store.tasks ++ [row])
      ∧ (∀ (now : Time) (task : Task),
          (taskRepository.UpdateTask storeDB now task c).2.store.tasks
            = c.store.tasks.map (fun t =>
                if decide (t.DeletedAt = none ∧ t.Id = task.Id)
                then { t with Value := task.Value, Completed := task.Completed,
                              DueDate := task.DueDate, UpdatedAt := now }
                else t))
      ∧ (∀ (q : Stmt) (k : Nat) (t t' : Task),
          c.store.tasks[k]? = some t → (c.store.run q).1.tasks[k]? = some t' →
          t'.UpdatedAt ≠ t.UpdatedAt →
          ∃ value completed dueDate updatedAt,
            q = .updateTask value completed dueDate updatedAt t.Id) := by
  refine ⟨?_, ?_, ?_, ?_, ?_, ?_, ?_, ?_, ?_, ?_, ?_, ?_⟩
  · intro x; rw [commentRepository.CreateComment_store]
  · intro now taskId id; rw [commentRepository.DeleteComment_store]
  · intro x
    rw [labelRepository.CreateLabel_store]
    split_ifs <;> rfl
  · intro now taskId id; rw [labelRepository.DeleteLabel_result_store]
  · intro id
    rw [taskRepository.GetTask_store]
    cases c.store.tasks.filter (fun t => decide (t.DeletedAt = none ∧ t.Id = id)) <;> rfl
  · intro page; rw [taskRepository.GetTasks_store]
  · intro taskId; rw [commentRepository.GetCommentsByTaskId_store]
  · intro taskId; rw [labelRepository.GetLabelsByTaskId_store]
  · intro now id
    rw [taskRepository.DeleteTask_store]
    refine ⟨rfl, ?_⟩
    simp only [List.map_map]
    apply List.map_congr_left
    intro t _
    simp only [Function.comp]
    split_ifs <;> rfl
  · intro x
    rw [taskRepository.CreateTask_store]
    exact ⟨_, rfl⟩
  · intro now task; rw [taskRepository.UpdateTask_store]
  · intro q k t t' h h' hne
    exact Store.run_UpdatedAt c.store q k t t' h h' hne

/-- Witness of `updated_at_changes_only_through_UpdateTask`: on the sample store
the update statement for task 7 changes the last-update time of its row, the
first of the table. -/
theorem updated_at_changes_only_through_UpdateTask_witness :
    ∃ value completed dueDate updatedAt,
      Stmt.updateTask "done" true none 200 7 = .updateTask value completed dueDate updatedAt 7 :=
  (updated_at_changes_only_through_UpdateTask sampleConn).2.2.2.2.2.2.2.2.2.2.2
    (.updateTask "done" true none 200 7) 0
    { Id := 7, Value := "write report", Completed := false, DueDate := none,
      CreatedAt := 10, UpdatedAt := 10, DeletedAt := none, Comments := [], Labels := [] }
    { Id := 7, Value := "done", Completed := true, DueDate := none,
      CreatedAt := 10, UpdatedAt := 200, DeletedAt := none, Comments := [], Labels := [] }
    (by decide) (by decide) (by decide)

end todolist


namespace todolist
open repository

/-- A store keeps its own rows. -/
theorem Store.KeepsRows.refl (st : Store) : st.KeepsRows st :=
  ⟨⟨[], by simp⟩, ⟨[], by simp⟩, ⟨[], by simp⟩⟩

/-- Mapping rows through a function that keeps what `key` reads keeps the keys. -/
theorem map_key_of_keeps {α β : Type} (key : α → β) (f : α → α) (l : List α)
    (h : ∀ a, key (f a) = key a) : (l.map f).map key = l.map key := by
  simp only [List.map_map]
  apply List.map_congr_left
  intro a _
  exact h a

/-- No statement of the repositories removes a row or changes the identifier of
a row (nor the task identifier or the value of a comment or a label). -/
theorem Store.run_keepsRows (st : Store) (q : Stmt) : st.KeepsRows (st.run q).1 := by
  cases q with
  | selectTask id limit => exact Store.KeepsRows.refl st
  | selectTasks limit offset => exact Store.KeepsRows.refl st
  | selectComments taskId => exact Store.KeepsRows.refl st
  | selectLabels taskId => exact Store.KeepsRows.refl st
  | countLabels taskId value => exact Store.KeepsRows.refl st
  | insertTask value dueDate =>
    exact ⟨⟨_, by simp only [Store.run, List.map_append]; rfl⟩, ⟨[], by simp [Store.run]⟩,
      ⟨[], by simp [Store.run]⟩⟩
  | insertComment taskId value =>
    exact ⟨⟨[], by simp [Store.run]⟩, ⟨_, by simp only [Store.run, List.map_append]; rfl⟩,
      ⟨[], by simp [Store.run]⟩⟩
  | insertLabel taskId value =>
    exact ⟨⟨[], by simp [Store.run]⟩, ⟨[], by simp [Store.run]⟩,
      ⟨_, by simp only [Store.run, List.map_append]; rfl⟩⟩
  | updateTask value completed dueDate updatedAt id =>
    refine ⟨⟨[], ?_⟩, ⟨[], by simp [Store.run]⟩, ⟨[], by simp [Store.run]⟩⟩
    simp only [Store.run, List.append_nil]
    apply map_key_of_keeps
    intro a; split_ifs <;> rfl
  | deleteTask deletedAt id =>
    refine ⟨⟨[], ?_⟩, ⟨[], by simp [Store.run]⟩, ⟨[], by simp [Store.run]⟩⟩
    simp only [Store.run, List.append_nil]
    apply map_key_of_keeps
    intro a; split_ifs <;> rfl
  | deleteComment deletedAt taskId id =>
    refine ⟨⟨[], by simp [Store.run]⟩, ⟨[], ?_⟩, ⟨[], by simp [Store.run]⟩⟩
    simp only [Store.run, List.append_nil]
    apply map_key_of_keeps
    intro a; split_ifs <;> rfl
  | deleteLabel deletedAt taskId id =>
    refine ⟨⟨[], by simp [Store.run]⟩, ⟨[], by simp [Store.run]⟩, ⟨[], ?_⟩⟩
    simp only [Store.run, List.append_nil]
    apply map_key_of_keeps
    intro a; split_ifs <;> rfl

/-- Claim C27: on the relational store every method of the three repositories
keeps every row that was there, at its place, with its identifier (and, for a
comment or a label, its task identifier and value); `UpdateTask` writes the
value, the completed flag, the due date and the last-update time of the
non-deleted rows with the identifier and nothing else, and the three delete
methods write the deletion time of the rows they match and nothing else. -/
theorem rows_are_never_removed (c : Conn) :
    (∀ id : UUID, c.store.KeepsRows (taskRepository.GetTask storeDB id c).2.store)
      ∧ (∀ page : Int, c.store.KeepsRows (taskRepository.GetTasks storeDB page c).2.store)
      ∧ (∀ x : Task, c.store.KeepsRows (taskRepository.CreateTask storeDB x c).2.store)
      ∧ (∀ (now : Time) (task : Task),
          c.store.KeepsRows (taskRepository.UpdateTask storeDB now task c).2.store)
      ∧ (∀ (now : Time) (id : UUID),
          c.store.KeepsRows (taskRepository.DeleteTask storeDB now id c).2.store)
      ∧ (∀ x : Comment, c.store.KeepsRows (commentRepository.CreateComment storeDB x c).2.store)
      ∧ (∀ taskId : UUID,
          c.store.KeepsRows (commentRepository.GetCommentsByTaskId storeDB taskId c).2.store)
      ∧ (∀ (now : Time) (taskId id : UUID), c.store.KeepsRows
          (commentRepository.DeleteCommentByTaskIdAndCommentId storeDB now taskId id c).2.store)
      ∧ (∀ x : Label, c.store.KeepsRows (labelRepository.CreateLabel storeDB x c).2.store)
      ∧ (∀ taskId : UUID,
          c.store.KeepsRows (labelRepository.GetLabelsByTaskId storeDB taskId c).2.store)
      ∧ (∀ (now : Time) (taskId id : UUID), c.store.KeepsRows
          (labelRepository.DeleteLabelByTaskIdAndLabelId storeDB now taskId id c).2.store)
      ∧ (∀ (now : Time) (task : Task),
          (taskRepository.UpdateTask storeDB now task c).2
            = { c with store := { c.store with tasks := c.store.tasks.map (fun t =>
                if decide (t.DeletedAt = none ∧ t.Id = task.Id)
                then { t with Value := task.Value, Completed := task.Completed,
                              DueDate := task.DueDate, UpdatedAt := now }
                else t) } })
      ∧ (∀ (now : Time) (id : UUID),
          (taskRepository.DeleteTask storeDB now id c).2
            = { c with store := { c.store with tasks := c.store.tasks.map (fun t =>
                if decide (t.DeletedAt = none ∧ t.Id = id)
                then { t with DeletedAt := some now } else t) } })
      ∧ (∀ (now : Time) (taskId id : UUID),
          (commentRepository.DeleteCommentByTaskIdAndCommentId storeDB now taskId id c).2
            = { c with store := { c.store with comments := c.store.comments.map (fun x =>
                if decide (x.DeletedAt = none ∧ x.TaskId = taskId ∧ x.Id = id)
                then { x with DeletedAt := some now } else x) } })
      ∧ (∀ (now : Time) (taskId id : UUID),
          (labelRepository.DeleteLabelByTaskIdAndLabelId storeDB now taskId id c).2
            = { c with store := { c.store with labels := c.store.labels.map (fun x =>
                if decide (x.DeletedAt = none ∧ x.TaskId = taskId ∧ x.Id = id)
                then { x with DeletedAt := some now } else x) } }) := by
  refine ⟨?_, ?_, ?_, ?_, ?_, ?_, ?_, ?_, ?_, ?_, ?_, ?_, ?_, ?_, ?_⟩
  · intro id
    rw [taskRepository.GetTask_store]
    cases c.store.tasks.filter (fun t => decide (t.DeletedAt = none ∧ t.Id = id)) <;>
      exact Store.KeepsRows.refl _
  · intro page
    rw [taskRepository.GetTasks_store]
    exact Store.KeepsRows.refl _
  · intro x
    rw [taskRepository.CreateTask_store]
    exact Store.run_keepsRows c.store (.insertTask x.Value x.DueDate)
  · intro now task
    rw [taskRepository.UpdateTask_store]
    exact Store.run_keepsRows c.store
      (.updateTask task.Value task.Completed task.DueDate now task.Id)
  · intro now id
    rw [taskRepository.DeleteTask_store]
    exact Store.run_keepsRows c.store (.deleteTask now id)
  · intro x
    rw [commentRepository.CreateComment_store]
    exact Store.run_keepsRows c.store (.insertComment x.TaskId x.Value)
  · intro taskId
    rw [commentRepository.GetCommentsByTaskId_store]
    exact Store.KeepsRows.refl _
  · intro now taskId id
    rw [commentRepository.DeleteComment_store]
    exact Store.run_keepsRows c.store (.deleteComment now taskId id)
  · intro x
    rw [labelRepository.CreateLabel_store]
    split_ifs
    · exact Store.run_keepsRows c.store (.insertLabel x.TaskId x.Value)
    · exact Store.KeepsRows.refl _
  · intro taskId
    rw [labelRepository.GetLabelsByTaskId_store]
    exact Store.KeepsRows.refl _
  · intro now taskId id
    rw [labelRepository.DeleteLabel_result_store]
    exact Store.run_keepsRows c.store (.deleteLabel now taskId id)
  · intro now task; rw [taskRepository.UpdateTask_store]
  · intro now id; rw [taskRepository.DeleteTask_store]
  · intro now taskId id; rw [commentRepository.DeleteComment_store]
  · intro now taskId id; rw [labelRepository.DeleteLabel_result_store]

end todolist


/-! ## The `GetTask` handler -/

namespace todolist
open repository

/-- Claim C21: with a valid identifier the `GetTask` handler calls `GetTask` of
the task repository, then `GetCommentsByTaskId`, then `GetLabelsByTaskId`, all
with that identifier. A failure of the task repository ends the request
(`NotFound` for `ErrTaskNotFound`, `Internal` otherwise) before the other
repositories are called; an error of the comment fetch other than
`ErrCommentNotFound` ends it with `Internal` before the labels are fetched, and
so does an error of the label fetch other than `ErrLabelNotFound`; otherwise
the response succeeds with one entry per returned comment and label, in order,
which is no entry for a nil list. -/
theorem GetTask_handler_aggregates {σ : Type} (env : Env) (svc : todoListGRPC σ)
    (req : pbTodoList.GetTaskRequest) (s : σ) (taskId : UUID)
    (hid : tools.GetValidUUID env req.Id = (taskId, none)) :
    (∀ x e s1, svc.taskRepository.GetTask taskId s = ((x, some e), s1) →
        todoListGRPC.GetTask env svc req s
          = ((none, some (if e = .ErrTaskNotFound then ErrStatusTaskNotFound
                          else ErrStatusInternalServerError)), s1))
      ∧ (∀ task s1, svc.taskRepository.GetTask taskId s = ((some task, none), s1) →
          ∀ comments cerr s2,
            svc.commentRepository.GetCommentsByTaskId taskId s1 = ((comments, cerr), s2) →
            ((cerr ≠ none ∧ cerr ≠ some .ErrCommentNotFound) →
              todoListGRPC.GetTask env svc req s
                = ((none, some ErrStatusInternalServerError), s2))
            ∧ ((cerr = none ∨ cerr = some .ErrCommentNotFound) →
              ∀ labels lerr s3,
                svc.labelRepository.GetLabelsByTaskId taskId s2 = ((labels, lerr), s3) →
                ((lerr ≠ none ∧ lerr ≠ some .ErrLabelNotFound) →
                  todoListGRPC.GetTask env svc req s
                    = ((none, some ErrStatusInternalServerError), s3))
                ∧ ((lerr = none ∨ lerr = some .ErrLabelNotFound) →
                  todoListGRPC.GetTask env svc req s
                    = ((some
                        { Id := env.UUIDString task.Id
                          Value := task.Value
                          Completed := task.Completed
                          DueDate :=
                            match task.DueDate with
                            | some dueDate => tools.FormatDate env dueDate
                            | none => ""
                          CreatedAt := tools.FormatDate env task.CreatedAt
                          UpdatedAt := tools.FormatDate env task.UpdatedAt
                          Comments := (comments.getD []).map (fun comment =>
                            { Id := env.UUIDString comment.Id
                              Message := comment.Value
                              CreatedAt := tools.FormatDate env comment.CreatedAt })
                          Labels := (labels.getD []).map (fun label =>
                            { Id := env.UUIDString label.Id
                              Name := label.Value
                              CreatedAt := tools.FormatDate env label.CreatedAt }) },
                        none), s3)))) := by
  constructor
  · intro x e s1 h
    by_cases he : e = .ErrTaskNotFound <;> simp [todoListGRPC.GetTask, hid, h, he]
  · intro task s1 h comments cerr s2 hc
    constructor
    · intro hcerr
      simp [todoListGRPC.GetTask, hid, h, hc, hcerr]
    · intro hcok
      intro labels lerr s3 hl
      have hc' : ¬ (cerr ≠ none ∧ cerr ≠ some .ErrCommentNotFound) := by
        rintro ⟨a, b⟩; rcases hcok with h1 | h1 <;> contradiction
      constructor
      · intro hlerr
        simp only [todoListGRPC.GetTask, hid, h, hc, hl, if_neg hc', if_pos hlerr]
      · intro hlok
        have hl' : ¬ (lerr ≠ none ∧ lerr ≠ some .ErrLabelNotFound) := by
          rintro ⟨a, b⟩; rcases hlok with h1 | h1 <;> contradiction
        simp only [todoListGRPC.GetTask, hid, h, hc, hl, if_neg hc', if_neg hl']
        cases task.DueDate <;> simp

/-- Witness of `GetTask_handler_aggregates`: task 7 of the one-task store has no
comment and no label, and the response holds two empty lists. -/
theorem GetTask_handler_aggregates_witness :
    todoListGRPC.GetTask sampleEnv storeGRPC { Id := "7" } oneTaskConn
      = ((some { Id := "7", Value := "write report", Completed := false, DueDate := "",
                 CreatedAt := "10", UpdatedAt := "10", Comments := [], Labels := [] }, none),
         oneTaskConn) :=
  (((GetTask_handler_aggregates sampleEnv storeGRPC { Id := "7" } oneTaskConn 7 rfl).2
      { Id := 7, Value := "write report", Completed := false, DueDate := none,
        CreatedAt := 10, UpdatedAt := 10, DeletedAt := none, Comments := [], Labels := [] }
      oneTaskConn rfl (some []) none oneTaskConn rfl).2 (Or.inl rfl)
      (some []) none oneTaskConn rfl).2 (Or.inl rfl)

end todolist


/-! ## The handlers that update a task -/

namespace todolist
open repository

/-- Claim C23, evaluated on a database whose `GetTask` query returns the task and
whose `UPDATE` reports `sql.ErrNoRows`, so that `UpdateTask` of the repository
returns `ErrTaskNotFound`: the `UpdateTask` and `UpdateTaskStatus` handlers
return `Internal` "internal server error", not `NotFound` "task not found". -/
theorem update_handlers_not_found_on_update_is_internal :
    (taskRepository.UpdateTask mockDB 200
        { Id := 7, Value := "", Completed := false, DueDate := none, CreatedAt := 10,
          UpdatedAt := 10, DeletedAt := none, Comments := [], Labels := [] }
        (taskRepository.GetTask mockDB 7 mockUpdateNoRows).2).1 = some .ErrTaskNotFound
      ∧ (todoListGRPC.UpdateTask sampleEnv mockGRPC 200
          { Id := "7", Value := "", Completed := false, DueDate := "" } mockUpdateNoRows).1
        = (none, some ⟨.Internal, "internal server error"⟩)
      ∧ (todoListGRPC.UpdateTaskStatus sampleEnv mockGRPC 200
          { Id := "7", Completed := false } mockUpdateNoRows).1
        = (none, some ⟨.Internal, "internal server error"⟩)
      ∧ ErrStatusTaskNotFound = ⟨.NotFound, "task not found"⟩ := by
  refine ⟨rfl, rfl, rfl, rfl⟩

/-- Claim C29: with a valid identifier and a task found, the `UpdateTaskStatus`
handler passes to `UpdateTask` of the repository the task `GetTask` returned
with only the completed flag replaced by the flag of the request (same
identifier, value, due date and timestamps), and answers `Internal` when the
update fails; and whenever it returns an `InvalidArgument` status, that status is
the error of `GetValidUUID` on a malformed or nil identifier. -/
theorem UpdateTaskStatus_changes_only_completed {σ : Type} (env : Env) (svc : todoListGRPC σ)
    (now : Time) (req : pbTodoList.UpdateTaskStatusRequest) (s : σ) :
    (∀ taskId task s1, tools.GetValidUUID env req.Id = (taskId, none) →
        svc.taskRepository.GetTask taskId s = ((some task, none), s1) →
        todoListGRPC.UpdateTaskStatus env svc now req s =
          (match svc.taskRepository.UpdateTask now
              { Id := task.Id, Value := task.Value, Completed := req.Completed,
                DueDate := task.DueDate, CreatedAt := task.CreatedAt,
                UpdatedAt := task.UpdatedAt, DeletedAt := task.DeletedAt,
                Comments := task.Comments, Labels := task.Labels } s1 with
            | (some _, s2) => ((none, some ErrStatusInternalServerError), s2)
            | (none, s2) =>
              match env.SetStatusCode http.StatusNoContent with
              | some _ => ((none, some ErrStatusInternalServerError), s2)
              | none => ((some .mk, none), s2)))
      ∧ (∀ status, (todoListGRPC.UpdateTaskStatus env svc now req s).1.2 = some status →
          status.code = .InvalidArgument →
          badId env req.Id = true ∧ (tools.GetValidUUID env req.Id).2 = some status) := by
  constructor
  · intro taskId task s1 hid hget
    simp only [todoListGRPC.UpdateTaskStatus, hid, hget]
  · intro status hst hcode
    rcases hv : tools.GetValidUUID env req.Id with ⟨taskId, _ | err⟩
    · exfalso
      simp only [todoListGRPC.UpdateTaskStatus, hv] at hst
      rcases hg : svc.taskRepository.GetTask taskId s with ⟨⟨x, _ | e⟩, s1⟩
      · cases x with
        | none => simp [hg, nilDereference] at hst
        | some task =>
          simp only [hg] at hst
          rcases hu : svc.taskRepository.UpdateTask now
            { task with Completed := req.Completed } s1 with ⟨_ | e, s2⟩
          · simp only [hu] at hst
            cases hs : env.SetStatusCode http.StatusNoContent with
            | none => simp [hs] at hst
            | some e' =>
              simp only [hs, Option.some.injEq] at hst
              subst hst
              simp [ErrStatusInternalServerError] at hcode
          · simp only [hu, Option.some.injEq] at hst
            subst hst
            simp [ErrStatusInternalServerError] at hcode
      · simp only [hg] at hst
        split_ifs at hst
        · simp only [Option.some.injEq] at hst
          subst hst
          simp [ErrStatusTaskNotFound] at hcode
        · simp only [Option.some.injEq] at hst
          subst hst
          simp [ErrStatusInternalServerError] at hcode
    · simp only [todoListGRPC.UpdateTaskStatus, hv, Option.some.injEq] at hst
      subst hst
      refine ⟨?_, rfl⟩
      unfold badId
      cases hf : env.FromString req.Id with
      | error e => rfl
      | ok u =>
        by_cases hu : u = uuid.Nil
        · simp [hu]
        · simp [tools.GetValidUUID, hf, hu] at hv

/-- Witness of `UpdateTaskStatus_changes_only_completed`: for the stored task 8
of the sample with a due date, the task passed to the repository is that task
with the completed flag of the request. -/
theorem UpdateTaskStatus_changes_only_completed_witness :
    todoListGRPC.UpdateTaskStatus sampleEnv
        (recordingGRPC
          { Id := 8, Value := "pay rent", Completed := false, DueDate := some 5,
            CreatedAt := 11, UpdatedAt := 12, DeletedAt := none, Comments := [], Labels := [] })
        200 { Id := "8", Completed := true } []
      = ((some .mk, none),
         [{ Id := 8, Value := "pay rent", Completed := true, DueDate := some 5,
            CreatedAt := 11, UpdatedAt := 12, DeletedAt := none, Comments := [],
            Labels := [] }]) :=
  (UpdateTaskStatus_changes_only_completed sampleEnv
    (recordingGRPC
      { Id := 8, Value := "pay rent", Completed := false, DueDate := some 5,
        CreatedAt := 11, UpdatedAt := 12, DeletedAt := none, Comments := [], Labels := [] })
    200 { Id := "8", Completed := true } []).1 8 _ [] rfl rfl

end todolist


namespace todolist
open repository

/-- What the `UpdateTask` handler does once the identifier is valid and the task
is found: it replaces the completed flag and the value by those of the request,
parses the due date of the request only when the stored task has one, and then
calls `UpdateTask` of the repository. -/
theorem todoListGRPC.UpdateTask_found {σ : Type} (env : Env) (svc : todoListGRPC σ)
    (now : Time) (req : pbTodoList.UpdateTaskRequest) (s s1 : σ) (taskId : UUID) (task : Task)
    (hid : tools.GetValidUUID env req.Id = (taskId, none))
    (hget : svc.taskRepository.GetTask taskId s = ((some task, none), s1)) :
    todoListGRPC.UpdateTask env svc now req s =
      match task.DueDate with
      | none =>
        (match svc.taskRepository.UpdateTask now
            { task with Completed := req.Completed, Value := req.Value } s1 with
          | (some _, s2) => ((none, some ErrStatusInternalServerError), s2)
          | (none, s2) =>
            ((some ⟨taskMessage env
                { task with Completed := req.Completed, Value := req.Value }⟩, none), s2))
      | some _ =>
        match env.Parse tools.TimeLayout req.DueDate with
        | .error _ => ((none, some ErrStatusCannotParseTimeLayout), s1)
        | .ok dueDateTime =>
          (match svc.taskRepository.UpdateTask now
              { task with Completed := req.Completed, Value := req.Value,
                          DueDate := some dueDateTime } s1 with
            | (some _, s2) => ((none, some ErrStatusInternalServerError), s2)
            | (none, s2) =>
              ((some ⟨taskMessage env
                  { task with Completed := req.Completed, Value := req.Value,
                              DueDate := some dueDateTime }⟩, none), s2)) := by
  simp only [todoListGRPC.UpdateTask, hid, hget]
  cases hd : task.DueDate with
  | none => simp only []
  | some d =>
    simp only []
    cases env.Parse tools.TimeLayout req.DueDate <;> simp only []

/-- Claim C30: in the `UpdateTask` handler, with a valid identifier and a task
found, the due date of the request is read only when the stored task has a due
date. For a stored task without one, the task passed to `UpdateTask` of the
repository has no due date whatever the request carries; for a stored task with
one, the task passed has the parsed due date of the request (never none), and a
request whose due date does not parse, the empty one included since `time.Parse`
rejects the empty string, is rejected with `InvalidArgument` "cannot parse
timelayout" before the repository is updated. -/
theorem UpdateTask_handler_reads_due_date_only_when_stored {σ : Type} (env : Env)
    (svc : todoListGRPC σ) (now : Time) (req : pbTodoList.UpdateTaskRequest) (s s1 : σ)
    (taskId : UUID) (task : Task)
    (hid : tools.GetValidUUID env req.Id = (taskId, none))
    (hget : svc.taskRepository.GetTask taskId s = ((some task, none), s1)) :
    (task.DueDate = none →
        todoListGRPC.UpdateTask env svc now req s =
          (match svc.taskRepository.UpdateTask now
              { Id := task.Id, Value := req.Value, Completed := req.Completed, DueDate := none,
                CreatedAt := task.CreatedAt, UpdatedAt := task.UpdatedAt,
                DeletedAt := task.DeletedAt, Comments := task.Comments,
                Labels := task.Labels } s1 with
            | (some _, s2) => ((none, some ErrStatusInternalServerError), s2)
            | (none, s2) =>
              ((some ⟨{ Id := env.UUIDString task.Id, Value := req.Value,
                        Completed := req.Completed, DueDate := "",
                        CreatedAt := tools.FormatDate env task.CreatedAt,
                        UpdatedAt := tools.FormatDate env task.UpdatedAt }⟩, none), s2)))
      ∧ (∀ stored dueDateTime, task.DueDate = some stored →
          env.Parse tools.TimeLayout req.DueDate = .ok dueDateTime →
          todoListGRPC.UpdateTask env svc now req s =
            (match svc.taskRepository.UpdateTask now
                { Id := task.Id, Value := req.Value, Completed := req.Completed,
                  DueDate := some dueDateTime, CreatedAt := task.CreatedAt,
                  UpdatedAt := task.UpdatedAt, DeletedAt := task.DeletedAt,
                  Comments := task.Comments, Labels := task.Labels } s1 with
              | (some _, s2) => ((none, some ErrStatusInternalServerError), s2)
              | (none, s2) =>
                ((some ⟨{ Id := env.UUIDString task.Id, Value := req.Value,
                          Completed := req.Completed,
                          DueDate := tools.FormatDate env dueDateTime,
                          CreatedAt := tools.FormatDate env task.CreatedAt,
                          UpdatedAt := tools.FormatDate env task.UpdatedAt }⟩, none), s2)))
      ∧ (∀ stored e, task.DueDate = some stored →
          env.Parse tools.TimeLayout req.DueDate = .error e →
          todoListGRPC.UpdateTask env svc now req s
            = ((none, some ErrStatusCannotParseTimeLayout), s1))
      ∧ (∀ stored e, task.DueDate = some stored → req.DueDate = "" →
          env.Parse tools.TimeLayout "" = .error e →
          todoListGRPC.UpdateTask env svc now req s
            = ((none, some ErrStatusCannotParseTimeLayout), s1)) := by
  have hfound := todoListGRPC.UpdateTask_found env svc now req s s1 taskId task hid hget
  refine ⟨?_, ?_, ?_, ?_⟩
  · intro hnone
    rw [hfound, hnone]
    simp only [taskMessage, hnone]
  · intro stored dueDateTime hsome hparse
    rw [hfound, hsome]
    simp only [hparse, taskMessage]
  · intro stored e hsome hparse
    rw [hfound, hsome]
    simp only [hparse]
  · intro stored e hsome hempty hparse
    rw [hfound, hsome]
    simp only [hempty, hparse]

/-- Witness of `UpdateTask_handler_reads_due_date_only_when_stored`: task 7 is
stored without a due date; a request carrying a valid due date updates it with
no due date. -/
theorem UpdateTask_handler_reads_due_date_only_when_stored_witness :
    todoListGRPC.UpdateTask sampleEnv
        (recordingGRPC
          { Id := 7, Value := "write report", Completed := false, DueDate := none,
            CreatedAt := 10, UpdatedAt := 10, DeletedAt := none, Comments := [], Labels := [] })
        200 { Id := "7", Value := "x", Completed := true, DueDate := "1970-01-01T00:00:00.050Z" }
        []
      = ((some ⟨{ Id := "7", Value := "x", Completed := true, DueDate := "",
                  CreatedAt := "10", UpdatedAt := "10" }⟩, none),
         [{ Id := 7, Value := "x", Completed := true, DueDate := none, CreatedAt := 10,
            UpdatedAt := 10, DeletedAt := none, Comments := [], Labels := [] }]) :=
  (UpdateTask_handler_reads_due_date_only_when_stored sampleEnv
    (recordingGRPC
      { Id := 7, Value := "write report", Completed := false, DueDate := none,
        CreatedAt := 10, UpdatedAt := 10, DeletedAt := none, Comments := [], Labels := [] })
    200 { Id := "7", Value := "x", Completed := true, DueDate := "1970-01-01T00:00:00.050Z" }
    [] [] 7 _ rfl rfl).1 rfl

/-- Claim C25, evaluated on a store where task 7 has no due date and task 8 has
one: the `UpdateTask` handler decides whether to parse the due date of the
request by the stored task, where the `CreateTask` handler decides by the
request. An `UpdateTask` request for task 7 with a due date that does not parse
succeeds and updates the row, where `CreateTask` rejects that due date with
`InvalidArgument` "cannot parse timelayout"; and an `UpdateTask` request for
task 8 with no due date fails with `InvalidArgument` "cannot parse timelayout",
where `CreateTask` accepts a request with no due date. -/
theorem UpdateTask_handler_due_date_guard_reads_stored_task :
    (∃ e, sampleEnv.Parse tools.TimeLayout "not a date" = .error e)
      ∧ (todoListGRPC.UpdateTask sampleEnv storeGRPC 200
          { Id := "7", Value := "x", Completed := true, DueDate := "not a date" }
          dueDateConn).1
        = (some ⟨{ Id := "7", Value := "x", Completed := true, DueDate := "",
                   CreatedAt := "10", UpdatedAt := "10" }⟩, none)
      ∧ (todoListGRPC.UpdateTask sampleEnv storeGRPC 200
          { Id := "7", Value := "x", Completed := true, DueDate := "not a date" }
          dueDateConn).2.store.tasks.head?
        = some { Id := 7, Value := "x", Completed := true, DueDate := none, CreatedAt := 10,
                 UpdatedAt := 200, DeletedAt := none, Comments := [], Labels := [] }
      ∧ todoListGRPC.UpdateTask sampleEnv storeGRPC 200
          { Id := "8", Value := "x", Completed := true, DueDate := "" } dueDateConn
        = ((none, some ⟨.InvalidArgument, "cannot parse timelayout"⟩), dueDateConn)
      ∧ todoListGRPC.CreateTask sampleEnv storeGRPC { Value := "x", DueDate := "not a date" }
          dueDateConn
        = ((none, some ⟨.InvalidArgument, "cannot parse timelayout"⟩), dueDateConn)
      ∧ (todoListGRPC.CreateTask sampleEnv storeGRPC { Value := "x", DueDate := "" }
          dueDateConn).1.2 = none := by
  refine ⟨⟨_, rfl⟩, by decide, by decide, by decide, by decide, by decide⟩

/-- What the `UpdateTask` handler does with the due date of the request once the
identifier is valid and the task is found: when the stored task has a due date,
a due date of the request that does not parse yields `InvalidArgument` "cannot
parse timelayout" and no update of the repository; when the stored task has no
due date, the due date of the request is not parsed: the update is made whatever
it is, and the request does not fail with `InvalidArgument`. -/
theorem todoListGRPC.UpdateTask_due_date_guard {σ : Type} (env : Env)
    (svc : todoListGRPC σ) (now : Time) (req : pbTodoList.UpdateTaskRequest) (s s1 : σ)
    (taskId : UUID) (task : Task)
    (hid : tools.GetValidUUID env req.Id = (taskId, none))
    (hget : svc.taskRepository.GetTask taskId s = ((some task, none), s1)) :
    (∀ stored e, task.DueDate = some stored →
        env.Parse tools.TimeLayout req.DueDate = .error e →
        todoListGRPC.UpdateTask env svc now req s
          = ((none, some ErrStatusCannotParseTimeLayout), s1))
      ∧ (task.DueDate = none →
          (todoListGRPC.UpdateTask env svc now req s).2
              = (svc.taskRepository.UpdateTask now
                  { task with Completed := req.Completed, Value := req.Value } s1).2
            ∧ ∀ status, (todoListGRPC.UpdateTask env svc now req s).1.2 = some status →
                status.code ≠ .InvalidArgument) := by
  have hfound := todoListGRPC.UpdateTask_found env svc now req s s1 taskId task hid hget
  constructor
  · intro stored e hsome hparse
    rw [hfound, hsome]
    simp only [hparse]
  · intro hnone
    rw [hfound]
    obtain ⟨tid, tvalue, tcompleted, tdue, tcreated, tupdated, tdeleted, tcomments, tlabels⟩ :=
      task
    simp only at hnone
    subst hnone
    simp only
    rcases hu : svc.taskRepository.UpdateTask now
      { Id := tid, Value := req.Value, Completed := req.Completed, DueDate := none,
        CreatedAt := tcreated, UpdatedAt := tupdated, DeletedAt := tdeleted,
        Comments := tcomments, Labels := tlabels } s1 with ⟨_ | e, s2⟩
    · simp
    · simp [ErrStatusInternalServerError]

end todolist


/-! ## The statuses the handlers return -/

namespace todolist
open repository

/-- The error of `GetValidUUID` is one of the two identifier failures. -/
theorem tools.GetValidUUID_status (env : Env) (id : String) (u : UUID) (status : Status)
    (h : tools.GetValidUUID env id = (u, some status)) :
    status = tools.ErrStatusIdMustBeUUID ∨ status = tools.ErrStatusIdMusBeValidUUID := by
  unfold tools.GetValidUUID at h
  cases hf : env.FromString id with
  | error e =>
    rw [hf] at h
    simp only [Prod.mk.injEq, Option.some.injEq] at h
    exact Or.inl h.2.symm
  | ok v =>
    rw [hf] at h
    by_cases hv : v = uuid.Nil
    · simp only [hv, if_true, Prod.mk.injEq, Option.some.injEq] at h
      exact Or.inr h.2.symm
    · simp [hv] at h

/-- The error of `GetValidUUID` is one of the fixed statuses. -/
theorem tools.GetValidUUID_fixed (env : Env) (id : String) (u : UUID) (status : Status)
    (h : tools.GetValidUUID env id = (u, some status)) : status ∈ fixedStatuses := by
  rcases tools.GetValidUUID_status env id u status h with rfl | rfl <;> simp [fixedStatuses]

/-- Every error the `GetTask` handler returns is one of the fixed statuses. -/
theorem todoListGRPC.GetTask_fixed {σ : Type} (env : Env) (svc : todoListGRPC σ)
    (req : pbTodoList.GetTaskRequest) (s : σ) (status : Status)
    (h : (todoListGRPC.GetTask env svc req s).1.2 = some status) : status ∈ fixedStatuses := by
  rcases hv : tools.GetValidUUID env req.Id with ⟨taskId, _ | err⟩
  · simp only [todoListGRPC.GetTask, hv] at h
    repeat' split at h
    all_goals simp_all [fixedStatuses, nilDereference]
  · simp only [todoListGRPC.GetTask, hv, Option.some.injEq] at h
    subst h
    exact tools.GetValidUUID_fixed env req.Id taskId err hv

/-- Every error the `UpdateTask` handler returns is one of the fixed statuses. -/
theorem todoListGRPC.UpdateTask_fixed {σ : Type} (env : Env) (svc : todoListGRPC σ) (now : Time)
    (req : pbTodoList.UpdateTaskRequest) (s : σ) (status : Status)
    (h : (todoListGRPC.UpdateTask env svc now req s).1.2 = some status) :
    status ∈ fixedStatuses := by
  rcases hv : tools.GetValidUUID env req.Id with ⟨taskId, _ | err⟩
  · rcases hg : svc.taskRepository.GetTask taskId s with ⟨⟨x, _ | e⟩, s1⟩
    · cases x with
      | none => simp [todoListGRPC.UpdateTask, hv, hg, nilDereference] at h
      | some task =>
        rw [todoListGRPC.UpdateTask_found env svc now req s s1 taskId task hv hg] at h
        repeat' split at h
        all_goals simp_all [fixedStatuses]
    · simp only [todoListGRPC.UpdateTask, hv, hg] at h
      split_ifs at h <;> simp_all [fixedStatuses]
  · simp only [todoListGRPC.UpdateTask, hv, Option.some.injEq] at h
    subst h
    exact tools.GetValidUUID_fixed env req.Id taskId err hv

/-- Every error the `DeleteTask` handler returns is one of the fixed statuses. -/
theorem todoListGRPC.DeleteTask_fixed {σ : Type} (env : Env) (svc : todoListGRPC σ) (now : Time)
    (req : pbTodoList.DeleteTaskRequest) (s : σ) (status : Status)
    (h : (todoListGRPC.DeleteTask env svc now req s).1.2 = some status) :
    status ∈ fixedStatuses := by
  rcases hv : tools.GetValidUUID env req.Id with ⟨taskId, _ | err⟩
  · simp only [todoListGRPC.DeleteTask, hv] at h
    repeat' split at h
    all_goals simp_all [fixedStatuses, nilDereference]
  · simp only [todoListGRPC.DeleteTask, hv, Option.some.injEq] at h
    subst h
    exact tools.GetValidUUID_fixed env req.Id taskId err hv

/-- Every error the `UpdateTaskStatus` handler returns is one of the fixed statuses. -/
theorem todoListGRPC.UpdateTaskStatus_fixed {σ : Type} (env : Env) (svc : todoListGRPC σ) (now : Time)
    (req : pbTodoList.UpdateTaskStatusRequest) (s : σ) (status : Status)
    (h : (todoListGRPC.UpdateTaskStatus env svc now req s).1.2 = some status) :
    status ∈ fixedStatuses := by
  rcases hv : tools.GetValidUUID env req.Id with ⟨taskId, _ | err⟩
  · simp only [todoListGRPC.UpdateTaskStatus, hv] at h
    repeat' split at h
    all_goals simp_all [fixedStatuses, nilDereference]
  · simp only [todoListGRPC.UpdateTaskStatus, hv, Option.some.injEq] at h
    subst h
    exact tools.GetValidUUID_fixed env req.Id taskId err hv

/-- Every error the `GetComments` handler returns is one of the fixed statuses. -/
theorem todoListGRPC.GetComments_fixed {σ : Type} (env : Env) (svc : todoListGRPC σ)
    (req : pbTodoList.GetCommentsRequest) (s : σ) (status : Status)
    (h : (todoListGRPC.GetComments env svc req s).1.2 = some status) :
    status ∈ fixedStatuses := by
  rcases hv : tools.GetValidUUID env req.Id with ⟨taskId, _ | err⟩
  · simp only [todoListGRPC.GetComments, hv] at h
    repeat' split at h
    all_goals simp_all [fixedStatuses, nilDereference]
  · simp only [todoListGRPC.GetComments, hv, Option.some.injEq] at h
    subst h
    exact tools.GetValidUUID_fixed env req.Id taskId err hv

/-- Every error the `CreateComment` handler returns is one of the fixed statuses. -/
theorem todoListGRPC.CreateComment_fixed {σ : Type} (env : Env) (svc : todoListGRPC σ)
    (req : pbTodoList.CreateCommentRequest) (s : σ) (status : Status)
    (h : (todoListGRPC.CreateComment env svc req s).1.2 = some status) :
    status ∈ fixedStatuses := by
  rcases hv : tools.GetValidUUID env req.Id with ⟨taskId, _ | err⟩
  · simp only [todoListGRPC.CreateComment, hv] at h
    repeat' split at h
    all_goals simp_all [fixedStatuses, nilDereference]
  · simp only [todoListGRPC.CreateComment, hv, Option.some.injEq] at h
    subst h
    exact tools.GetValidUUID_fixed env req.Id taskId err hv

/-- Every error the `DeleteComment` handler returns is one of the fixed statuses. -/
theorem todoListGRPC.DeleteComment_fixed {σ : Type} (env : Env) (svc : todoListGRPC σ) (now : Time)
    (req : pbTodoList.DeleteCommentRequest) (s : σ) (status : Status)
    (h : (todoListGRPC.DeleteComment env svc now req s).1.2 = some status) :
    status ∈ fixedStatuses := by
  rcases hv : tools.GetValidUUID env req.Id with ⟨taskId, _ | err⟩
  · rcases hw : tools.GetValidUUID env req.CommentId with ⟨otherId, _ | err⟩
    · simp only [todoListGRPC.DeleteComment, hv, hw] at h
      repeat' split at h
      all_goals simp_all [fixedStatuses, nilDereference]
    · simp only [todoListGRPC.DeleteComment, hv, hw, Option.some.injEq] at h
      subst h
      exact tools.GetValidUUID_fixed env req.CommentId otherId err hw
  · simp only [todoListGRPC.DeleteComment, hv, Option.some.injEq] at h
    subst h
    exact tools.GetValidUUID_fixed env req.Id taskId err hv

/-- Every error the `GetLabels` handler returns is one of the fixed statuses. -/
theorem todoListGRPC.GetLabels_fixed {σ : Type} (env : Env) (svc : todoListGRPC σ)
    (req : pbTodoList.GetLabelsRequest) (s : σ) (status : Status)
    (h : (todoListGRPC.GetLabels env svc req s).1.2 = some status) :
    status ∈ fixedStatuses := by
  rcases hv : tools.GetValidUUID env req.Id with ⟨taskId, _ | err⟩
  · simp only [todoListGRPC.GetLabels, hv] at h
    repeat' split at h
    all_goals simp_all [fixedStatuses, nilDereference]
  · simp only [todoListGRPC.GetLabels, hv, Option.some.injEq] at h
    subst h
    exact tools.GetValidUUID_fixed env req.Id taskId err hv

/-- Every error the `CreateLabel` handler returns is one of the fixed statuses. -/
theorem todoListGRPC.CreateLabel_fixed {σ : Type} (env : Env) (svc : todoListGRPC σ)
    (req : pbTodoList.CreateLabelRequest) (s : σ) (status : Status)
    (h : (todoListGRPC.CreateLabel env svc req s).1.2 = some status) :
    status ∈ fixedStatuses := by
  rcases hv : tools.GetValidUUID env req.Id with ⟨taskId, _ | err⟩
  · simp only [todoListGRPC.CreateLabel, hv] at h
    repeat' split at h
    all_goals simp_all [fixedStatuses, nilDereference]
  · simp only [todoListGRPC.CreateLabel, hv, Option.some.injEq] at h
    subst h
    exact tools.GetValidUUID_fixed env req.Id taskId err hv

/-- Every error the `DeleteLabel` handler returns is one of the fixed statuses. -/
theorem todoListGRPC.DeleteLabel_fixed {σ : Type} (env : Env) (svc : todoListGRPC σ) (now : Time)
    (req : pbTodoList.DeleteLabelRequest) (s : σ) (status : Status)
    (h : (todoListGRPC.DeleteLabel env svc now req s).1.2 = some status) :
    status ∈ fixedStatuses := by
  rcases hv : tools.GetValidUUID env req.Id with ⟨taskId, _ | err⟩
  · rcases hw : tools.GetValidUUID env req.LabelId with ⟨otherId, _ | err⟩
    · simp only [todoListGRPC.DeleteLabel, hv, hw] at h
      repeat' split at h
      all_goals simp_all [fixedStatuses, nilDereference]
    · simp only [todoListGRPC.DeleteLabel, hv, hw, Option.some.injEq] at h
      subst h
      exact tools.GetValidUUID_fixed env req.LabelId otherId err hw
  · simp only [todoListGRPC.DeleteLabel, hv, Option.some.injEq] at h
    subst h
    exact tools.GetValidUUID_fixed env req.Id taskId err hv

/-- Every error the `GetTasks` handler returns is one of the fixed statuses. -/
theorem todoListGRPC.GetTasks_fixed {σ : Type} (env : Env) (svc : todoListGRPC σ)
    (req : pbTodoList.GetTasksRequest) (s : σ) (status : Status)
    (h : (todoListGRPC.GetTasks env svc req s).1.2 = some status) :
    status ∈ fixedStatuses := by
  simp only [todoListGRPC.GetTasks] at h
  repeat' split at h
  all_goals simp_all [fixedStatuses, nilDereference]

/-- What the `CreateTask` handler does: a due date that is not blank is parsed
as it was sent, a blank one is no due date, and `CreateTask` of the repository is
called with the value and the due date; its failure is answered `Internal`. -/
theorem todoListGRPC.CreateTask_cases {σ : Type} (env : Env) (svc : todoListGRPC σ)
    (req : pbTodoList.CreateTaskRequest) (s : σ) :
    todoListGRPC.CreateTask env svc req s =
      if 0 < len (strings.TrimSpace env req.DueDate) then
        match env.Parse tools.TimeLayout req.DueDate with
        | .error _ => ((none, some ErrStatusCannotParseTimeLayout), s)
        | .ok dueDateTime =>
          match svc.taskRepository.CreateTask
              { Id := uuid.Nil, Value := req.Value, Completed := false,
                DueDate := some dueDateTime, CreatedAt := 0, UpdatedAt := 0, DeletedAt := none,
                Comments := [], Labels := [] } s with
          | ((_, some _), s1) => ((none, some ErrStatusInternalServerError), s1)
          | ((none, none), s1) => (nilDereference, s1)
          | ((some task, none), s1) =>
            match env.SetStatusCode http.StatusCreated with
            | some _ => ((none, some ErrStatusInternalServerError), s1)
            | none => ((some ⟨taskMessage env task⟩, none), s1)
      else
        match svc.taskRepository.CreateTask
            { Id := uuid.Nil, Value := req.Value, Completed := false, DueDate := none,
              CreatedAt := 0, UpdatedAt := 0, DeletedAt := none, Comments := [], Labels := [] }
            s with
        | ((_, some _), s1) => ((none, some ErrStatusInternalServerError), s1)
        | ((none, none), s1) => (nilDereference, s1)
        | ((some task, none), s1) =>
          match env.SetStatusCode http.StatusCreated with
          | some _ => ((none, some ErrStatusInternalServerError), s1)
          | none => ((some ⟨taskMessage env task⟩, none), s1) := by
  simp only [todoListGRPC.CreateTask, gt_iff_lt]
  split_ifs with hb
  · cases env.Parse tools.TimeLayout req.DueDate <;> simp only []
  · simp only []

/-- Every error the `CreateTask` handler returns is one of the fixed statuses. -/
theorem todoListGRPC.CreateTask_fixed {σ : Type} (env : Env) (svc : todoListGRPC σ)
    (req : pbTodoList.CreateTaskRequest) (s : σ) (status : Status)
    (h : (todoListGRPC.CreateTask env svc req s).1.2 = some status) :
    status ∈ fixedStatuses := by
  rw [todoListGRPC.CreateTask_cases] at h
  repeat' split at h
  all_goals simp_all [fixedStatuses, nilDereference]

end todolist


/-! ## The `CreateTask` handler -/

namespace todolist
open repository

/-- A string has a positive number of bytes exactly when it has a rune. -/
theorem len_pos_iff (s : String) : 0 < len s ↔ s.data ≠ [] := by
  obtain ⟨l⟩ := s
  cases l with
  | nil => simp [len, String.utf8ByteSize, String.utf8ByteSize.go]
  | cons c cs =>
    simp only [len, String.utf8ByteSize, String.utf8ByteSize.go, ne_eq, reduceCtorEq,
      not_false_eq_true, iff_true]
    have := Char.utf8Size_pos c
    omega

/-- Dropping the leading elements that satisfy a test leaves nothing exactly
when every element satisfies it. -/
theorem dropWhile_eq_nil_iff_all {α : Type} (p : α → Bool) (l : List α) :
    l.dropWhile p = [] ↔ ∀ a ∈ l, p a = true := by
  induction l with
  | nil => simp
  | cons a l ih =>
    by_cases h : p a = true
    · simp [List.dropWhile, h, ih]
    · simp [List.dropWhile, h]

/-- The trimmed string is not empty exactly when the string has a rune that is
not white space. -/
theorem strings.TrimSpace_nonblank_iff (env : Env) (s : String) :
    0 < len (strings.TrimSpace env s) ↔ ∃ r ∈ s.data, unicode.IsSpace env r = false := by
  rw [len_pos_iff]
  simp only [strings.TrimSpace, ne_eq, List.reverse_eq_nil_iff]
  rw [dropWhile_eq_nil_iff_all]
  simp only [List.mem_reverse]
  constructor
  · intro h
    by_contra hall
    apply h
    have hnil : s.data.dropWhile (unicode.IsSpace env) = [] := by
      rw [dropWhile_eq_nil_iff_all]
      intro a ha
      by_contra hp
      exact hall ⟨a, ha, by simpa using hp⟩
    rw [hnil]
    simp
  · rintro ⟨r, hr, hsp⟩ hall
    cases hd : s.data.dropWhile (unicode.IsSpace env) with
    | nil =>
      rw [dropWhile_eq_nil_iff_all] at hd
      have := hd r hr
      rw [hsp] at this
      exact absurd this (by simp)
    | cons a l =>
      have hhead : ¬ unicode.IsSpace env a = true := by
        have := List.head_dropWhile_not (unicode.IsSpace env) s.data (by rw [hd]; simp)
        simpa [hd] using this
      exact hhead (hall a (by rw [hd]; exact List.mem_cons_self _ _))

/-- Claim C24: the `CreateTask` handler returns `InvalidArgument` "cannot parse
timelayout" if and only if the due date of the request is not blank (it has a
rune that is not white space, so that trimming leaves something) and does not
parse against the layout, and then no repository is called. A blank due date is
no due date: the task passed to `CreateTask` of the repository has none; a due
date that parses is passed on; and in both cases a failure of the repository is
answered `Internal`. -/
theorem CreateTask_handler_due_date {σ : Type} (env : Env) (svc : todoListGRPC σ)
    (req : pbTodoList.CreateTaskRequest) (s : σ) :
    ((todoListGRPC.CreateTask env svc req s).1.2 = some ErrStatusCannotParseTimeLayout ↔
        (0 < len (strings.TrimSpace env req.DueDate)
          ∧ ∃ e, env.Parse tools.TimeLayout req.DueDate = .error e))
      ∧ (0 < len (strings.TrimSpace env req.DueDate) ↔
          ∃ r ∈ req.DueDate.data, unicode.IsSpace env r = false)
      ∧ (0 < len (strings.TrimSpace env req.DueDate) →
          ∀ e, env.Parse tools.TimeLayout req.DueDate = .error e →
          todoListGRPC.CreateTask env svc req s
            = ((none, some ErrStatusCannotParseTimeLayout), s))
      ∧ (¬ 0 < len (strings.TrimSpace env req.DueDate) →
          todoListGRPC.CreateTask env svc req s =
            match svc.taskRepository.CreateTask
                { Id := uuid.Nil, Value := req.Value, Completed := false, DueDate := none,
                  CreatedAt := 0, UpdatedAt := 0, DeletedAt := none, Comments := [],
                  Labels := [] } s with
            | ((_, some _), s1) => ((none, some ErrStatusInternalServerError), s1)
            | ((none, none), s1) => (nilDereference, s1)
            | ((some task, none), s1) =>
              match env.SetStatusCode http.StatusCreated with
              | some _ => ((none, some ErrStatusInternalServerError), s1)
              | none => ((some ⟨taskMessage env task⟩, none), s1))
      ∧ (0 < len (strings.TrimSpace env req.DueDate) →
          ∀ dueDateTime, env.Parse tools.TimeLayout req.DueDate = .ok dueDateTime →
          todoListGRPC.CreateTask env svc req s =
            match svc.taskRepository.CreateTask
                { Id := uuid.Nil, Value := req.Value, Completed := false,
                  DueDate := some dueDateTime, CreatedAt := 0, UpdatedAt := 0,
                  DeletedAt := none, Comments := [], Labels := [] } s with
            | ((_, some _), s1) => ((none, some ErrStatusInternalServerError), s1)
            | ((none, none), s1) => (nilDereference, s1)
            | ((some task, none), s1) =>
              match env.SetStatusCode http.StatusCreated with
              | some _ => ((none, some ErrStatusInternalServerError), s1)
              | none => ((some ⟨taskMessage env task⟩, none), s1)) := by
  have hne : ErrStatusInternalServerError ≠ ErrStatusCannotParseTimeLayout := by decide
  refine ⟨?_, strings.TrimSpace_nonblank_iff env req.DueDate, ?_, ?_, ?_⟩
  · rw [todoListGRPC.CreateTask_cases]
    by_cases hb : 0 < len (strings.TrimSpace env req.DueDate)
    · rw [if_pos hb]
      cases hp : env.Parse tools.TimeLayout req.DueDate with
      | error e => simp [hb]
      | ok t =>
        simp only [hb, true_and, exists_false, iff_false, reduceCtorEq]
        intro h
        repeat' split at h
        all_goals simp_all [nilDereference]
    · rw [if_neg hb]
      simp only [hb, false_and, iff_false]
      intro h
      repeat' split at h
      all_goals simp_all [nilDereference]
  · intro hb e hp
    rw [todoListGRPC.CreateTask_cases, if_pos hb, hp]
  · intro hb
    rw [todoListGRPC.CreateTask_cases, if_neg hb]
  · intro hb t hp
    rw [todoListGRPC.CreateTask_cases, if_pos hb, hp]

/-- Witness of `CreateTask_handler_due_date`: the request of the test
`CreateTask_ErrStatusCannotParseTimeLayout`, whose due date is not a time, and a
request whose due date is only white space, on the one-task store. -/
theorem CreateTask_handler_due_date_witness :
    todoListGRPC.CreateTask sampleEnv storeGRPC { Value := "x", DueDate := "not a date" }
        oneTaskConn = ((none, some ErrStatusCannotParseTimeLayout), oneTaskConn)
      ∧ (todoListGRPC.CreateTask sampleEnv storeGRPC { Value := "x", DueDate := "  " }
          oneTaskConn).1
        = (some ⟨{ Id := "10", Value := "x", Completed := false, DueDate := "",
                   CreatedAt := "100", UpdatedAt := "100" }⟩, none) :=
  ⟨(CreateTask_handler_due_date sampleEnv storeGRPC { Value := "x", DueDate := "not a date" }
      oneTaskConn).2.2.1 (by decide) _ rfl,
   ((CreateTask_handler_due_date sampleEnv storeGRPC { Value := "x", DueDate := "  " }
      oneTaskConn).2.2.2.1 (by decide)).symm ▸ (by decide)⟩

end todolist

/-! ## Internal failures do not tell their cause -/

namespace todolist
open repository

/-- Claim C22: internal failures never leak their cause. At every call of a
repository in every handler, an error the handler does not recognise there (any
error but `ErrTaskNotFound` for `GetTask` and `DeleteTask`, but
`ErrCommentNotFound` for the comments of `GetTask` and for `DeleteComment`, but
`ErrLabelNotFound` for the labels of `GetTask` and for `DeleteLabel`, but
`ErrLabelAlreadyExists` for `CreateLabel`, and any error at all elsewhere) gives
the same outcome whatever the error is: a nil response with the status
`Internal` "internal server error". And every error any of the twelve handlers
returns is one of the fixed statuses. -/
theorem handlers_never_leak_internal_cause {σ : Type} (env : Env) (svc : todoListGRPC σ)
    (now : Time) (s : σ) :
    ErrStatusInternalServerError = ⟨.Internal, "internal server error"⟩
      -- the call of `GetTask` in the seven handlers that look the task up
      ∧ (∀ (id : String) (taskId : UUID) (v : Option Task) (e : Err) (s1 : σ),
          tools.GetValidUUID env id = (taskId, none) →
          svc.taskRepository.GetTask taskId s = ((v, some e), s1) →
          e ≠ .ErrTaskNotFound →
          (∀ req : pbTodoList.GetTaskRequest, req.Id = id →
              todoListGRPC.GetTask env svc req s
                = ((none, some ErrStatusInternalServerError), s1))
            ∧ (∀ req : pbTodoList.UpdateTaskRequest, req.Id = id →
              todoListGRPC.UpdateTask env svc now req s
                = ((none, some ErrStatusInternalServerError), s1))
            ∧ (∀ req : pbTodoList.UpdateTaskStatusRequest, req.Id = id →
              todoListGRPC.UpdateTaskStatus env svc now req s
                = ((none, some ErrStatusInternalServerError), s1))
            ∧ (∀ req : pbTodoList.GetCommentsRequest, req.Id = id →
              todoListGRPC.GetComments env svc req s
                = ((none, some ErrStatusInternalServerError), s1))
            ∧ (∀ req : pbTodoList.CreateCommentRequest, req.Id = id →
              todoListGRPC.CreateComment env svc req s
                = ((none, some ErrStatusInternalServerError), s1))
            ∧ (∀ req : pbTodoList.GetLabelsRequest, req.Id = id →
              todoListGRPC.GetLabels env svc req s
                = ((none, some ErrStatusInternalServerError), s1))
            ∧ (∀ req : pbTodoList.CreateLabelRequest, req.Id = id →
              todoListGRPC.CreateLabel env svc req s
                = ((none, some ErrStatusInternalServerError), s1)))
      -- the calls that follow a task that was found
      ∧ (∀ (id : String) (taskId : UUID) (task : Task) (s1 : σ),
          tools.GetValidUUID env id = (taskId, none) →
          svc.taskRepository.GetTask taskId s = ((some task, none), s1) →
          (∀ (req : pbTodoList.GetTaskRequest) (v : Option (List Comment)) (e : Err) (s2 : σ),
              req.Id = id →
              svc.commentRepository.GetCommentsByTaskId taskId s1 = ((v, some e), s2) →
              e ≠ .ErrCommentNotFound →
              todoListGRPC.GetTask env svc req s
                = ((none, some ErrStatusInternalServerError), s2))
            ∧ (∀ (req : pbTodoList.GetTaskRequest) (cv : Option (List Comment))
                (ce : Option Err) (s2 : σ) (v : Option (List Label)) (e : Err) (s3 : σ),
              req.Id = id →
              svc.commentRepository.GetCommentsByTaskId taskId s1 = ((cv, ce), s2) →
              (ce = none ∨ ce = some .ErrCommentNotFound) →
              svc.labelRepository.GetLabelsByTaskId taskId s2 = ((v, some e), s3) →
              e ≠ .ErrLabelNotFound →
              todoListGRPC.GetTask env svc req s
                = ((none, some ErrStatusInternalServerError), s3))
            ∧ (∀ (req : pbTodoList.UpdateTaskRequest) (e : Err) (s2 : σ),
              req.Id = id → task.DueDate = none →
              svc.taskRepository.UpdateTask now
                  { task with Completed := req.Completed, Value := req.Value } s1
                = (some e, s2) →
              todoListGRPC.UpdateTask env svc now req s
                = ((none, some ErrStatusInternalServerError), s2))
            ∧ (∀ (req : pbTodoList.UpdateTaskRequest) (dueDateTime : Time) (e : Err) (s2 : σ),
              req.Id = id → task.DueDate ≠ none →
              env.Parse tools.TimeLayout req.DueDate = .ok dueDateTime →
              svc.taskRepository.UpdateTask now
                  { task with Completed := req.Completed, Value := req.Value,
                              DueDate := some dueDateTime } s1
                = (some e, s2) →
              todoListGRPC.UpdateTask env svc now req s
                = ((none, some ErrStatusInternalServerError), s2))
            ∧ (∀ (req : pbTodoList.UpdateTaskStatusRequest) (e : Err) (s2 : σ),
              req.Id = id →
              svc.taskRepository.UpdateTask now { task with Completed := req.Completed } s1
                = (some e, s2) →
              todoListGRPC.UpdateTaskStatus env svc now req s
                = ((none, some ErrStatusInternalServerError), s2))
            ∧ (∀ (req : pbTodoList.GetCommentsRequest) (v : Option (List Comment)) (e : Err)
                (s2 : σ),
              req.Id = id →
              svc.commentRepository.GetCommentsByTaskId task.Id s1 = ((v, some e), s2) →
              todoListGRPC.GetComments env svc req s
                = ((none, some ErrStatusInternalServerError), s2))
            ∧ (∀ (req : pbTodoList.CreateCommentRequest) (v : Option Comment) (e : Err) (s2 : σ),
              req.Id = id →
              svc.commentRepository.CreateComment
                  { Id := uuid.Nil, TaskId := task.Id, Value := req.Comment, CreatedAt := 0,
                    DeletedAt := none } s1 = ((v, some e), s2) →
              todoListGRPC.CreateComment env svc req s
                = ((none, some ErrStatusInternalServerError), s2))
            ∧ (∀ (req : pbTodoList.GetLabelsRequest) (v : Option (List Label)) (e : Err)
                (s2 : σ),
              req.Id = id →
              svc.labelRepository.GetLabelsByTaskId task.Id s1 = ((v, some e), s2) →
              todoListGRPC.GetLabels env svc req s
                = ((none, some ErrStatusInternalServerError), s2))
            ∧ (∀ (req : pbTodoList.CreateLabelRequest) (v : Option Label) (e : Err) (s2 : σ),
              req.Id = id →
              svc.labelRepository.CreateLabel
                  { Id := uuid.Nil, TaskId := task.Id, Value := strings.ToLower env req.Label,
                    CreatedAt := 0, DeletedAt := none } s1 = ((v, some e), s2) →
              e ≠ .ErrLabelAlreadyExists →
              todoListGRPC.CreateLabel env svc req s
                = ((none, some ErrStatusInternalServerError), s2)))
      -- the handlers that do not look the task up
      ∧ (∀ (req : pbTodoList.GetTasksRequest) (v : Option (List Task)) (e : Err) (s1 : σ),
          svc.taskRepository.GetTasks req.Page s = ((v, some e), s1) →
          todoListGRPC.GetTasks env svc req s
            = ((none, some ErrStatusInternalServerError), s1))
      ∧ (∀ (req : pbTodoList.CreateTaskRequest) (v : Option Task) (e : Err) (s1 : σ),
          ¬ 0 < len (strings.TrimSpace env req.DueDate) →
          svc.taskRepository.CreateTask
              { Id := uuid.Nil, Value := req.Value, Completed := false, DueDate := none,
                CreatedAt := 0, UpdatedAt := 0, DeletedAt := none, Comments := [],
                Labels := [] } s = ((v, some e), s1) →
          todoListGRPC.CreateTask env svc req s
            = ((none, some ErrStatusInternalServerError), s1))
      ∧ (∀ (req : pbTodoList.CreateTaskRequest) (dueDateTime : Time) (v : Option Task)
            (e : Err) (s1 : σ),
          0 < len (strings.TrimSpace env req.DueDate) →
          env.Parse tools.TimeLayout req.DueDate = .ok dueDateTime →
          svc.taskRepository.CreateTask
              { Id := uuid.Nil, Value := req.Value, Completed := false,
                DueDate := some dueDateTime, CreatedAt := 0, UpdatedAt := 0,
                DeletedAt := none, Comments := [], Labels := [] } s = ((v, some e), s1) →
          todoListGRPC.CreateTask env svc req s
            = ((none, some ErrStatusInternalServerError), s1))
      ∧ (∀ (req : pbTodoList.DeleteTaskRequest) (taskId : UUID) (e : Err) (s1 : σ),
          tools.GetValidUUID env req.Id = (taskId, none) →
          svc.taskRepository.DeleteTask now taskId s = (some e, s1) →
          e ≠ .ErrTaskNotFound →
          todoListGRPC.DeleteTask env svc now req s
            = ((none, some ErrStatusInternalServerError), s1))
      ∧ (∀ (req : pbTodoList.DeleteCommentRequest) (taskId commentId : UUID) (e : Err)
            (s1 : σ),
          tools.GetValidUUID env req.Id = (taskId, none) →
          tools.GetValidUUID env req.CommentId = (commentId, none) →
          svc.commentRepository.DeleteCommentByTaskIdAndCommentId now taskId commentId s
            = (some e, s1) →
          e ≠ .ErrCommentNotFound →
          todoListGRPC.DeleteComment env svc now req s
            = ((none, some ErrStatusInternalServerError), s1))
      ∧ (∀ (req : pbTodoList.DeleteLabelRequest) (taskId labelId : UUID) (e : Err) (s1 : σ),
          tools.GetValidUUID env req.Id = (taskId, none) →
          tools.GetValidUUID env req.LabelId = (labelId, none) →
          svc.labelRepository.DeleteLabelByTaskIdAndLabelId now taskId labelId s
            = (some e, s1) →
          e ≠ .ErrLabelNotFound →
          todoListGRPC.DeleteLabel env svc now req s
            = ((none, some ErrStatusInternalServerError), s1))
      -- every error returned is one of the fixed statuses
      ∧ (∀ status : Status,
          (∀ req, (todoListGRPC.GetTask env svc req s).1.2 = some status →
              status ∈ fixedStatuses)
            ∧ (∀ req, (todoListGRPC.GetTasks env svc req s).1.2 = some status →
              status ∈ fixedStatuses)
            ∧ (∀ req, (todoListGRPC.CreateTask env svc req s).1.2 = some status →
              status ∈ fixedStatuses)
            ∧ (∀ req, (todoListGRPC.UpdateTask env svc now req s).1.2 = some status →
              status ∈ fixedStatuses)
            ∧ (∀ req, (todoListGRPC.DeleteTask env svc now req s).1.2 = some status →
              status ∈ fixedStatuses)
            ∧ (∀ req, (todoListGRPC.UpdateTaskStatus env svc now req s).1.2 = some status →
              status ∈ fixedStatuses)
            ∧ (∀ req, (todoListGRPC.GetComments env svc req s).1.2 = some status →
              status ∈ fixedStatuses)
            ∧ (∀ req, (todoListGRPC.CreateComment env svc req s).1.2 = some status →
              status ∈ fixedStatuses)
            ∧ (∀ req, (todoListGRPC.DeleteComment env svc now req s).1.2 = some status →
              status ∈ fixedStatuses)
            ∧ (∀ req, (todoListGRPC.GetLabels env svc req s).1.2 = some status →
              status ∈ fixedStatuses)
            ∧ (∀ req, (todoListGRPC.CreateLabel env svc req s).1.2 = some status →
              status ∈ fixedStatuses)
            ∧ (∀ req, (todoListGRPC.DeleteLabel env svc now req s).1.2 = some status →
              status ∈ fixedStatuses)) := by
  refine ⟨rfl, ?_, ?_, ?_, ?_, ?_, ?_, ?_, ?_, ?_⟩
  · intro id taskId v e s1 hid hget hne
    refine ⟨?_, ?_, ?_, ?_, ?_, ?_, ?_⟩ <;> intro req hreq <;> subst hreq
    · simp [todoListGRPC.GetTask, hid, hget, hne]
    · simp [todoListGRPC.UpdateTask, hid, hget, hne]
    · simp [todoListGRPC.UpdateTaskStatus, hid, hget, hne]
    · simp [todoListGRPC.GetComments, hid, hget, hne]
    · simp [todoListGRPC.CreateComment, hid, hget, hne]
    · simp [todoListGRPC.GetLabels, hid, hget, hne]
    · simp [todoListGRPC.CreateLabel, hid, hget, hne]
  · intro id taskId task s1 hid hget
    refine ⟨?_, ?_, ?_, ?_, ?_, ?_, ?_, ?_, ?_⟩
    · intro req v e s2 hreq hc hne
      subst hreq
      simp [todoListGRPC.GetTask, hid, hget, hc, hne]
    · intro req cv ce s2 v e s3 hreq hc hce hl hne
      subst hreq
      rcases hce with hce | hce <;> subst hce <;>
        simp [todoListGRPC.GetTask, hid, hget, hc, hl, hne]
    · intro req e s2 hreq hd hu
      subst hreq
      rw [todoListGRPC.UpdateTask_found env svc now req s s1 taskId task hid hget]
      simp only [hd] at hu ⊢
      simp only [hu]
    · intro req t e s2 hreq hd hp hu
      subst hreq
      rw [todoListGRPC.UpdateTask_found env svc now req s s1 taskId task hid hget]
      cases htd : task.DueDate with
      | none => exact absurd htd hd
      | some d => simp only [hp, hu]
    · intro req e s2 hreq hu
      subst hreq
      simp [todoListGRPC.UpdateTaskStatus, hid, hget, hu]
    · intro req v e s2 hreq hc
      subst hreq
      simp [todoListGRPC.GetComments, hid, hget, hc]
    · intro req v e s2 hreq hc
      subst hreq
      simp [todoListGRPC.CreateComment, hid, hget, hc]
    · intro req v e s2 hreq hc
      subst hreq
      simp [todoListGRPC.GetLabels, hid, hget, hc]
    · intro req v e s2 hreq hc hne
      subst hreq
      simp [todoListGRPC.CreateLabel, hid, hget, hc, hne]
  · intro req v e s1 h
    simp [todoListGRPC.GetTasks, h]
  · intro req v e s1 hb h
    rw [todoListGRPC.CreateTask_cases, if_neg hb]
    simp only [h]
  · intro req t v e s1 hb hp h
    rw [todoListGRPC.CreateTask_cases, if_pos hb]
    simp only [hp, h]
  · intro req taskId e s1 hid h hne
    simp [todoListGRPC.DeleteTask, hid, h, hne]
  · intro req taskId commentId e s1 hid hcid h hne
    simp [todoListGRPC.DeleteComment, hid, hcid, h, hne]
  · intro req taskId labelId e s1 hid hlid h hne
    simp [todoListGRPC.DeleteLabel, hid, hlid, h, hne]
  · intro status
    exact ⟨fun req h => todoListGRPC.GetTask_fixed env svc req s status h,
      fun req h => todoListGRPC.GetTasks_fixed env svc req s status h,
      fun req h => todoListGRPC.CreateTask_fixed env svc req s status h,
      fun req h => todoListGRPC.UpdateTask_fixed env svc now req s status h,
      fun req h => todoListGRPC.DeleteTask_fixed env svc now req s status h,
      fun req h => todoListGRPC.UpdateTaskStatus_fixed env svc now req s status h,
      fun req h => todoListGRPC.GetComments_fixed env svc req s status h,
      fun req h => todoListGRPC.CreateComment_fixed env svc req s status h,
      fun req h => todoListGRPC.DeleteComment_fixed env svc now req s status h,
      fun req h => todoListGRPC.GetLabels_fixed env svc req s status h,
      fun req h => todoListGRPC.CreateLabel_fixed env svc req s status h,
      fun req h => todoListGRPC.DeleteLabel_fixed env svc now req s status h⟩

end todolist

namespace todolist
open repository

/-- Witness of `handlers_never_leak_internal_cause`: on a scripted database whose
queries fail, the `GetTask` handler answers a closed connection and a finished
transaction alike, and the error is one of the fixed statuses. -/
theorem handlers_never_leak_internal_cause_witness :
    (todoListGRPC.GetTask sampleEnv mockGRPC ⟨"7"⟩ (mockRowError .ErrConnDone)).1
        = (none, some ErrStatusInternalServerError)
      ∧ (todoListGRPC.GetTask sampleEnv mockGRPC ⟨"7"⟩ (mockRowError .ErrTxDone)).1
        = (none, some ErrStatusInternalServerError)
      ∧ ErrStatusInternalServerError ∈ fixedStatuses :=
  ⟨congrArg Prod.fst
      (((handlers_never_leak_internal_cause sampleEnv mockGRPC 0
          (mockRowError .ErrConnDone)).2.1 "7" 7 none .ErrConnDone _ rfl rfl (by decide)).1
        ⟨"7"⟩ rfl),
   congrArg Prod.fst
      (((handlers_never_leak_internal_cause sampleEnv mockGRPC 0
          (mockRowError .ErrTxDone)).2.1 "7" 7 none .ErrTxDone _ rfl rfl (by decide)).1
        ⟨"7"⟩ rfl),
   ((handlers_never_leak_internal_cause sampleEnv mockGRPC 0
      (mockRowError .ErrConnDone)).2.2.2.2.2.2.2.2.2 ErrStatusInternalServerError).1 ⟨"7"⟩
      (by decide)⟩

end todolist
